import Mathlib

/-!
# EliteControl / CloudControl: validators, formatters, services and service worker

A shallow embedding of `src/utils/validators.js`, `src/utils/formatters.js`,
`src/services/crm/crm-service.js`, `src/services/search-service.js`,
`src/services/firebase/database-service.js`, the login error mapping and the callback
registry of `src/services/firebase/auth-service.js`, the `catch` block of `handleLogin` in
`src/utils/main-old.js`, and the `fetch` listener of `src/sw.js`.
-/

namespace ManusNewC

/-! ## Strings -/

/-- A JavaScript string value, as the sequence of its characters. A character outside the
Basic Multilingual Plane, which JavaScript holds as two code units, is one character here;
the classes the validators test (`\d`, `\s`, `@`, `.`) contain no such character and no
surrogate, so the tests below agree with those on code units. -/
abbrev Str := List Char

/-- The JavaScript class `\s` (white space and line terminators), which is also the set of
characters `String.prototype.trim` strips. -/
def isWhitespace (c : Char) : Bool :=
  let n := c.toNat
  n == 0x09 || n == 0x0A || n == 0x0B || n == 0x0C || n == 0x0D || n == 0x20 || n == 0xA0 ||
  n == 0x1680 || (0x2000 ≤ n && n ≤ 0x200A) || n == 0x2028 || n == 0x2029 || n == 0x202F ||
  n == 0x205F || n == 0x3000 || n == 0xFEFF

/-- The call `s.replace(/\D/g, '')`: every character outside `0-9` is removed. -/
def stripNonDigits (s : Str) : Str := s.filter Char.isDigit

/-- The test `/^(\d)\1+$/.test(s)`: one digit, then one or more repetitions of that same
digit, up to the end of the string. -/
def allSameDigit : Str → Bool
  | [] => false
  | c :: rest => c.isDigit && !rest.isEmpty && rest.all (fun x => x == c)

/-- The call `s.substring(a, b)` for `a ≤ b`: the characters at positions `a .. b-1`. -/
def substring (s : Str) (a b : Nat) : Str := (s.take b).drop a

/-- The call `s.charAt(i)`: the one-character string at position `i`, or the empty string. -/
def charAt (s : Str) (i : Nat) : Str := (s.drop i).take 1

/-- The call `parseInt(s)` on a string that holds nothing but ASCII digits, which is all the
validators pass to it: the decimal value of the digits, and `none` (JavaScript `NaN`) for the
empty string. -/
def parseInt (s : Str) : Option Nat :=
  match s.takeWhile Char.isDigit with
  | [] => none
  | ds => some (ds.foldl (fun n c => 10 * n + (c.toNat - 48)) 0)

/-! ## `isValidCPF` -/

/-- The two statements after each summation loop of `isValidCPF`:
`remainder = (sum * 10) % 11; if (remainder === 10 || remainder === 11) remainder = 0`. -/
def cpfRemainder (sum : Nat) : Nat :=
  let remainder := (sum * 10) % 11
  if remainder = 10 ∨ remainder = 11 then 0 else remainder

/-- The loop `for (i = 1; i <= n; i++) sum += parseInt(cpf.substring(i - 1, i)) * (k - i)`
starting from `sum = 0`; `none` is `NaN`. -/
def cpfSum (cpf : Str) (n k : Nat) : Option Nat :=
  (List.range' 1 n).foldlM
    (fun sum i => (parseInt (substring cpf (i - 1) i)).map (fun d => sum + d * (k - i))) 0

/-- The function `isValidCPF` of `src/utils/validators.js`. -/
def isValidCPF (cpf : Str) : Bool :=
  if cpf.isEmpty then false
  else
    let cpf := stripNonDigits cpf
    if cpf.length ≠ 11 then false
    else if allSameDigit cpf then false
    else
      match cpfSum cpf 9 11 with
      | none => false
      | some sum =>
        if some (cpfRemainder sum) ≠ parseInt (substring cpf 9 10) then false
        else
          match cpfSum cpf 10 12 with
          | none => false
          | some sum =>
            if some (cpfRemainder sum) ≠ parseInt (substring cpf 10 11) then false
            else true

/-! ### The standard rule, as the specification words it -/

/-- The numeric value of a digit character. -/
def digitVal (c : Char) : Nat := c.toNat - 48

/-- The ASCII digits of a string, in order, as numbers. -/
def digitValues (s : Str) : List Nat :=
  (s.filter Char.isDigit).map digitVal

/-- The standard check digit for a weighted sum: `r = sum mod 11`, digit `0` if `r < 2`,
else `11 - r`. -/
def standardCheckDigit (sum : Nat) : Nat :=
  let r := sum % 11
  if r < 2 then 0 else 11 - r

/-- The weighted sum `d_1 * w_1 + ... + d_n * w_n`. -/
def weightedSum (ds ws : List Nat) : Nat := (List.zipWith (fun d w => d * w) ds ws).sum

/-- The standard CPF rule: exactly 11 digits, not all equal, the 10th the check digit of the
first nine (weights 10 down to 2) and the 11th the check digit of the first ten (weights 11
down to 2). -/
def StandardCPF (s : Str) : Prop :=
  let d := digitValues s
  d.length = 11 ∧ (¬ ∃ x, ∀ y ∈ d, y = x) ∧
  d[9]? = some (standardCheckDigit (weightedSum (d.take 9) [10, 9, 8, 7, 6, 5, 4, 3, 2])) ∧
  d[10]? = some (standardCheckDigit (weightedSum (d.take 10) [11, 10, 9, 8, 7, 6, 5, 4, 3, 2]))

/-! ## `isValidCNPJ` -/

/-- The loop
`for (i = size; i >= 1; i--) { sum += parseInt(numbers.charAt(size - i)) * pos--; if (pos < 2) pos = 9; }`
of `isValidCNPJ`, from `sum = 0` and `pos = size - 7`; the state is `(sum, pos)` and `none` is
`NaN`. The position counter never falls below 1, so the decrement is that of the naturals. -/
def cnpjSum (numbers : Str) (size : Nat) : Option Nat :=
  ((List.range' 1 size).reverse.foldlM
    (fun (st : Nat × Nat) i =>
      (parseInt (charAt numbers (size - i))).map (fun d =>
        let sum := st.1 + d * st.2
        let pos := st.2 - 1
        (sum, if pos < 2 then 9 else pos)))
    (0, size - 7)).map Prod.fst

/-- The assignment `result = sum % 11 < 2 ? 0 : 11 - (sum % 11)` of `isValidCNPJ`. -/
def cnpjResult (sum : Nat) : Nat := if sum % 11 < 2 then 0 else 11 - sum % 11

/-- The function `isValidCNPJ` of `src/utils/validators.js`. -/
def isValidCNPJ (cnpj : Str) : Bool :=
  if cnpj.isEmpty then false
  else
    let cnpj := stripNonDigits cnpj
    if cnpj.length ≠ 14 then false
    else if allSameDigit cnpj then false
    else
      let size := cnpj.length - 2
      let numbers := substring cnpj 0 size
      let digits := cnpj.drop size
      match cnpjSum numbers size with
      | none => false
      | some sum =>
        if some (cnpjResult sum) ≠ parseInt (charAt digits 0) then false
        else
          let size := size + 1
          let numbers := substring cnpj 0 size
          match cnpjSum numbers size with
          | none => false
          | some sum =>
            if some (cnpjResult sum) ≠ parseInt (charAt digits 1) then false
            else true

/-- The standard CNPJ rule: exactly 14 digits, not all equal, the 13th the check digit of the
first twelve (weights 5,4,3,2,9,8,7,6,5,4,3,2) and the 14th the check digit of the first
thirteen (weights 6,5,4,3,2,9,8,7,6,5,4,3,2). -/
def StandardCNPJ (s : Str) : Prop :=
  let d := digitValues s
  d.length = 14 ∧ (¬ ∃ x, ∀ y ∈ d, y = x) ∧
  d[12]? = some (standardCheckDigit
    (weightedSum (d.take 12) [5, 4, 3, 2, 9, 8, 7, 6, 5, 4, 3, 2])) ∧
  d[13]? = some (standardCheckDigit
    (weightedSum (d.take 13) [6, 5, 4, 3, 2, 9, 8, 7, 6, 5, 4, 3, 2]))

/-! ## Regular expressions and `isValidEmail` -/

/-- The regular expressions the validators test whole strings against: character classes,
concatenation, alternation and repetition. -/
inductive Regex where
  | never : Regex
  | eps : Regex
  | cls (p : Char → Bool) : Regex
  | seq (r t : Regex) : Regex
  | alt (r t : Regex) : Regex
  | star (r : Regex) : Regex

namespace Regex

/-- The repetition `r+`. -/
def plus (r : Regex) : Regex := seq r (star r)

/-- A single literal character. -/
def chr (c : Char) : Regex := cls (fun x => x == c)

/-- Whether the expression matches the empty string. -/
def nullable : Regex → Bool
  | never => false
  | eps => true
  | cls _ => false
  | seq r t => nullable r && nullable t
  | alt r t => nullable r || nullable t
  | star _ => true

/-- The expression matching what is left of a match of `r` once the character `c` is read. -/
def deriv : Regex → Char → Regex
  | never, _ => never
  | eps, _ => never
  | cls p, c => if p c then eps else never
  | seq r t, c =>
    if nullable r then alt (seq (deriv r c) t) (deriv t c) else seq (deriv r c) t
  | alt r t, c => alt (deriv r c) (deriv t c)
  | star r, c => seq (deriv r c) (star r)

/-- The call `/^r$/.test(s)`: the whole string matches `r`. -/
def test (r : Regex) (s : Str) : Bool := nullable (s.foldl deriv r)

/-- The strings an expression denotes. -/
def Matches : Regex → Str → Prop
  | never, _ => False
  | eps, s => s = []
  | cls p, s => ∃ c, s = [c] ∧ p c = true
  | seq r t, s => ∃ u v, s = u ++ v ∧ Matches r u ∧ Matches t v
  | alt r t, s => Matches r s ∨ Matches t s
  | star r, s => ∃ L : List Str, s = L.flatten ∧ ∀ x ∈ L, x ≠ [] ∧ Matches r x

end Regex

/-- The class `[^\s@]`: any character that is neither white space nor `@`. -/
def notSpaceAt (c : Char) : Bool := !(isWhitespace c) && !(c == '@')

/-- The expression `[^\s@]+@[^\s@]+\.[^\s@]+` of `isValidEmail`. -/
def emailRegex : Regex :=
  .seq (.plus (.cls notSpaceAt))
    (.seq (.chr '@')
      (.seq (.plus (.cls notSpaceAt))
        (.seq (.chr '.') (.plus (.cls notSpaceAt)))))

/-- The function `isValidEmail` of `src/utils/validators.js`. -/
def isValidEmail (email : Str) : Bool :=
  if email.isEmpty then false
  else emailRegex.test email

/-- The rule the specification words: no white space, exactly one `@`, at least one
character before it, and after it a `.` that is neither the first nor the last character of
that part. -/
def EmailRule (s : Str) : Prop :=
  (∀ c ∈ s, isWhitespace c = false) ∧ s.count '@' = 1 ∧
  ∃ l d : Str, s = l ++ '@' :: d ∧ l ≠ [] ∧
    ∃ i, 0 < i ∧ i + 1 < d.length ∧ d[i]? = some '.'

/-! ## `isValidPhone` and the formatters used by the CRM service -/

/-- The function `isValidPhone` of `src/utils/validators.js`. -/
def isValidPhone (phone : Str) : Bool :=
  if phone.isEmpty then false
  else
    let phone := stripNonDigits phone
    if phone.length < 8 ∨ phone.length > 11 then false
    else if allSameDigit phone then false
    else true

/-- A piece of a replacement pattern such as `$1.$2.$3-$4`: a reference to a group, or a
literal character. -/
inductive Piece where
  | group (n : Nat) : Piece
  | lit (c : Char) : Piece
deriving DecidableEq, Repr

/-- Cuts a string into consecutive groups of the given widths. -/
def splitGroups : List Nat → Str → List Str
  | [], _ => []
  | w :: ws, s => s.take w :: splitGroups ws (s.drop w)

/-- The text a replacement pattern gives for the captured groups `$1`, `$2`, ... -/
def fillPattern (pattern : List Piece) (groups : List Str) : Str :=
  (pattern.map (fun piece =>
    match piece with
    | .group n => groups.getD (n - 1) []
    | .lit c => [c])).flatten

/-- The call `s.replace(/(\d{w1})(\d{w2})...(\d{wk})/, pattern)`, without the `g` flag: the
leftmost run of `w1 + ... + wk` consecutive digits is replaced by the pattern filled with the
groups, the text before and after it is kept, and a string without such a run is returned
unchanged. -/
def replaceDigitGroups (widths : List Nat) (pattern : List Piece) : Str → Str
  | [] => []
  | c :: s =>
    if ((c :: s).take widths.sum).length = widths.sum ∧
        ((c :: s).take widths.sum).all Char.isDigit then
      fillPattern pattern (splitGroups widths ((c :: s).take widths.sum)) ++
        (c :: s).drop widths.sum
    else c :: replaceDigitGroups widths pattern s

/-- The function `formatCPF` of `src/utils/formatters.js`:
`numbers.replace(/(\d{3})(\d{3})(\d{3})(\d{2})/, '$1.$2.$3-$4')`. -/
def formatCPF (cpf : Str) : Str :=
  if cpf.isEmpty then []
  else
    let numbers := stripNonDigits cpf
    if numbers.length ≠ 11 then cpf
    else replaceDigitGroups [3, 3, 3, 2]
      [.group 1, .lit '.', .group 2, .lit '.', .group 3, .lit '-', .group 4] numbers

/-- The function `formatCNPJ` of `src/utils/formatters.js`:
`numbers.replace(/(\d{2})(\d{3})(\d{3})(\d{4})(\d{2})/, '$1.$2.$3/$4-$5')`. -/
def formatCNPJ (cnpj : Str) : Str :=
  if cnpj.isEmpty then []
  else
    let numbers := stripNonDigits cnpj
    if numbers.length ≠ 14 then cnpj
    else replaceDigitGroups [2, 3, 3, 4, 2]
      [.group 1, .lit '.', .group 2, .lit '.', .group 3, .lit '/', .group 4, .lit '-',
       .group 5] numbers

/-- The function `formatDocument` of `src/utils/formatters.js`. -/
def formatDocument (doc : Str) : Str :=
  if doc.isEmpty then []
  else
    let numbers := stripNonDigits doc
    if numbers.length = 11 then formatCPF numbers
    else if numbers.length = 14 then formatCNPJ numbers
    else doc

/-- The function `formatPhone` of `src/utils/formatters.js`, with its four calls of
`numbers.replace`: `(\d{2})(\d{5})(\d{4})` and `(\d{2})(\d{4})(\d{4})` to `($1) $2-$3`,
`(\d{5})(\d{4})` and `(\d{4})(\d{4})` to `$1-$2`. -/
def formatPhone (phone : Str) : Str :=
  if phone.isEmpty then []
  else
    let numbers := stripNonDigits phone
    if numbers.length = 11 then
      replaceDigitGroups [2, 5, 4]
        [.lit '(', .group 1, .lit ')', .lit ' ', .group 2, .lit '-', .group 3] numbers
    else if numbers.length = 10 then
      replaceDigitGroups [2, 4, 4]
        [.lit '(', .group 1, .lit ')', .lit ' ', .group 2, .lit '-', .group 3] numbers
    else if numbers.length = 9 then
      replaceDigitGroups [5, 4] [.group 1, .lit '-', .group 2] numbers
    else if numbers.length = 8 then
      replaceDigitGroups [4, 4] [.group 1, .lit '-', .group 2] numbers
    else phone

/-! ## JavaScript numbers -/

/-- A JavaScript number, that is an IEEE-754 binary64 value. A finite value is `fin k`, the
integer `k` counting units of `2^-1074`, the smallest positive number: every finite binary64
value is a whole number of these units, of magnitude `m * 2^s` with `m < 2^53` and at most
`(2^53 - 1) * 2^2045`. `negZero` is `-0` (`fin 0` is `+0`), `inf false` is `Infinity`,
`inf true` is `-Infinity`, and `nan` is `NaN`. -/
inductive Number where
  | fin (k : Int)
  | negZero
  | inf (negative : Bool)
  | nan
deriving DecidableEq, Repr

namespace Number

/-- The number of binary places of a number: the smallest positive number is `2^-1074`. -/
def places : Nat := 1074

/-- The number 1, in units of `2^-1074`. -/
def unit : Nat := 1 <<< places

/-- The number whose value is the integer `z`; a binary64 value when `z` is representable, as
every integer of magnitude at most `2^53` is. -/
def ofInt (z : Int) : Number := .fin (z * unit)

instance (n : Nat) : OfNat Number n := ⟨ofInt n⟩

/-- Binary search for the number of bits a magnitude has beyond 53: the remaining steps `k`
try the bits `2^(k-1)`, ..., `1` on top of `s`, keeping a bit when the magnitude shifted right
by that much still has 53 bits. -/
def lift (n : Nat) : Nat → Nat → Nat
  | 0, s => s
  | k + 1, s =>
    if 1 <<< 52 ≤ n >>> (s + 1 <<< k) then lift n k (s + 1 <<< k) else lift n k s

/-- The number of low bits rounding drops from a magnitude `n` of at least `2^53` units: the
`s` with `2^(52+s) ≤ n < 2^(53+s)`, for `n` below `2^2100`. -/
def excessBits (n : Nat) : Nat := lift n 11 0

/-- Rounding of a magnitude, in units, to the nearest magnitude with a significand of 53 bits,
ties to the even significand. Magnitudes below `2^53` units (the subnormal numbers and the
first binade of normal ones) are whole numbers of units already. -/
def roundMagnitude (n : Nat) : Nat :=
  if n < 1 <<< 53 then n
  else
    let shift := excessBits n
    let q := n >>> shift
    let r := n - q <<< shift
    let half := 1 <<< (shift - 1)
    if r < half ∨ (r = half ∧ q % 2 = 0) then q <<< shift else (q + 1) <<< shift

/-- The largest finite magnitude, `Number.MAX_VALUE = (2^53 - 1) * 2^971`, in units. -/
def maxMagnitude : Nat := (1 <<< 53 - 1) <<< (971 + places)

/-- The number an arithmetic operation returns for the exact result `k`, in units: the
nearest binary64 value, an infinity when the rounded magnitude exceeds the largest finite
one. -/
def round (k : Int) : Number :=
  if roundMagnitude k.natAbs > maxMagnitude then .inf (decide (k < 0))
  else if k < 0 then .fin (-(roundMagnitude k.natAbs : Int))
  else .fin (roundMagnitude k.natAbs : Int)

/-- The sum `x + y` of two numbers. -/
def add : Number → Number → Number
  | .nan, _ => .nan
  | _, .nan => .nan
  | .inf a, .inf b => if a = b then .inf a else .nan
  | .inf a, _ => .inf a
  | _, .inf b => .inf b
  | .negZero, y => y
  | x, .negZero => x
  | .fin a, .fin b => round (a + b)

/-- The negation `-x`. -/
def neg : Number → Number
  | .fin k => if k = 0 then .negZero else .fin (-k)
  | .negZero => .fin 0
  | .inf a => .inf (!a)
  | .nan => .nan

/-- The difference `x - y`, which is `x + (-y)`. -/
def sub (x y : Number) : Number := add x (neg y)

/-- Truthiness of a number: every number but `0`, `-0` and `NaN`. -/
def truthy : Number → Bool
  | .fin k => k ≠ 0
  | .negZero => false
  | .inf _ => true
  | .nan => false

/-- The test `x > 0`. -/
def positive : Number → Bool
  | .fin k => 0 < k
  | .inf negative => !negative
  | _ => false

/-- The comparison `x <= y`, false when either side is `NaN`. -/
def le : Number → Number → Bool
  | .nan, _ => false
  | _, .nan => false
  | .inf a, .inf b => a || !b
  | .inf a, _ => a
  | _, .inf b => !b
  | .negZero, .negZero => true
  | .negZero, .fin b => 0 ≤ b
  | .fin a, .negZero => a ≤ 0
  | .fin a, .fin b => a ≤ b

end Number

/-- The numbers that `field || 0` can be: every number but `NaN` and `-0`. -/
def Number.Ordered (x : Number) : Prop := x ≠ .nan ∧ x ≠ .negZero

/-- The expression `field || 0` on a field that holds a number or is missing: the number
when it is truthy, and `0` otherwise. -/
def orZero : Option Number → Number
  | some x => if x.truthy then x else 0
  | none => 0

/-! ## Documents, errors and the remote store -/

/-- An error value: its `message`, and the vendor `code` when it carries one. -/
structure JSError where
  message : String
  code : Option String := none
deriving DecidableEq, Repr

/-- A document of the remote store, or a record handed to a service: the fields the services
read or write, each absent (`none`) or present. `createdBy` and `updatedBy` are written by
the adapter as a user identifier or as `null`, which is `some none`. Prices are integers
here; the timestamps (`createdAt`, `updatedAt`, `lastPurchase`, `date`) are left out. -/
structure Doc where
  id : Option String := none
  name : Option Str := none
  document : Option Str := none
  phone : Option Str := none
  email : Option Str := none
  status : Option Str := none
  type : Option Str := none
  description : Option Str := none
  customerId : Option String := none
  tenantId : Option String := none
  price : Option Int := none
  totalPurchases : Option Number := none
  totalSpent : Option Number := none
  createdBy : Option (Option String) := none
  updatedBy : Option (Option String) := none
deriving DecidableEq, Repr

/-- JavaScript truthiness of a string-valued field: present and not the empty string. -/
def truthy : Option Str → Bool
  | some (_ :: _) => true
  | _ => false

/-- The object spread `{ ...old, ...data }`: the fields present in `data` replace those of
`old`, a field present as `null` included. -/
def Doc.merge (old data : Doc) : Doc :=
  { id := data.id <|> old.id
    name := data.name <|> old.name
    document := data.document <|> old.document
    phone := data.phone <|> old.phone
    email := data.email <|> old.email
    status := data.status <|> old.status
    type := data.type <|> old.type
    description := data.description <|> old.description
    customerId := data.customerId <|> old.customerId
    tenantId := data.tenantId <|> old.tenantId
    price := data.price <|> old.price
    totalPurchases := data.totalPurchases <|> old.totalPurchases
    totalSpent := data.totalSpent <|> old.totalSpent
    createdBy := data.createdBy <|> old.createdBy
    updatedBy := data.updatedBy <|> old.updatedBy }

/-- A filter `[field, '==', value]` of a query, for the two fields the services filter on. -/
inductive Cond where
  | customerId (v : String) : Cond
  | tenantId (v : String) : Cond
deriving DecidableEq, Repr

/-- Whether a document satisfies a filter. -/
def Cond.holds : Cond → Doc → Bool
  | .customerId v, d => d.customerId == some v
  | .tenantId v, d => d.tenantId == some v

/-- The `options` argument of `getDocuments`. -/
structure QueryOptions where
  whereConds : Option (List Cond) := none
  orderBy : Option String := none
  orderDirection : Option String := none
  limit : Option Nat := none
deriving DecidableEq, Repr

/-- The query the adapter builds on the store's SDK from the options. -/
structure Query where
  conds : List Cond := []
  order : Option (String × String) := none
  limit : Option Nat := none
deriving DecidableEq, Repr

/-- A request sent to the remote store. -/
inductive Request where
  | get (coll id : String) : Request
  | query (coll : String) (q : Query) : Request
  | add (coll : String) (data : Doc) : Request
  | update (coll id : String) (data : Doc) : Request
  | delete (coll id : String) : Request
  | commit (deletes : List (String × String)) : Request
  | listenDoc (coll id : String) : Request
  | listenQuery (coll : String) (q : Query) : Request
deriving DecidableEq, Repr

/-- What a run leaves behind: the methods of the database adapter that were entered, the
requests that reached the remote store, the requests the store rejected, and the toasts
shown by `showNotification`. -/
inductive Event where
  | called (method coll : String) : Event
  | sent (r : Request) : Event
  | rejected (e : JSError) : Event
  | notified (message kind : String) : Event
deriving DecidableEq, Repr

/-- Functions of the host platform and of the remote store that the code calls and does not
define: `String.prototype.toLowerCase`, `Intl.NumberFormat(...).format`, the identifier the
store gives to the n-th added document, and the order in which the store returns documents
for an `orderBy(field, direction)` clause. -/
structure Host where
  toLowerCase : Str → Str
  formatCurrency : Int → Str
  freshId : Nat → String
  ordered : String → String → List (String × Doc) → List (String × Doc)

/-- The state the services run in. `db`, `storage` and `auth` say whether the fields of that
name of `databaseService` are set, `uid` is `auth?.currentUser?.uid`, `tenantId` the tenant of
`authService.getCurrentUser()`, `store` the
documents of each collection of the remote store, each under its identifier, `added` the
number of documents the store has created, `outcomes` what the store does with the
successive requests it receives (`none`: it serves the request; `some e`: it rejects it with
`e`; it serves every request after the end of the list), and `log` the events so far, oldest
first. -/
structure World where
  db : Bool
  uid : Option String := none
  tenantId : Option String := none
  store : String → List (String × Doc)
  added : Nat := 0
  outcomes : List (Option JSError) := []
  log : List Event := []
  storage : Bool := false
  auth : Bool := false

/-- The result of an operation: the value it resolves with or the error it throws, and the
state it leaves. -/
abbrev Result (α : Type) := Except JSError α × World

/-- Appends an event to the log. -/
def World.record (w : World) (e : Event) : World := { w with log := w.log ++ [e] }

/-- The call `showNotification(message, kind)`. -/
def showNotification (message kind : String) (w : World) : World :=
  w.record (.notified message kind)

/-- Sends a request to the remote store: the request is logged and the next outcome is
consumed; a rejection is logged too. -/
def World.send (w : World) (r : Request) : Option JSError × World :=
  let w := w.record (.sent r)
  match w.outcomes with
  | [] => (none, w)
  | none :: rest => (none, { w with outcomes := rest })
  | some e :: rest => (some e, { w with outcomes := rest }.record (.rejected e))

/-- The error every method of the adapter throws while `db` is not set. -/
def notInitialised : JSError := { message := "Serviço de banco de dados não inicializado" }

/-- The object `{ id: doc.id, ...doc.data() }` the adapter builds from a stored document. -/
def withId (entry : String × Doc) : Doc := { entry.2 with id := entry.2.id <|> some entry.1 }

/-- The stored documents the store selects for a query: filtered, ordered, then cut to the
limit. -/
def runQuery (h : Host) (docs : List (String × Doc)) (q : Query) : List (String × Doc) :=
  let docs := docs.filter (fun d => q.conds.all (fun c => c.holds d.2))
  let docs := match q.order with
    | some (field, direction) => h.ordered field direction docs
    | none => docs
  match q.limit with
  | some n => docs.take n
  | none => docs

/-- The query `getDocuments` builds: the filters, then
`orderBy(options.orderBy, options.orderDirection === 'desc' ? 'desc' : 'asc')` when
`options.orderBy` is truthy, then `limit(options.limit)` when `options.limit` is a non-zero
number. -/
def buildQuery (options : QueryOptions) : Query :=
  { conds := options.whereConds.getD []
    order := match options.orderBy with
      | some field =>
        if field = "" then none
        else some (field, if options.orderDirection = some "desc" then "desc" else "asc")
      | none => none
    limit := match options.limit with
      | some n => if n = 0 then none else some n
      | none => none }

/-- The value `this.auth?.currentUser?.uid || null`. -/
def currentUid (w : World) : Option String := w.uid.filter (fun u => u ≠ "")

/-- Sequencing with `await`: when the first step throws, the rest is skipped and the error
goes on; otherwise the rest runs on the value, in the state the first step left. -/
def andThen {α β : Type} (r : Result α) (f : α → World → Result β) : Result β :=
  match r with
  | (.error error, w) => (.error error, w)
  | (.ok value, w) => f value w

/-- A `try` block whose `catch` block is `console.error(...); throw error;`. -/
def catchRethrow {α : Type} (body : Result α) : Result α :=
  match body with
  | (.error error, w) => (.error error, w)
  | (.ok value, w) => (.ok value, w)

/-- A `try` block whose `catch` block is
`console.error(...); showNotification(message, 'error'); throw error;`. -/
def catchToast {α : Type} (message : String) (body : Result α) : Result α :=
  match body with
  | (.error error, w) => (.error error, showNotification message "error" w)
  | (.ok value, w) => (.ok value, w)

/-! ### The calls of the store's SDK -/

namespace Firestore

/-- The error with which the store rejects `update` on a document that does not exist. -/
def notFound : JSError := { message := "No document to update", code := some "not-found" }

/-- The call `db.collection(coll).doc(id).get()`: the stored document, if it exists. -/
def get (coll id : String) (w : World) : Result (Option (String × Doc)) :=
  match w.send (.get coll id) with
  | (some error, w) => (.error error, w)
  | (none, w) => (.ok ((w.store coll).find? (fun d => d.1 == id)), w)

/-- The call `query.get()`: the stored documents the query selects. -/
def query (h : Host) (coll : String) (q : Query) (w : World) : Result (List (String × Doc)) :=
  match w.send (.query coll q) with
  | (some error, w) => (.error error, w)
  | (none, w) => (.ok (runQuery h (w.store coll) q), w)

/-- The call `db.collection(coll).add(data)`: the store keeps the document under a new
identifier, which is the result. -/
def add (h : Host) (coll : String) (data : Doc) (w : World) : Result String :=
  match w.send (.add coll data) with
  | (some error, w) => (.error error, w)
  | (none, w) =>
    let id := h.freshId w.added
    (.ok id,
      { w with
        store := Function.update w.store coll (w.store coll ++ [(id, data)])
        added := w.added + 1 })

/-- The call `docRef.update(data)`: the fields are merged into the stored document; the store
rejects the call when the document does not exist. -/
def update (coll id : String) (data : Doc) (w : World) : Result Unit :=
  match w.send (.update coll id data) with
  | (some error, w) => (.error error, w)
  | (none, w) =>
    if (w.store coll).any (fun d => d.1 == id) then
      (.ok (),
        { w with
          store := Function.update w.store coll
            ((w.store coll).map
              (fun (d : String × Doc) => if d.1 == id then (d.1, d.2.merge data) else d)) })
    else (.error notFound, w.record (.rejected notFound))

/-- The call `batch.commit()` for a batch of deletions: all of them are applied at once, or
none when the store rejects the commit. -/
def commit (deletes : List (String × String)) (w : World) : Result Unit :=
  match w.send (.commit deletes) with
  | (some error, w) => (.error error, w)
  | (none, w) =>
    (.ok (),
      { w with
        store := fun coll =>
          (w.store coll).filter (fun (d : String × Doc) => !deletes.contains (coll, d.1)) })

end Firestore

/-! ### The database adapter -/

namespace DatabaseService

/-- The method `getDocument` of `src/services/firebase/database-service.js`: the document
with its `id`, or `none` (JavaScript `null`) when it does not exist. -/
def getDocument (collectionName docId : String) (w : World) : Result (Option Doc) :=
  if !w.db then (.error notInitialised, w)
  else
    catchRethrow <|
      andThen (Firestore.get collectionName docId (w.record (.called "getDocument" collectionName)))
        fun doc w => (.ok (doc.map withId), w)

/-- The method `getDocuments` of `src/services/firebase/database-service.js`. -/
def getDocuments (h : Host) (collectionName : String) (options : QueryOptions) (w : World) :
    Result (List Doc) :=
  if !w.db then (.error notInitialised, w)
  else
    catchRethrow <|
      andThen (Firestore.query h collectionName (buildQuery options)
          (w.record (.called "getDocuments" collectionName)))
        fun docs w => (.ok (docs.map withId), w)

/-- The method `addDocument` of `src/services/firebase/database-service.js`: the result is
`{ id: docRef.id, ...docData }`. -/
def addDocument (h : Host) (collectionName : String) (data : Doc) (w : World) : Result Doc :=
  if !w.db then (.error notInitialised, w)
  else
    catchToast "Erro ao salvar dados. Tente novamente." <|
      let docData := { data with createdBy := some (currentUid w) }
      andThen (Firestore.add h collectionName docData
          (w.record (.called "addDocument" collectionName)))
        fun id w => (.ok (withId (id, docData)), w)

/-- The method `updateDocument` of `src/services/firebase/database-service.js`: `update`,
then the document is read again and returned as `{ id: updatedDoc.id, ...updatedDoc.data() }`. -/
def updateDocument (collectionName docId : String) (data : Doc) (w : World) : Result Doc :=
  if !w.db then (.error notInitialised, w)
  else
    catchToast "Erro ao atualizar dados. Tente novamente." <|
      let docData := { data with updatedBy := some (currentUid w) }
      andThen (Firestore.update collectionName docId docData
          (w.record (.called "updateDocument" collectionName)))
        fun _ w =>
          andThen (Firestore.get collectionName docId w) fun updatedDoc w =>
            match updatedDoc with
            | some doc => (.ok (withId doc), w)
            | none => (.ok { id := some docId }, w)

/-- The method `runBatch` of `src/services/firebase/database-service.js`, for a batch
function that registers the deletions `deletes` (collection and identifier) and does not
throw. -/
def runBatch (deletes : List (String × String)) (w : World) : Result Unit :=
  if !w.db then (.error notInitialised, w)
  else
    catchToast "Erro na operação em lote. Tente novamente." <|
      Firestore.commit deletes (w.record (.called "runBatch" ""))

end DatabaseService

/-! ## The CRM service -/

/-- The two lines `showNotification(error.message || fallback, 'error'); throw error;` that
end the `catch` block of the CRM operations that show a toast. -/
def notifyAndRethrow {α : Type} (fallback : String) (error : JSError) (w : World) : Result α :=
  (.error error,
    showNotification (if error.message = "" then fallback else error.message) "error" w)

/-- A `try` block whose `catch` block is `notifyAndRethrow`. -/
def catchNotify {α : Type} (fallback : String) (body : Result α) : Result α :=
  match body with
  | (.error error, w) => notifyAndRethrow fallback error w
  | (.ok value, w) => (.ok value, w)

/-- The block "Validar documento (CPF/CNPJ)" that `addCustomer` and `updateCustomer` both
contain: the error thrown, or the record with its document formatted. -/
def checkDocument (customerData : Doc) : Except JSError Doc :=
  if truthy customerData.document then
    let doc := stripNonDigits (customerData.document.getD [])
    if doc.length = 11 && !isValidCPF doc then .error { message := "CPF inválido" }
    else if doc.length = 14 && !isValidCNPJ doc then .error { message := "CNPJ inválido" }
    else .ok { customerData with
      document := some (formatDocument (customerData.document.getD [])) }
  else .ok customerData

/-- The block "Validar telefone" that `addCustomer` and `updateCustomer` both contain. -/
def checkPhone (customerData : Doc) : Except JSError Doc :=
  if truthy customerData.phone && !isValidPhone (customerData.phone.getD []) then
    .error { message := "Telefone inválido" }
  else if truthy customerData.phone then
    .ok { customerData with phone := some (formatPhone (customerData.phone.getD [])) }
  else .ok customerData

/-- The block "Validar email" that `addCustomer` and `updateCustomer` both contain. -/
def checkEmail (customerData : Doc) : Except JSError Doc :=
  if truthy customerData.email && !isValidEmail (customerData.email.getD []) then
    .error { message := "Email inválido" }
  else .ok customerData

/-- The three validation blocks in the order `addCustomer` and `updateCustomer` run them. -/
def validateContact (customerData : Doc) : Except JSError Doc :=
  match checkDocument customerData with
  | .error error => .error error
  | .ok customerData =>
    match checkPhone customerData with
    | .error error => .error error
    | .ok customerData => checkEmail customerData

namespace CRMService

/-- The collection names set by the constructor. -/
def customersCollection : String := "customers"

/-- The collection of customer interactions. -/
def interactionsCollection : String := "customer_interactions"

/-- The collection of sales. -/
def salesCollection : String := "sales"

/-- The method `addCustomer` of `src/services/crm/crm-service.js`. -/
def addCustomer (h : Host) (customerData : Doc) (w : World) : Result Doc :=
  catchNotify "Erro ao adicionar cliente" <|
    if !truthy customerData.name then
      (.error { message := "Nome do cliente é obrigatório" }, w)
    else
      match validateContact customerData with
      | .error error => (.error error, w)
      | .ok customerData =>
        let customer := { customerData with
          status := if truthy customerData.status then customerData.status
            else some "active".toList
          type := if truthy customerData.type then customerData.type
            else some "person".toList
          totalPurchases := some 0
          totalSpent := some 0 }
        andThen (DatabaseService.addDocument h customersCollection customer w) fun result w =>
          (.ok result, showNotification "Cliente adicionado com sucesso!" "success" w)

/-- The method `updateCustomer` of `src/services/crm/crm-service.js`. -/
def updateCustomer (customerId : String) (customerData : Doc) (w : World) : Result Doc :=
  catchNotify "Erro ao atualizar cliente" <|
    match validateContact customerData with
    | .error error => (.error error, w)
    | .ok customerData =>
      andThen (DatabaseService.updateDocument customersCollection customerId customerData w)
        fun result w =>
          (.ok result, showNotification "Cliente atualizado com sucesso!" "success" w)

/-- The method `getCustomer` of `src/services/crm/crm-service.js`. -/
def getCustomer (customerId : String) (w : World) : Result (Option Doc) :=
  catchRethrow (DatabaseService.getDocument customersCollection customerId w)

/-- The method `getCustomers` of `src/services/crm/crm-service.js`. -/
def getCustomers (h : Host) (options : QueryOptions) (w : World) : Result (List Doc) :=
  catchRethrow (DatabaseService.getDocuments h customersCollection options w)

/-- The method `deleteCustomer` of `src/services/crm/crm-service.js`. The batch function
registers the deletion of every interaction found, then that of the customer. -/
def deleteCustomer (h : Host) (customerId : String) (w : World) : Result Unit :=
  catchNotify "Erro ao excluir cliente" <|
    andThen (DatabaseService.getDocuments h salesCollection
        { whereConds := some [.customerId customerId], limit := some 1 } w) fun sales w =>
      if sales.length > 0 then
        (.error { message := "Não é possível excluir um cliente com vendas associadas" }, w)
      else
        andThen (DatabaseService.getDocuments h interactionsCollection
            { whereConds := some [.customerId customerId] } w) fun interactions w =>
          let deletes :=
            interactions.map (fun i => (interactionsCollection, i.id.getD "")) ++
              [(customersCollection, customerId)]
          andThen (DatabaseService.runBatch deletes w) fun _ w =>
            (.ok (), showNotification "Cliente excluído com sucesso!" "success" w)

/-- The method `addInteraction` of `src/services/crm/crm-service.js`. -/
def addInteraction (h : Host) (customerId : String) (interactionData : Doc) (w : World) :
    Result Doc :=
  catchNotify "Erro ao registrar interação" <|
    if !truthy interactionData.type then
      (.error { message := "Tipo de interação é obrigatório" }, w)
    else if !truthy interactionData.description then
      (.error { message := "Descrição da interação é obrigatória" }, w)
    else
      let interaction := { interactionData with customerId := some customerId }
      andThen (DatabaseService.addDocument h interactionsCollection interaction w)
        fun result w =>
          (.ok result, showNotification "Interação registrada com sucesso!" "success" w)

/-- The method `getInteractions` of `src/services/crm/crm-service.js`. -/
def getInteractions (h : Host) (customerId : String) (options : QueryOptions) (w : World) :
    Result (List Doc) :=
  let queryOptions := { options with
    whereConds := some [.customerId customerId]
    orderBy := if options.orderBy = none ∨ options.orderBy = some "" then some "date"
      else options.orderBy
    orderDirection :=
      if options.orderDirection = none ∨ options.orderDirection = some "" then some "desc"
      else options.orderDirection }
  catchRethrow (DatabaseService.getDocuments h interactionsCollection queryOptions w)

/-- The method `updateCustomerPurchaseData` of `src/services/crm/crm-service.js`. -/
def updateCustomerPurchaseData (customerId : String) (amount : Number) (w : World) :
    Result Doc :=
  catchRethrow <|
    andThen (getCustomer customerId w) fun customer w =>
      match customer with
      | none => (.error { message := "Cliente não encontrado" }, w)
      | some customer =>
        let updatedCustomer : Doc :=
          { totalPurchases := some ((orZero customer.totalPurchases).add 1)
            totalSpent := some ((orZero customer.totalSpent).add amount) }
        DatabaseService.updateDocument customersCollection customerId updatedCustomer w

end CRMService

/-! ## Searching -/

/-- The call `s.trim()`: white space and line terminators are removed from both ends. -/
def trim (s : Str) : Str := ((s.dropWhile isWhitespace).reverse.dropWhile isWhitespace).reverse

/-- The call `s.includes(t)`: `t` occurs in `s` as a run of consecutive characters. -/
def includes (s t : Str) : Bool := decide (List.IsInfix t s)

/-- The call `xs.slice(0, limit)` for an integer `limit`: the first `limit` elements, and for
a negative `limit` all but the last `-limit`. -/
def slice {α : Type} (xs : List α) (limit : Int) : List α :=
  if limit < 0 then xs.take (xs.length - limit.natAbs) else xs.take limit.toNat

namespace CRMService

/-- The predicate `searchCustomers` filters with: the term occurs in the lower-cased name, in
the digits of the document, in the lower-cased email or in the digits of the phone. -/
def matchesTerm (h : Host) (searchTerm : Str) (customer : Doc) : Bool :=
  let name := h.toLowerCase (customer.name.getD [])
  let document := stripNonDigits (customer.document.getD [])
  let email := h.toLowerCase (customer.email.getD [])
  let phone := stripNonDigits (customer.phone.getD [])
  includes name searchTerm || includes document searchTerm ||
    includes email searchTerm || includes phone searchTerm

/-- The method `searchCustomers` of `src/services/crm/crm-service.js`; `limit = none` is a
call without the second argument, which takes the default 10. -/
def searchCustomers (h : Host) (term : Str) (limit : Option Int) (w : World) :
    Result (List Doc) :=
  let limit := limit.getD 10
  catchRethrow <|
    let searchTerm := trim (h.toLowerCase term)
    andThen (DatabaseService.getDocuments h customersCollection { limit := some 100 } w)
      fun allCustomers w =>
        let filteredCustomers := allCustomers.filter (matchesTerm h searchTerm)
        (.ok (slice filteredCustomers limit), w)

/-- The statistics `getCustomerStats` returns, without `averageSpent` (the quotient of
`totalSpent` by `total`, which nothing here reads). -/
structure CustomerStats where
  total : Nat
  active : Nat
  inactive : Nat
  totalSpent : Number
  topCustomers : List Doc
deriving DecidableEq, Repr

/-- The comparator `(a, b) => (b.totalSpent || 0) - (a.totalSpent || 0)` of
`getCustomerStats`. -/
def bySpent (a b : Doc) : Number := (orZero b.totalSpent).sub (orZero a.totalSpent)

/-- The method `getCustomerStats` of `src/services/crm/crm-service.js`. `Array.prototype.sort`
is stable, as is the insertion sort used here: `a` stays before `b` unless the comparator
returns a positive number for them (a result of `NaN` counts as `0`). -/
def getCustomerStats (h : Host) (w : World) : Result CustomerStats :=
  catchRethrow <|
    andThen (DatabaseService.getDocuments h customersCollection {} w) fun customers w =>
      let active := (customers.filter (fun c => c.status == some "active".toList)).length
      (.ok
        { total := customers.length
          active := active
          inactive := customers.length - active
          totalSpent := customers.foldl (fun total c => total.add (orZero c.totalSpent)) 0
          topCustomers :=
            (customers.insertionSort (fun a b => (bySpent a b).positive = false)).take 5 },
        w)

end CRMService

namespace SearchService

/-- The text a template literal gives for `${product.name}`: the string itself, and
`undefined` for a missing field. -/
def interpolate : Option Str → Str
  | some s => s
  | none => "undefined".toList

/-- The sentence `O preço de ${product.name} é ${price}.`. -/
def priceSentence (h : Host) (product : Doc) : Str :=
  "O preço de ".toList ++ interpolate product.name ++ " é ".toList ++
    h.formatCurrency (product.price.getD 0) ++ ".".toList

/-- The options `search` passes to `getDocuments`: the tenant filter when
`authService.getCurrentUser()?.tenantId` is truthy, and `limit: 50`. -/
def searchOptions (w : World) : QueryOptions :=
  { whereConds := (w.tenantId.filter (fun t => t ≠ "")).map (fun t => [.tenantId t])
    limit := some 50 }

/-- The method `search` of `src/services/search-service.js`. Its `catch` block logs to the
console and falls through to the last `return`. -/
def search (h : Host) (query : Str) (w : World) : Result Str :=
  if query.isEmpty then (.ok "Consulta vazia.".toList, w)
  else
    let term := trim (h.toLowerCase query)
    match DatabaseService.getDocuments h "products" (searchOptions w) w with
    | (.error _, w) => (.ok "Nenhum resultado encontrado.".toList, w)
    | (.ok products, w) =>
      match products.find? (fun p => includes (h.toLowerCase (p.name.getD [])) term) with
      | some product => (.ok (priceSentence h product), w)
      | none => (.ok "Nenhum resultado encontrado.".toList, w)

end SearchService

/-! ## Login errors -/

namespace AuthService

/-- The `switch (error.code)` of `loginWithEmailAndPassword`, starting from the default
message. -/
def loginErrorMessage (error : JSError) : String :=
  match error.code with
  | some "auth/invalid-email" => "Email inválido."
  | some "auth/user-disabled" => "Usuário desativado."
  | some "auth/user-not-found" => "Usuário não encontrado."
  | some "auth/wrong-password" => "Senha incorreta."
  | some "auth/too-many-requests" => "Muitas tentativas de login. Tente novamente mais tarde."
  | _ => "Erro ao fazer login. Tente novamente."

/-- The method `loginWithEmailAndPassword` of `src/services/firebase/auth-service.js`: `auth`
says whether `this.auth` is set and `signIn` is what the vendor's
`signInWithEmailAndPassword` does with the credentials (the user it resolves with, or the
error it rejects with). -/
def loginWithEmailAndPassword (auth : Bool) (signIn : Except JSError Doc) (w : World) :
    Result Doc :=
  if !auth then (.error { message := "Serviço de autenticação não inicializado" }, w)
  else
    match signIn with
    | .ok user => (.ok user, showNotification "Login realizado com sucesso!" "success" w)
    | .error error => (.error error, showNotification (loginErrorMessage error) "error" w)

end AuthService

/-- The `catch` block of `handleLogin` in `src/utils/main-old.js`: the text it passes to
`showLoginError` for the error caught. -/
def handleLoginCatch (error : JSError) : String :=
  match error.code with
  | some "auth/user-not-found" => "Usuário não encontrado ou credenciais incorretas"
  | some "auth/invalid-credential" => "Usuário não encontrado ou credenciais incorretas"
  | some "auth/wrong-password" => "Senha incorreta"
  | some "auth/invalid-email" => "Formato de email inválido"
  | some "auth/network-request-failed" => "Erro de rede. Verifique sua conexão"
  | some "auth/too-many-requests" => "Muitas tentativas. Tente novamente mais tarde"
  | _ => if error.message = "" then "Erro no sistema de autenticação" else error.message

/-- A run passes on every rejection of the store: it only adds events to the log, and if one
of them is the rejection of a request with `e`, the run throws `e`. -/
def Rethrows {α : Type} (w : World) (r : Result α) : Prop :=
  ∃ evs, r.2.log = w.log ++ evs ∧ ∀ e, Event.rejected e ∈ evs → r.1 = .error e

/-- The error of a store that cannot be reached. -/
def offlineError : JSError :=
  { message := "Failed to get document because the client is offline."
    code := some "unavailable" }

/-- A store that rejects the next request with `offlineError`, behind an initialised
adapter. -/
def failingWorld : World where
  db := true
  store := fun _ => []
  outcomes := [some offlineError]

/-! ## A concrete host and concrete states, for the examples -/

/-- A host with ASCII lower-casing, a plain rendering of amounts, identifiers `doc0`, `doc00`,
... and a store that returns documents in stored order. -/
def asciiHost : Host where
  toLowerCase := fun s => s.map Char.toLower
  formatCurrency := fun n => "R$ ".toList ++ (Nat.toDigits 10 n.natAbs)
  freshId := fun n => String.mk ("doc".toList ++ List.replicate (n + 1) '0')
  ordered := fun _ _ docs => docs

/-- An initialised adapter over a store with three products and three customers. -/
def shopWorld : World where
  db := true
  store := fun coll =>
    if coll = "products" then
      [("p1", { name := some "Caderno".toList, price := some 1200 }),
       ("p2", { name := some "Caneta Azul".toList, price := some 250 }),
       ("p3", { name := some "caneta vermelha".toList, price := some 300 })]
    else if coll = "customers" then
      [("c1", { name := some "Ana Lima".toList, phone := some "(11) 98765-4321".toList }),
       ("c2", { name := some "Bruno".toList, email := some "bruno@ANALISE.com".toList }),
       ("c3", { name := some "Carla".toList, document := some "529.982.247-25".toList })]
    else []

/-- An initialised adapter over an empty store that serves every request. -/
def emptyWorld : World where
  db := true
  store := fun _ => []

/-! ## The validation failures of `addCustomer`, as the specification lists them -/

/-- A document is given, has 11 digits and fails `isValidCPF`. -/
def cpfFails (d : Doc) : Bool :=
  truthy d.document && (stripNonDigits (d.document.getD [])).length == 11 &&
    !isValidCPF (d.document.getD [])

/-- A document is given, has 14 digits and fails `isValidCNPJ`. -/
def cnpjFails (d : Doc) : Bool :=
  truthy d.document && (stripNonDigits (d.document.getD [])).length == 14 &&
    !isValidCNPJ (d.document.getD [])

/-- A phone is given and fails `isValidPhone`. -/
def phoneFails (d : Doc) : Bool := truthy d.phone && !isValidPhone (d.phone.getD [])

/-- An email is given and fails `isValidEmail`. -/
def emailFails (d : Doc) : Bool := truthy d.email && !isValidEmail (d.email.getD [])

/-- The events a run added to the log of the state it started in. -/
def newEvents {α : Type} (w : World) (r : Result α) : List Event := r.2.log.drop w.log.length

/-! ## Stores that serve every request -/

/-- The remote store serves every request it is yet to receive. -/
def Serves (w : World) : Prop := ∀ o ∈ w.outcomes, o = none

/-- Whether an event is a batch commit sent to the store. -/
def Event.isCommit : Event → Bool
  | .sent (.commit _) => true
  | _ => false

/-- Whether an event is a write sent to the store (`add`, `update`, `delete` or a commit). -/
def Event.isWrite : Event → Bool
  | .sent (.add _ _) => true
  | .sent (.update _ _ _) => true
  | .sent (.delete _ _) => true
  | .sent (.commit _) => true
  | _ => false

/-- An initialised adapter over a store with two customers, three interactions and one sale
of the second customer. -/
def crmWorld : World where
  db := true
  store := fun coll =>
    if coll = "customers" then
      [("c1", { name := some "Ana Lima".toList, totalPurchases := some 0, totalSpent := some 0 }),
       ("c2", { name := some "Bruno".toList, totalPurchases := some 1, totalSpent := some 90 })]
    else if coll = "customer_interactions" then
      [("i1", { customerId := some "c1", type := some "call".toList }),
       ("i2", { customerId := some "c2", type := some "visit".toList }),
       ("i3", { customerId := some "c1", type := some "email".toList })]
    else if coll = "sales" then
      [("s1", { customerId := some "c2" })]
    else []

/-! ## Successive purchases -/

namespace CRMService

/-- The calls `await updateCustomerPurchaseData(id, a_1); ...; await
updateCustomerPurchaseData(id, a_n)` one after the other: the state after the last call, or
the first error thrown. -/
def purchases (customerId : String) : List Number → World → Result Unit
  | [], w => (.ok (), w)
  | amount :: rest, w =>
    andThen (updateCustomerPurchaseData customerId amount w) fun _ w =>
      purchases customerId rest w

end CRMService

/-- An initialised adapter over a store with seven customers, one of them without
`totalSpent`. -/
def statsWorld : World where
  db := true
  store := fun coll =>
    if coll = "customers" then
      [("c1", { totalSpent := some 10 }), ("c2", { totalSpent := some 50 }),
       ("c3", { status := some "active".toList }), ("c4", { totalSpent := some 30 }),
       ("c5", { totalSpent := some 50 }), ("c6", { totalSpent := some 70 }),
       ("c7", { totalSpent := some 20 })]
    else []

/-! ## The rest of the database adapter -/

namespace DatabaseService

/-- The adapter as its constructor leaves it (`db`, `storage` and `auth` are `null`), in front
of a remote store holding `store`. -/
def new (store : String → List (String × Doc)) : World where
  db := false
  store := store

/-- The method `init` of `src/services/firebase/database-service.js`; `firestore`, `storage`
and `auth` say whether each instance is given, and `uid` is the `currentUser.uid` of the auth
instance. Without a Firestore instance it logs to the console and returns. -/
def init (firestore storage auth : Bool) (uid : Option String) (w : World) : World :=
  if !firestore then w
  else { w with db := true, storage := storage, auth := auth, uid := if auth then uid else none }

/-- The method `collection`: the reference `this.db.collection(collectionName)`, which stands
for the collection of that name; no request is sent. -/
def collection (collectionName : String) (w : World) : Result String :=
  if !w.db then (.error notInitialised, w)
  else (.ok collectionName, w)

/-- The call `docRef.delete()` of the store's SDK. -/
def remoteDelete (coll id : String) (w : World) : Result Unit :=
  match w.send (.delete coll id) with
  | (some error, w) => (.error error, w)
  | (none, w) =>
    (.ok (),
      { w with
        store := (Function.update w.store coll
          ((w.store coll).filter (fun (d : String × Doc) => !(d.1 == id)))) })

/-- The method `deleteDocument` of `src/services/firebase/database-service.js`. -/
def deleteDocument (collectionName docId : String) (w : World) : Result Unit :=
  if !w.db then (.error notInitialised, w)
  else
    catchToast "Erro ao excluir dados. Tente novamente." <|
      remoteDelete collectionName docId (w.record (.called "deleteDocument" collectionName))

/-- The method `runTransaction` of `src/services/firebase/database-service.js`; the SDK's
`runTransaction` is taken to run the transaction function once. -/
def runTransaction {α : Type} (transactionFn : World → Result α) (w : World) : Result α :=
  if !w.db then (.error notInitialised, w)
  else
    catchToast "Erro na operação. Tente novamente." <|
      transactionFn (w.record (.called "runTransaction" ""))

/-- The method `onDocumentChange`: it opens a snapshot listener on the document. The function
it returns, which closes the listener, is not part of this model. -/
def onDocumentChange (collectionName docId : String) (w : World) : Result Unit :=
  if !w.db then (.error notInitialised, w)
  else
    (.ok (), (w.record (.called "onDocumentChange" collectionName)).record
      (.sent (.listenDoc collectionName docId)))

/-- The method `onCollectionChange`: it opens a snapshot listener on the query built from the
options, as `getDocuments` builds it. -/
def onCollectionChange (collectionName : String) (options : QueryOptions) (w : World) :
    Result Unit :=
  if !w.db then (.error notInitialised, w)
  else
    (.ok (), (w.record (.called "onCollectionChange" collectionName)).record
      (.sent (.listenQuery collectionName (buildQuery options))))

end DatabaseService

/-! ## `AuthService.onAuthStateChanged` -/

namespace AuthService

/-- The part of the auth service `onAuthStateChanged` works on: the registered callbacks in
order of registration, the current user (`none` for `null`), and the calls made to callbacks
so far. JavaScript compares functions by identity; a callback is named here by a number, and
its body is taken not to touch the service. -/
structure Registry where
  authStateChangedCallbacks : List Nat := []
  currentUser : Option String := none
  invoked : List (Nat × Option String) := []
deriving DecidableEq, Repr

/-- The method `onAuthStateChanged` of `src/services/firebase/auth-service.js`, for an argument
that is a function: the callback is pushed, called at once with the current user (which is
never `undefined`), and the function returned removes it with
`filter(cb => cb !== callback)`. -/
def onAuthStateChanged (callback : Nat) (s : Registry) : Registry × (Registry → Registry) :=
  let s := { s with authStateChangedCallbacks := s.authStateChangedCallbacks ++ [callback] }
  let s := { s with invoked := s.invoked ++ [(callback, s.currentUser)] }
  (s, fun s => { s with
    authStateChangedCallbacks := s.authStateChangedCallbacks.filter (fun cb => cb != callback) })

/-- The callbacks left once `callback` is registered on `s` and the function returned is
called. -/
def afterUnsubscribe (callback : Nat) (s : Registry) : List Nat :=
  ((onAuthStateChanged callback s).2 (onAuthStateChanged callback s).1).authStateChangedCallbacks

end AuthService

/-! ## `isValidPassword` -/

/-- The `length` of a JavaScript string: its number of UTF-16 code units, two for a character
outside the Basic Multilingual Plane. -/
def jsLength (s : Str) : Nat := (s.map (fun c => if 0x10000 ≤ c.toNat then 2 else 1)).sum

/-- The `options` argument of `isValidPassword`: each field absent or given. -/
structure PasswordOptions where
  minLength : Option Int := none
  requireUppercase : Option Bool := none
  requireLowercase : Option Bool := none
  requireNumbers : Option Bool := none
  requireSpecialChars : Option Bool := none
deriving DecidableEq, Repr

/-- The class `[A-Z]`. -/
def isUppercase (c : Char) : Bool := 'A'.toNat ≤ c.toNat && c.toNat ≤ 'Z'.toNat

/-- The class `[a-z]`. -/
def isLowercase (c : Char) : Bool := 'a'.toNat ≤ c.toNat && c.toNat ≤ 'z'.toNat

/-- The class ``[!@#$%^&*()_+\-=[\]{};':"\\|,.<>/?]``. -/
def isSpecialChar (c : Char) : Bool :=
  ['!', '@', '#', '$', '%', '^', '&', '*', '(', ')', '_', '+', '-', '=', '[', ']', '{', '}',
   ';', '\'', ':', '"', '\\', '|', ',', '.', '<', '>', '/', '?'].contains c

/-- The function `isValidPassword` of `src/utils/validators.js`; `opts` is
`{ ...defaultOptions, ...options }`, and `/[...]/.test(password)` holds when some character of
the password is in the class. -/
def isValidPassword (password : Str) (options : PasswordOptions) : Bool :=
  if password.isEmpty then false
  else
    let minLength := options.minLength.getD 6
    let requireUppercase := options.requireUppercase.getD false
    let requireLowercase := options.requireLowercase.getD false
    let requireNumbers := options.requireNumbers.getD false
    let requireSpecialChars := options.requireSpecialChars.getD false
    if (jsLength password : Int) < minLength then false
    else if requireUppercase && !password.any isUppercase then false
    else if requireLowercase && !password.any isLowercase then false
    else if requireNumbers && !password.any Char.isDigit then false
    else if requireSpecialChars && !password.any isSpecialChar then false
    else true

/-! ## `isValidCreditCard` -/

/-- The adjustment of the Luhn loop on a digit that is to be doubled:
`digit *= 2; if (digit > 9) digit -= 9`. -/
def luhnDouble (digit : Nat) : Nat := if digit * 2 > 9 then digit * 2 - 9 else digit * 2

/-- The loop `for (i = cardNumber.length - 1; i >= 0; i--) { ... }` of `isValidCreditCard`,
from `sum = 0` and `shouldDouble = false`; the state is `(sum, shouldDouble)` and `none` is
`NaN`. -/
def luhnLoop (cardNumber : Str) : Option Nat :=
  ((List.range cardNumber.length).reverse.foldlM
    (fun (st : Nat × Bool) i =>
      (parseInt (charAt cardNumber i)).map (fun digit =>
        (st.1 + (if st.2 then luhnDouble digit else digit), !st.2)))
    (0, false)).map Prod.fst

/-- The function `isValidCreditCard` of `src/utils/validators.js`. -/
def isValidCreditCard (cardNumber : Str) : Bool :=
  if cardNumber.isEmpty then false
  else
    let cardNumber := stripNonDigits cardNumber
    if cardNumber.length < 13 ∨ cardNumber.length > 19 then false
    else
      match luhnLoop cardNumber with
      | none => false
      | some sum => sum % 10 == 0

/-- The Luhn checksum as the specification words it: scanning from the rightmost digit, every
second digit is doubled, 9 is subtracted from a doubled value above 9, and all are summed. -/
def luhnChecksum (ds : List Nat) : Nat :=
  (ds.reverse.enum.map (fun p =>
    if p.1 % 2 = 1 then (if 2 * p.2 > 9 then 2 * p.2 - 9 else 2 * p.2) else p.2)).sum

/-- The rule the specification words for a card number: between 13 and 19 digits, with a Luhn
checksum divisible by 10. -/
def LuhnRule (s : Str) : Prop :=
  13 ≤ (digitValues s).length ∧ (digitValues s).length ≤ 19 ∧
    luhnChecksum (digitValues s) % 10 = 0

/-! ## The service worker -/

namespace ServiceWorker

/-- The constant `NO_CACHE_URLS` of `src/sw.js`. -/
def NO_CACHE_URLS : List Str :=
  ["/api/".toList, "firebase.googleapis.com".toList, "firestore.googleapis.com".toList]

/-- The function `shouldCache` of `src/sw.js`. -/
def shouldCache (url : Str) : Bool :=
  !NO_CACHE_URLS.any (fun nocacheUrl => includes url nocacheUrl)

/-- A request as the fetch handler reads it: its URL and its `accept` header, `none` when
`headers.get('accept')` is `null`. -/
structure FetchRequest where
  url : Str
  accept : Option Str := none
deriving DecidableEq, Repr

/-- A response: its `status`, its `type` and its body. -/
structure FetchResponse where
  status : Nat
  type : String
  body : String := ""
deriving DecidableEq, Repr

/-- The state the fetch handler works on: the entries of the cache, by URL, and the URLs
fetched from the network so far. -/
structure CacheState where
  cache : List (Str × FetchResponse) := []
  fetched : List Str := []
deriving DecidableEq, Repr

/-- What the handler does with the fetch event: it returns without `respondWith`, it responds
with a response, or the promise given to `respondWith` fails or resolves with `undefined`. -/
inductive Answer where
  | passedOn : Answer
  | response (r : FetchResponse) : Answer
  | failed : Answer
deriving DecidableEq, Repr

/-- The call `caches.match(url)`: the cached response for the URL, if any. -/
def cacheMatch (s : CacheState) (url : Str) : Option FetchResponse :=
  (s.cache.find? (fun entry => entry.1 == url)).map (fun entry => entry.2)

/-- The call `cache.put(request, response)`: the entry for the URL is added or replaced. -/
def cachePut (s : CacheState) (url : Str) (response : FetchResponse) : CacheState :=
  { s with cache := (url, response) :: s.cache.filter (fun entry => !(entry.1 == url)) }

/-- The response `new Response('Erro de conexão. Verifique sua internet.', { status: 503, ... })`
of the `catch` block. -/
def offlineResponse : FetchResponse :=
  { status := 503, type := "default", body := "Erro de conexão. Verifique sua internet." }

/-- The `fetch` listener of `src/sw.js`; `network` is what `fetch(event.request)` does for a
URL: the response it resolves with, or `none` when it rejects. The handler's unawaited
`cache.put` is taken to complete. -/
def onFetch (network : Str → Option FetchResponse) (request : FetchRequest) (s : CacheState) :
    Answer × CacheState :=
  if !shouldCache request.url then (.passedOn, s)
  else
    match cacheMatch s request.url with
    | some cachedResponse => (.response cachedResponse, s)
    | none =>
      let s := { s with fetched := s.fetched ++ [request.url] }
      match network request.url with
      | some response =>
        if response.status ≠ 200 ∨ response.type ≠ "basic" then (.response response, s)
        else (.response response, cachePut s request.url response)
      | none =>
        match request.accept with
        | none => (.failed, s)
        | some accept =>
          if includes accept "text/html".toList then
            match cacheMatch s "/offline.html".toList with
            | some page => (.response page, s)
            | none => (.failed, s)
          else (.response offlineResponse, s)

end ServiceWorker

/-! ## Lemmas on digits -/

theorem isDigit_bounds {c : Char} (h : c.isDigit = true) : 48 ≤ c.toNat ∧ c.toNat ≤ 57 := by
  simp only [Char.isDigit, Bool.and_eq_true, decide_eq_true_eq] at h
  exact ⟨h.1, h.2⟩

theorem digit_val_inj {a b : Char} (ha : a.isDigit = true) (hb : b.isDigit = true)
    (h : a.toNat - 48 = b.toNat - 48) : a = b := by
  have h1 := isDigit_bounds ha
  have h2 := isDigit_bounds hb
  apply Char.ext
  apply UInt32.ext
  have : a.toNat = b.toNat := by omega
  exact this

theorem parseInt_single {c : Char} (h : c.isDigit = true) :
    parseInt [c] = some (c.toNat - 48) := by
  simp [parseInt, List.takeWhile, h]

theorem list_length_eleven {α : Type} (l : List α) (h : l.length = 11) :
    ∃ a b c d e f g h i j k, l = [a, b, c, d, e, f, g, h, i, j, k] := by
  match l, h with
  | [a, b, c, d, e, f, g, h, i, j, k], _ => exact ⟨a, b, c, d, e, f, g, h, i, j, k, rfl⟩

theorem cpfRemainder_eq_standard (sum : Nat) : cpfRemainder sum = standardCheckDigit sum := by
  unfold cpfRemainder standardCheckDigit
  have hlt : sum % 11 < 11 := Nat.mod_lt _ (by decide)
  rw [Nat.mul_mod sum 10 11]
  generalize sum % 11 = r at hlt
  interval_cases r <;> decide

theorem cpfSum_first (a b c d e f g h i j k : Char)
    (hd : ∀ x ∈ [a, b, c, d, e, f, g, h, i, j, k], x.isDigit = true) :
    cpfSum [a, b, c, d, e, f, g, h, i, j, k] 9 11 =
      some (weightedSum (([a, b, c, d, e, f, g, h, i, j, k].map digitVal).take 9)
        [10, 9, 8, 7, 6, 5, 4, 3, 2]) := by
  simp only [List.mem_cons, forall_eq_or_imp, List.mem_singleton, forall_eq,
    List.not_mem_nil, false_implies, implies_true, and_true] at hd
  obtain ⟨ha, hb, hc, hd, he, hf, hg, hh, hi, hj, hk⟩ := hd
  simp [cpfSum, List.range', substring, parseInt_single, weightedSum, digitVal, *]
  omega

theorem cpfSum_second (a b c d e f g h i j k : Char)
    (hd : ∀ x ∈ [a, b, c, d, e, f, g, h, i, j, k], x.isDigit = true) :
    cpfSum [a, b, c, d, e, f, g, h, i, j, k] 10 12 =
      some (weightedSum (([a, b, c, d, e, f, g, h, i, j, k].map digitVal).take 10)
        [11, 10, 9, 8, 7, 6, 5, 4, 3, 2]) := by
  simp only [List.mem_cons, forall_eq_or_imp, List.mem_singleton, forall_eq,
    List.not_mem_nil, false_implies, implies_true, and_true] at hd
  obtain ⟨ha, hb, hc, hd, he, hf, hg, hh, hi, hj, hk⟩ := hd
  simp [cpfSum, List.range', substring, parseInt_single, weightedSum, digitVal, *]
  omega

theorem allSameDigit_iff (ds : Str) (hd : ∀ x ∈ ds, x.isDigit = true) (hlen : 2 ≤ ds.length) :
    allSameDigit ds = true ↔ ∃ x, ∀ y ∈ ds.map digitVal, y = x := by
  match ds, hlen with
  | c :: r :: rest, _ =>
    have hc : c.isDigit = true := hd c (by simp)
    simp only [allSameDigit, hc, Bool.true_and, List.isEmpty_cons, Bool.not_false,
      List.all_eq_true, beq_iff_eq, List.mem_map, forall_exists_index, and_imp,
      forall_apply_eq_imp_iff₂]
    constructor
    · intro h
      refine ⟨digitVal c, ?_⟩
      intro a ha
      rcases List.mem_cons.1 ha with rfl | ha
      · rfl
      · rw [h a ha]
    · rintro ⟨x, hx⟩ a ha
      have h1 := hx c (by simp)
      have h2 := hx a (List.mem_cons_of_mem _ ha)
      exact digit_val_inj (hd a (List.mem_cons_of_mem _ ha)) hc (by
        unfold digitVal at h1 h2; omega)

/-- What `isValidCPF` computes, on the digit values of its argument. -/
theorem isValidCPF_iff_core (s : Str) :
    isValidCPF s = true ↔
      (digitValues s).length = 11 ∧ allSameDigit (stripNonDigits s) = false ∧
      (digitValues s)[9]? = some (cpfRemainder
        (weightedSum ((digitValues s).take 9) [10, 9, 8, 7, 6, 5, 4, 3, 2])) ∧
      (digitValues s)[10]? = some (cpfRemainder
        (weightedSum ((digitValues s).take 10) [11, 10, 9, 8, 7, 6, 5, 4, 3, 2])) := by
  have hd : ∀ x ∈ stripNonDigits s, x.isDigit = true := by
    intro x hx
    exact (List.mem_filter.1 hx).2
  have hv : digitValues s = (stripNonDigits s).map digitVal := rfl
  by_cases hlen : (stripNonDigits s).length = 11
  · have hne : s.isEmpty = false := by
      cases s with
      | nil => simp [stripNonDigits] at hlen
      | cons _ _ => rfl
    obtain ⟨a, b, c, d, e, f, g, h, i, j, k, hl⟩ := list_length_eleven _ hlen
    have h1 := cpfSum_first a b c d e f g h i j k (hl ▸ hd)
    have h2 := cpfSum_second a b c d e f g h i j k (hl ▸ hd)
    have hj : j.isDigit = true := hd j (by simp [hl])
    have hk : k.isDigit = true := hd k (by simp [hl])
    have p1 : parseInt (substring [a, b, c, d, e, f, g, h, i, j, k] 9 10) = some (digitVal j) := by
      simp [substring, parseInt_single, hj, digitVal]
    have p2 : parseInt (substring [a, b, c, d, e, f, g, h, i, j, k] 10 11) = some (digitVal k) := by
      simp [substring, parseInt_single, hk, digitVal]
    unfold isValidCPF
    simp only [hne, hv, hl, h1, h2, p1, p2]
    simp only [Bool.false_eq_true, ↓reduceIte, List.length_cons, List.length_nil, List.map_cons,
      List.map_nil, ne_eq, not_true_eq_false, Option.some.injEq, ite_not,
      List.length_singleton, Nat.reduceAdd, true_and]
    have g9 : [digitVal a, digitVal b, digitVal c, digitVal d, digitVal e, digitVal f,
        digitVal g, digitVal h, digitVal i, digitVal j, digitVal k][9]? = some (digitVal j) := rfl
    have g10 : [digitVal a, digitVal b, digitVal c, digitVal d, digitVal e, digitVal f,
        digitVal g, digitVal h, digitVal i, digitVal j, digitVal k][10]? = some (digitVal k) := rfl
    rw [g9, g10]
    generalize cpfRemainder (weightedSum (List.take 9 _) _) = r1
    generalize cpfRemainder (weightedSum (List.take 10 _) _) = r2
    cases allSameDigit [a, b, c, d, e, f, g, h, i, j, k]
    · by_cases e1 : r1 = digitVal j <;> by_cases e2 : r2 = digitVal k <;>
        simp [e1, e2, eq_comm]
    · simp
  · have hlen2 : (digitValues s).length ≠ 11 := by simpa [hv] using hlen
    unfold isValidCPF
    simp [hlen, hlen2]

theorem stripNonDigits_of_digits (s : Str) (hd : ∀ c ∈ s, c.isDigit = true) :
    stripNonDigits s = s := by
  unfold stripNonDigits
  exact List.filter_eq_self.2 hd

theorem digitValues_of_digits (s : Str) (hd : ∀ c ∈ s, c.isDigit = true) :
    digitValues s = s.map digitVal := by
  have h := stripNonDigits_of_digits s hd
  unfold stripNonDigits at h
  unfold digitValues
  rw [h]

theorem list_length_fourteen {α : Type} (l : List α) (h : l.length = 14) :
    ∃ a b c d e f g h i j k m n o, l = [a, b, c, d, e, f, g, h, i, j, k, m, n, o] := by
  match l, h with
  | [a, b, c, d, e, f, g, h, i, j, k, m, n, o], _ =>
    exact ⟨a, b, c, d, e, f, g, h, i, j, k, m, n, o, rfl⟩

theorem cnpjSum_first (a b c d e f g h i j k m : Char)
    (hd : ∀ x ∈ [a, b, c, d, e, f, g, h, i, j, k, m], x.isDigit = true) :
    cnpjSum [a, b, c, d, e, f, g, h, i, j, k, m] 12 =
      some (weightedSum ([a, b, c, d, e, f, g, h, i, j, k, m].map digitVal)
        [5, 4, 3, 2, 9, 8, 7, 6, 5, 4, 3, 2]) := by
  simp only [List.mem_cons, forall_eq_or_imp, List.mem_singleton, forall_eq,
    List.not_mem_nil, false_implies, implies_true, and_true] at hd
  obtain ⟨ha, hb, hc, hd, he, hf, hg, hh, hi, hj, hk, hm⟩ := hd
  simp [cnpjSum, List.range', charAt, parseInt_single, weightedSum, digitVal, *]
  omega

theorem cnpjSum_second (a b c d e f g h i j k m n : Char)
    (hd : ∀ x ∈ [a, b, c, d, e, f, g, h, i, j, k, m, n], x.isDigit = true) :
    cnpjSum [a, b, c, d, e, f, g, h, i, j, k, m, n] 13 =
      some (weightedSum ([a, b, c, d, e, f, g, h, i, j, k, m, n].map digitVal)
        [6, 5, 4, 3, 2, 9, 8, 7, 6, 5, 4, 3, 2]) := by
  simp only [List.mem_cons, forall_eq_or_imp, List.mem_singleton, forall_eq,
    List.not_mem_nil, false_implies, implies_true, and_true] at hd
  obtain ⟨ha, hb, hc, hd, he, hf, hg, hh, hi, hj, hk, hm, hn⟩ := hd
  simp [cnpjSum, List.range', charAt, parseInt_single, weightedSum, digitVal, *]
  omega

theorem cnpjResult_eq_standard (sum : Nat) : cnpjResult sum = standardCheckDigit sum := rfl

/-- What `isValidCNPJ` computes, on the digit values of its argument. -/
theorem isValidCNPJ_iff_core (s : Str) :
    isValidCNPJ s = true ↔
      (digitValues s).length = 14 ∧ allSameDigit (stripNonDigits s) = false ∧
      (digitValues s)[12]? = some (cnpjResult
        (weightedSum ((digitValues s).take 12) [5, 4, 3, 2, 9, 8, 7, 6, 5, 4, 3, 2])) ∧
      (digitValues s)[13]? = some (cnpjResult
        (weightedSum ((digitValues s).take 13) [6, 5, 4, 3, 2, 9, 8, 7, 6, 5, 4, 3, 2])) := by
  have hd : ∀ x ∈ stripNonDigits s, x.isDigit = true := by
    intro x hx
    exact (List.mem_filter.1 hx).2
  have hv : digitValues s = (stripNonDigits s).map digitVal := rfl
  by_cases hlen : (stripNonDigits s).length = 14
  · have hne : s.isEmpty = false := by
      cases s with
      | nil => simp [stripNonDigits] at hlen
      | cons _ _ => rfl
    obtain ⟨a, b, c, d, e, f, g, h, i, j, k, m, n, o, hl⟩ := list_length_fourteen _ hlen
    have hd1 : ∀ x ∈ [a, b, c, d, e, f, g, h, i, j, k, m], x.isDigit = true := by
      intro x hx
      apply hd
      rw [hl]
      simp only [List.mem_cons, List.mem_singleton, List.not_mem_nil, or_false] at hx ⊢
      tauto
    have hd2 : ∀ x ∈ [a, b, c, d, e, f, g, h, i, j, k, m, n], x.isDigit = true := by
      intro x hx
      apply hd
      rw [hl]
      simp only [List.mem_cons, List.mem_singleton, List.not_mem_nil, or_false] at hx ⊢
      tauto
    have h1 := cnpjSum_first a b c d e f g h i j k m hd1
    have h2 := cnpjSum_second a b c d e f g h i j k m n hd2
    have hn : n.isDigit = true := hd n (by simp [hl])
    have ho : o.isDigit = true := hd o (by simp [hl])
    have p1 : parseInt (charAt [n, o] 0) = some (digitVal n) := by
      simp [charAt, parseInt_single, hn, digitVal]
    have p2 : parseInt (charAt [n, o] 1) = some (digitVal o) := by
      simp [charAt, parseInt_single, ho, digitVal]
    have s1 : substring [a, b, c, d, e, f, g, h, i, j, k, m, n, o] 0 12 =
        [a, b, c, d, e, f, g, h, i, j, k, m] := rfl
    have s2 : substring [a, b, c, d, e, f, g, h, i, j, k, m, n, o] 0 13 =
        [a, b, c, d, e, f, g, h, i, j, k, m, n] := rfl
    have s3 : List.drop 12 [a, b, c, d, e, f, g, h, i, j, k, m, n, o] = [n, o] := rfl
    have t1 : List.take 12 (List.map digitVal [a, b, c, d, e, f, g, h, i, j, k, m, n, o]) =
        List.map digitVal [a, b, c, d, e, f, g, h, i, j, k, m] := rfl
    have t2 : List.take 13 (List.map digitVal [a, b, c, d, e, f, g, h, i, j, k, m, n, o]) =
        List.map digitVal [a, b, c, d, e, f, g, h, i, j, k, m, n] := rfl
    have g12 : (List.map digitVal [a, b, c, d, e, f, g, h, i, j, k, m, n, o])[12]? =
        some (digitVal n) := rfl
    have g13 : (List.map digitVal [a, b, c, d, e, f, g, h, i, j, k, m, n, o])[13]? =
        some (digitVal o) := rfl
    unfold isValidCNPJ
    simp only [hne, hv, hl, t1, t2, g12, g13]
    simp only [List.length_cons, List.length_nil, Nat.reduceAdd, Nat.add_one_sub_one,
      Nat.reduceSub, s1, s2, s3, h1, h2, p1, p2]
    generalize cnpjResult (weightedSum (List.map digitVal
      [a, b, c, d, e, f, g, h, i, j, k, m]) _) = r1
    generalize cnpjResult (weightedSum (List.map digitVal
      [a, b, c, d, e, f, g, h, i, j, k, m, n]) _) = r2
    cases allSameDigit [a, b, c, d, e, f, g, h, i, j, k, m, n, o]
    · by_cases e1 : r1 = digitVal n <;> by_cases e2 : r2 = digitVal o <;>
        simp [e1, e2, eq_comm]
    · simp
  · have hlen2 : (digitValues s).length ≠ 14 := by simpa [hv] using hlen
    unfold isValidCNPJ
    simp [hlen, hlen2]

/-! ## Theorems on `isValidCPF` -/

/-- C1: `isValidCPF s` holds exactly when the ASCII digits of `s` number 11, are not all the
same digit, the 10th is the standard check digit of the first nine and the 11th the standard
check digit of the first ten; and the code's `(sum * 10) % 11` with 10 mapped to 0 is the
standard check digit of `sum`. -/
theorem isValidCPF_iff_standard :
    (∀ s : Str, isValidCPF s = true ↔ StandardCPF s) ∧
    (∀ sum : Nat, cpfRemainder sum = standardCheckDigit sum) := by
  refine ⟨?_, cpfRemainder_eq_standard⟩
  intro s
  rw [isValidCPF_iff_core]
  unfold StandardCPF
  simp only [cpfRemainder_eq_standard]
  have hd : ∀ x ∈ stripNonDigits s, x.isDigit = true := fun x hx => (List.mem_filter.1 hx).2
  have hv : digitValues s = (stripNonDigits s).map digitVal := rfl
  constructor
  · rintro ⟨h1, h2, h3, h4⟩
    refine ⟨h1, ?_, h3, h4⟩
    intro hex
    have hlen : 2 ≤ (stripNonDigits s).length := by
      have := h1
      rw [hv, List.length_map] at this
      omega
    rw [hv] at hex
    rw [(allSameDigit_iff _ hd hlen).2 hex] at h2
    exact Bool.noConfusion h2
  · rintro ⟨h1, h2, h3, h4⟩
    refine ⟨h1, ?_, h3, h4⟩
    have hlen : 2 ≤ (stripNonDigits s).length := by
      have := h1
      rw [hv, List.length_map] at this
      omega
    cases hs : allSameDigit (stripNonDigits s) with
    | false => rfl
    | true =>
      exact absurd (hv ▸ (allSameDigit_iff _ hd hlen).1 hs) h2

/-- C2: in an 11-digit string that `isValidCPF` accepts, replacing the 10th or the 11th digit
by a different digit gives a string that `isValidCPF` rejects. -/
theorem isValidCPF_check_digit_replaced (s : Str) (hlen : s.length = 11)
    (hd : ∀ c ∈ s, c.isDigit = true) (hv : isValidCPF s = true)
    (x : Char) (hx : x.isDigit = true) :
    (s[9]? ≠ some x → isValidCPF (s.set 9 x) = false) ∧
    (s[10]? ≠ some x → isValidCPF (s.set 10 x) = false) := by
  obtain ⟨a, b, c, d, e, f, g, h, i, j, k, rfl⟩ := list_length_eleven s hlen
  have hj : j.isDigit = true := hd j (by simp)
  have hk : k.isDigit = true := hd k (by simp)
  have hval := (isValidCPF_iff_core _).1 hv
  rw [digitValues_of_digits _ hd] at hval
  obtain ⟨-, -, h9, h10⟩ := hval
  constructor
  · intro hne
    have hd2 : ∀ y ∈ [a, b, c, d, e, f, g, h, i, x, k], y.isDigit = true := by
      intro y hy
      simp only [List.mem_cons, List.mem_singleton, List.not_mem_nil, or_false] at hy
      rcases hy with rfl | rfl | rfl | rfl | rfl | rfl | rfl | rfl | rfl | rfl | rfl
      all_goals first | exact hx | exact hd _ (by simp)
    cases hr : isValidCPF ([a, b, c, d, e, f, g, h, i, j, k].set 9 x) with
    | false => rfl
    | true =>
      exfalso
      have hval2 := (isValidCPF_iff_core _).1 hr
      have hset : [a, b, c, d, e, f, g, h, i, j, k].set 9 x =
          [a, b, c, d, e, f, g, h, i, x, k] := rfl
      rw [hset, digitValues_of_digits _ hd2] at hval2
      obtain ⟨-, -, h9b, -⟩ := hval2
      have e1 : ([a, b, c, d, e, f, g, h, i, x, k].map digitVal).take 9 =
          ([a, b, c, d, e, f, g, h, i, j, k].map digitVal).take 9 := rfl
      rw [e1, ← h9] at h9b
      have e2 : digitVal x = digitVal j := by
        simpa using h9b
      exact hne (by
        have := digit_val_inj hx hj e2
        simp [this])
  · intro hne
    have hd2 : ∀ y ∈ [a, b, c, d, e, f, g, h, i, j, x], y.isDigit = true := by
      intro y hy
      simp only [List.mem_cons, List.mem_singleton, List.not_mem_nil, or_false] at hy
      rcases hy with rfl | rfl | rfl | rfl | rfl | rfl | rfl | rfl | rfl | rfl | rfl
      all_goals first | exact hx | exact hd _ (by simp)
    cases hr : isValidCPF ([a, b, c, d, e, f, g, h, i, j, k].set 10 x) with
    | false => rfl
    | true =>
      exfalso
      have hval2 := (isValidCPF_iff_core _).1 hr
      have hset : [a, b, c, d, e, f, g, h, i, j, k].set 10 x =
          [a, b, c, d, e, f, g, h, i, j, x] := rfl
      rw [hset, digitValues_of_digits _ hd2] at hval2
      obtain ⟨-, -, -, h10b⟩ := hval2
      have e1 : ([a, b, c, d, e, f, g, h, i, j, x].map digitVal).take 10 =
          ([a, b, c, d, e, f, g, h, i, j, k].map digitVal).take 10 := rfl
      rw [e1, ← h10] at h10b
      have e2 : digitVal x = digitVal k := by
        simpa using h10b
      exact hne (by
        have := digit_val_inj hx hk e2
        simp [this])

/-- Witness for C2 on the spec's example: 12345678909 is accepted, and with its last digit
replaced by 0 it is rejected. -/
theorem isValidCPF_check_digit_replaced_witness :
    isValidCPF "12345678909".toList = true ∧ isValidCPF "12345678900".toList = false :=
  ⟨by decide,
   (isValidCPF_check_digit_replaced "12345678909".toList (by decide) (by decide) (by decide)
      (Char.ofNat 48) (by decide)).2 (by decide)⟩

/-- The four expectations of `src/tests/validators.test.js`. -/
theorem validators_test_file :
    isValidEmail "test@example.com".toList = true ∧
    isValidEmail "invalid-email".toList = false ∧
    isValidCPF "52998224725".toList = true ∧
    isValidCPF "12345678900".toList = false := by
  decide

/-! ## Theorems on `isValidCNPJ` -/

/-- C4: `isValidCNPJ s` holds exactly when the ASCII digits of `s` number 14, are not all the
same digit, the 13th is the standard check digit of the first twelve and the 14th the
standard check digit of the first thirteen; and `11.222.333/0001-81` is accepted. -/
theorem isValidCNPJ_iff_standard :
    (∀ s : Str, isValidCNPJ s = true ↔ StandardCNPJ s) ∧
    isValidCNPJ "11.222.333/0001-81".toList = true := by
  refine ⟨?_, by decide⟩
  intro s
  rw [isValidCNPJ_iff_core]
  unfold StandardCNPJ
  simp only [cnpjResult_eq_standard]
  have hd : ∀ x ∈ stripNonDigits s, x.isDigit = true := fun x hx => (List.mem_filter.1 hx).2
  have hv : digitValues s = (stripNonDigits s).map digitVal := rfl
  constructor
  · rintro ⟨h1, h2, h3, h4⟩
    refine ⟨h1, ?_, h3, h4⟩
    intro hex
    have hlen : 2 ≤ (stripNonDigits s).length := by
      have := h1
      rw [hv, List.length_map] at this
      omega
    rw [hv] at hex
    rw [(allSameDigit_iff _ hd hlen).2 hex] at h2
    exact Bool.noConfusion h2
  · rintro ⟨h1, h2, h3, h4⟩
    refine ⟨h1, ?_, h3, h4⟩
    have hlen : 2 ≤ (stripNonDigits s).length := by
      have := h1
      rw [hv, List.length_map] at this
      omega
    cases hs : allSameDigit (stripNonDigits s) with
    | false => rfl
    | true =>
      exact absurd (hv ▸ (allSameDigit_iff _ hd hlen).1 hs) h2


/-! ## Regular expressions -/

namespace Regex

theorem nullable_iff (r : Regex) : nullable r = true ↔ Matches r [] := by
  induction r with
  | never => simp [nullable, Matches]
  | eps => simp [nullable, Matches]
  | cls p => simp [nullable, Matches]
  | seq r t ihr iht =>
    simp only [nullable, Matches, Bool.and_eq_true, ihr, iht]
    constructor
    · rintro ⟨h1, h2⟩
      exact ⟨[], [], rfl, h1, h2⟩
    · rintro ⟨u, v, h, h1, h2⟩
      obtain ⟨rfl, rfl⟩ := List.nil_eq_append_iff.1 h
      exact ⟨h1, h2⟩
  | alt r t ihr iht => simp [nullable, Matches, ihr, iht]
  | star r _ =>
    simp only [nullable, Matches, true_iff]
    exact ⟨[], rfl, by simp⟩

theorem matches_star_cons (r : Regex) (c : Char) (s : Str) :
    Matches (star r) (c :: s) ↔
      ∃ u v, s = u ++ v ∧ Matches r (c :: u) ∧ Matches (star r) v := by
  constructor
  · rintro ⟨L, hL, hall⟩
    match L, hL, hall with
    | [], hL, _ => simp at hL
    | x :: L, hL, hall =>
      have hx := hall x (by simp)
      match x, hL, hx with
      | [], _, hx => exact absurd rfl hx.1
      | y :: u, hL, hx =>
        simp only [List.flatten_cons, List.cons_append, List.cons.injEq] at hL
        obtain ⟨rfl, rfl⟩ := hL
        exact ⟨u, L.flatten, rfl, hx.2, L, rfl, fun z hz => hall z (List.mem_cons_of_mem _ hz)⟩
  · rintro ⟨u, v, rfl, hu, L, rfl, hall⟩
    refine ⟨(c :: u) :: L, by simp, ?_⟩
    intro x hx
    rcases List.mem_cons.1 hx with rfl | hx
    · exact ⟨by simp, hu⟩
    · exact hall x hx

theorem deriv_iff (r : Regex) (c : Char) : ∀ s, Matches (deriv r c) s ↔ Matches r (c :: s) := by
  induction r with
  | never => intro s; simp [deriv, Matches]
  | eps => intro s; simp [deriv, Matches]
  | cls p =>
    intro s
    by_cases hp : p c = true
    · simp only [deriv, hp, if_true, Matches]
      constructor
      · rintro rfl
        exact ⟨c, rfl, hp⟩
      · rintro ⟨x, hx, -⟩
        simp only [List.cons.injEq] at hx
        exact hx.2
    · simp only [deriv, hp, Matches, Bool.false_eq_true, if_false, false_iff]
      rintro ⟨x, hx, hpx⟩
      simp only [List.cons.injEq] at hx
      exact hp (hx.1 ▸ hpx)
  | seq r t ihr iht =>
    intro s
    have key : Matches (seq r t) (c :: s) ↔
        (Matches r [] ∧ Matches t (c :: s)) ∨
          ∃ u v, s = u ++ v ∧ Matches r (c :: u) ∧ Matches t v := by
      simp only [Matches]
      constructor
      · rintro ⟨u, v, h, hu, hv⟩
        rcases List.cons_eq_append_iff.1 h with ⟨rfl, rfl⟩ | ⟨a, rfl, rfl⟩
        · exact Or.inl ⟨hu, hv⟩
        · exact Or.inr ⟨a, v, rfl, hu, hv⟩
      · rintro (⟨h1, h2⟩ | ⟨u, v, rfl, hu, hv⟩)
        · exact ⟨[], c :: s, rfl, h1, h2⟩
        · exact ⟨c :: u, v, rfl, hu, hv⟩
    rw [key]
    by_cases hn : nullable r = true
    · have hr := (nullable_iff r).1 hn
      simp only [deriv, hn, if_true, Matches, ihr, iht, hr, true_and]
      exact or_comm
    · have hr : ¬ Matches r [] := fun h => hn ((nullable_iff r).2 h)
      simp only [deriv, hn, Bool.false_eq_true, if_false, Matches, ihr, hr, false_and,
        false_or]
  | alt r t ihr iht => intro s; simp [deriv, Matches, ihr, iht]
  | star r ih =>
    intro s
    rw [matches_star_cons]
    simp only [deriv, Matches.eq_4, ih]

theorem test_iff (r : Regex) (s : Str) : test r s = true ↔ Matches r s := by
  unfold test
  induction s generalizing r with
  | nil => exact nullable_iff r
  | cons c s ih =>
    rw [List.foldl_cons, ih, deriv_iff]

theorem matches_plus_cls (p : Char → Bool) (s : Str) :
    Matches (plus (cls p)) s ↔ s ≠ [] ∧ ∀ c ∈ s, p c = true := by
  have hstar : ∀ t : Str, Matches (star (cls p)) t ↔ ∀ c ∈ t, p c = true := by
    intro t
    induction t with
    | nil =>
      simp only [List.not_mem_nil, false_implies, implies_true, iff_true]
      exact ⟨[], rfl, by simp⟩
    | cons c t ih =>
      rw [matches_star_cons]
      constructor
      · rintro ⟨u, v, rfl, ⟨x, hx, hpx⟩, hv⟩
        simp only [List.cons.injEq] at hx
        obtain ⟨rfl, rfl⟩ := hx
        intro y hy
        rcases List.mem_cons.1 hy with rfl | hy
        · exact hpx
        · exact (ih.1 (by simpa using hv)) y (by simpa using hy)
      · intro h
        exact ⟨[], t, rfl, ⟨c, rfl, h c (by simp)⟩,
          ih.2 (fun y hy => h y (List.mem_cons_of_mem _ hy))⟩
  unfold plus
  constructor
  · rintro ⟨u, v, rfl, ⟨x, rfl, hpx⟩, hv⟩
    refine ⟨by simp, ?_⟩
    intro y hy
    rcases List.mem_cons.1 hy with rfl | hy
    · exact hpx
    · exact (hstar v).1 hv y hy
  · rintro ⟨hne, h⟩
    match s, hne, h with
    | c :: t, _, h =>
      exact ⟨[c], t, rfl, ⟨c, rfl, h c (by simp)⟩,
        (hstar t).2 (fun y hy => h y (List.mem_cons_of_mem _ hy))⟩

theorem matches_chr (c : Char) (s : Str) : Matches (chr c) s ↔ s = [c] := by
  unfold chr
  simp only [Matches, beq_iff_eq]
  constructor
  · rintro ⟨x, rfl, rfl⟩
    rfl
  · rintro rfl
    exact ⟨c, rfl, rfl⟩

end Regex

/-! ## `isValidEmail` -/

/-- What `isValidEmail` accepts: `local@name.tld` with three non-empty parts free of white
space and of `@`. -/
theorem isValidEmail_iff_parts (s : Str) :
    isValidEmail s = true ↔
      ∃ l a b : Str, s = l ++ '@' :: (a ++ '.' :: b) ∧
        (l ≠ [] ∧ ∀ c ∈ l, notSpaceAt c = true) ∧
        (a ≠ [] ∧ ∀ c ∈ a, notSpaceAt c = true) ∧
        (b ≠ [] ∧ ∀ c ∈ b, notSpaceAt c = true) := by
  have hm : emailRegex.test s = true ↔
      ∃ l a b : Str, s = l ++ '@' :: (a ++ '.' :: b) ∧
        (l ≠ [] ∧ ∀ c ∈ l, notSpaceAt c = true) ∧
        (a ≠ [] ∧ ∀ c ∈ a, notSpaceAt c = true) ∧
        (b ≠ [] ∧ ∀ c ∈ b, notSpaceAt c = true) := by
    rw [Regex.test_iff]
    unfold emailRegex
    simp only [Regex.Matches.eq_4, Regex.matches_plus_cls, Regex.matches_chr]
    constructor
    · rintro ⟨l, _, rfl, hl, _, _, rfl, rfl, a, _, rfl, ha, _, b, rfl, rfl, hb⟩
      exact ⟨l, a, b, by simp, hl, ha, hb⟩
    · rintro ⟨l, a, b, rfl, hl, ha, hb⟩
      exact ⟨l, _, rfl, hl, _, _, rfl, rfl, a, _, rfl, ha, _, b, rfl, rfl, hb⟩
  unfold isValidEmail
  cases s with
  | nil =>
    simp only [List.isEmpty_nil, if_true, Bool.false_eq_true, false_iff]
    rintro ⟨l, a, b, h, -⟩
    simp at h
  | cons c s =>
    simp only [List.isEmpty_cons, Bool.false_eq_true, if_false]
    exact hm

theorem notSpaceAt_iff (c : Char) :
    notSpaceAt c = true ↔ isWhitespace c = false ∧ c ≠ '@' := by
  unfold notSpaceAt
  simp

theorem emailRule_iff_parts (s : Str) :
    EmailRule s ↔
      ∃ l a b : Str, s = l ++ '@' :: (a ++ '.' :: b) ∧
        (l ≠ [] ∧ ∀ c ∈ l, notSpaceAt c = true) ∧
        (a ≠ [] ∧ ∀ c ∈ a, notSpaceAt c = true) ∧
        (b ≠ [] ∧ ∀ c ∈ b, notSpaceAt c = true) := by
  constructor
  · rintro ⟨hws, hcount, l, d, rfl, hl, i, hi0, hi1, hdot⟩
    have hc : List.count '@' l = 0 ∧ List.count '@' d = 0 := by
      simp only [List.count_append, List.count_cons_self] at hcount
      omega
    have hnl : '@' ∉ l := List.count_eq_zero.1 hc.1
    have hnd : '@' ∉ d := List.count_eq_zero.1 hc.2
    have hilt : i < d.length := by omega
    have hget : d[i] = '.' := by
      rw [List.getElem?_eq_getElem hilt] at hdot
      exact Option.some.inj hdot
    have hsplit : d = d.take i ++ '.' :: d.drop (i + 1) := by
      conv_lhs => rw [← List.take_append_drop i d, List.drop_eq_getElem_cons hilt, hget]
    refine ⟨l, d.take i, d.drop (i + 1), by rw [← hsplit], ⟨hl, ?_⟩, ⟨?_, ?_⟩, ⟨?_, ?_⟩⟩
    · intro c hc
      rw [notSpaceAt_iff]
      refine ⟨hws c (by simp [hc]), ?_⟩
      rintro rfl
      exact hnl hc
    · intro h
      have := congrArg List.length h
      simp only [List.length_take, List.length_nil] at this
      omega
    · intro c hc
      rw [notSpaceAt_iff]
      have hcd : c ∈ d := List.mem_of_mem_take hc
      refine ⟨hws c (by simp [hcd]), ?_⟩
      rintro rfl
      exact hnd hcd
    · intro h
      have := congrArg List.length h
      simp only [List.length_drop, List.length_nil] at this
      omega
    · intro c hc
      rw [notSpaceAt_iff]
      have hcd : c ∈ d := List.mem_of_mem_drop hc
      refine ⟨hws c (by simp [hcd]), ?_⟩
      rintro rfl
      exact hnd hcd
  · rintro ⟨l, a, b, rfl, ⟨hl, hlp⟩, ⟨ha, hap⟩, ⟨hb, hbp⟩⟩
    have nl : ∀ c ∈ l, isWhitespace c = false ∧ c ≠ '@' :=
      fun c hc => (notSpaceAt_iff c).1 (hlp c hc)
    have na : ∀ c ∈ a, isWhitespace c = false ∧ c ≠ '@' :=
      fun c hc => (notSpaceAt_iff c).1 (hap c hc)
    have nb : ∀ c ∈ b, isWhitespace c = false ∧ c ≠ '@' :=
      fun c hc => (notSpaceAt_iff c).1 (hbp c hc)
    have cl : List.count '@' l = 0 := List.count_eq_zero.2 (fun h => (nl _ h).2 rfl)
    have ca : List.count '@' a = 0 := List.count_eq_zero.2 (fun h => (na _ h).2 rfl)
    have cb : List.count '@' b = 0 := List.count_eq_zero.2 (fun h => (nb _ h).2 rfl)
    refine ⟨?_, ?_, l, a ++ '.' :: b, rfl, hl, a.length, ?_, ?_, ?_⟩
    · intro c hc
      simp only [List.mem_append, List.mem_cons] at hc
      rcases hc with hc | rfl | hc | rfl | hc
      · exact (nl c hc).1
      · decide
      · exact (na c hc).1
      · decide
      · exact (nb c hc).1
    · have hne : ('.' : Char) ≠ '@' := by decide
      simp [List.count_append, List.count_cons, cl, ca, cb, hne]
    · exact List.length_pos.2 ha
    · have := List.length_pos.2 hb
      simp only [List.length_append, List.length_cons]
      omega
    · rw [List.getElem?_append_right (Nat.le_refl _)]
      simp

/-- C3: `isValidEmail s` holds exactly when `s` has no white space, exactly one `@`, at least
one character before it, and after it a `.` that is neither first nor last in that part; so a
string without `@` is rejected, and `local@name.tld` with non-empty parts free of white space
and `@` is accepted. -/
theorem isValidEmail_iff_rule :
    (∀ s : Str, isValidEmail s = true ↔ EmailRule s) ∧
    (∀ s : Str, '@' ∉ s → isValidEmail s = false) ∧
    (∀ l n t : Str, l ≠ [] → n ≠ [] → t ≠ [] →
      (∀ c ∈ l ++ n ++ t, isWhitespace c = false ∧ c ≠ '@') →
      isValidEmail (l ++ '@' :: (n ++ '.' :: t)) = true) := by
  refine ⟨fun s => ?_, fun s hs => ?_, fun l n t hl hn ht hall => ?_⟩
  · rw [isValidEmail_iff_parts, emailRule_iff_parts]
  · cases h : isValidEmail s with
    | false => rfl
    | true =>
      obtain ⟨l, a, b, rfl, -⟩ := (isValidEmail_iff_parts s).1 h
      exact absurd (by simp) hs
  · rw [isValidEmail_iff_parts]
    refine ⟨l, n, t, rfl, ⟨hl, fun c hc => ?_⟩, ⟨hn, fun c hc => ?_⟩, ⟨ht, fun c hc => ?_⟩⟩
    · exact (notSpaceAt_iff c).2 (hall c (by simp [hc]))
    · exact (notSpaceAt_iff c).2 (hall c (by simp [hc]))
    · exact (notSpaceAt_iff c).2 (hall c (by simp [hc]))

/-- Witness for C3 on the strings of the test file: `test@example.com` is accepted through the
third part of the theorem and `invalid-email`, which has no `@`, is rejected through the
second. -/
theorem isValidEmail_iff_rule_witness :
    isValidEmail "test@example.com".toList = true ∧
    isValidEmail "invalid-email".toList = false :=
  ⟨isValidEmail_iff_rule.2.2 "test".toList "example".toList "com".toList
      (by decide) (by decide) (by decide) (by decide),
   isValidEmail_iff_rule.2.1 "invalid-email".toList (by decide)⟩

/-! ## The CRM service: validation -/

theorem stripNonDigits_idem (s : Str) : stripNonDigits (stripNonDigits s) = stripNonDigits s := by
  unfold stripNonDigits
  simp [List.filter_filter]

theorem digitValues_strip (s : Str) : digitValues (stripNonDigits s) = digitValues s := by
  unfold digitValues
  have h := stripNonDigits_idem s
  unfold stripNonDigits at h ⊢
  rw [h]

theorem isValidCPF_strip (s : Str) : isValidCPF (stripNonDigits s) = isValidCPF s := by
  rw [Bool.eq_iff_iff, isValidCPF_iff_core, isValidCPF_iff_core, digitValues_strip,
    stripNonDigits_idem]

theorem isValidCNPJ_strip (s : Str) : isValidCNPJ (stripNonDigits s) = isValidCNPJ s := by
  rw [Bool.eq_iff_iff, isValidCNPJ_iff_core, isValidCNPJ_iff_core, digitValues_strip,
    stripNonDigits_idem]

theorem checkDocument_cases (d : Doc) :
    (cpfFails d = true → checkDocument d = .error { message := "CPF inválido" }) ∧
    (cnpjFails d = true → checkDocument d = .error { message := "CNPJ inválido" }) ∧
    (cpfFails d = false → cnpjFails d = false →
      ∃ d2, checkDocument d = .ok d2 ∧ d2.phone = d.phone ∧ d2.email = d.email) := by
  unfold cpfFails cnpjFails checkDocument
  simp only [isValidCPF_strip, isValidCNPJ_strip]
  cases h1 : truthy d.document
  · simp
  · by_cases h8 : (stripNonDigits (d.document.getD [])).length = 11
    · cases h4 : isValidCPF (d.document.getD []) <;> simp [h8]
    · by_cases h9 : (stripNonDigits (d.document.getD [])).length = 14
      · cases h5 : isValidCNPJ (d.document.getD []) <;> simp [h9]
      · simp [h8, h9]

theorem checkPhone_cases (d : Doc) :
    (phoneFails d = true → checkPhone d = .error { message := "Telefone inválido" }) ∧
    (phoneFails d = false → ∃ d2, checkPhone d = .ok d2 ∧ d2.email = d.email) := by
  unfold phoneFails checkPhone
  cases h1 : truthy d.phone <;> cases h2 : isValidPhone (d.phone.getD []) <;> simp

theorem checkEmail_cases (d : Doc) :
    (emailFails d = true → checkEmail d = .error { message := "Email inválido" }) ∧
    (emailFails d = false → checkEmail d = .ok d) := by
  unfold emailFails checkEmail
  cases h1 : truthy d.email <;> cases h2 : isValidEmail (d.email.getD []) <;> simp

/-- The checks of `validateContact`, in the order the code makes them. -/
theorem validateContact_error (d : Doc) :
    (cpfFails d = true → validateContact d = .error { message := "CPF inválido" }) ∧
    (cnpjFails d = true → validateContact d = .error { message := "CNPJ inválido" }) ∧
    (cpfFails d = false → cnpjFails d = false → phoneFails d = true →
      validateContact d = .error { message := "Telefone inválido" }) ∧
    (cpfFails d = false → cnpjFails d = false → phoneFails d = false → emailFails d = true →
      validateContact d = .error { message := "Email inválido" }) ∧
    (cpfFails d = false → cnpjFails d = false → phoneFails d = false → emailFails d = false →
      ∃ d2, validateContact d = .ok d2) := by
  obtain ⟨a1, a2, a3⟩ := checkDocument_cases d
  unfold validateContact
  refine ⟨fun h => by rw [a1 h], fun h => by rw [a2 h], ?_, ?_, ?_⟩
  · intro h1 h2 h3
    obtain ⟨d2, e2, p2, -⟩ := a3 h1 h2
    have hp : phoneFails d2 = true := by
      unfold phoneFails at h3 ⊢
      rw [p2]
      exact h3
    rw [e2]
    simp only [(checkPhone_cases d2).1 hp]
  · intro h1 h2 h3 h4
    obtain ⟨d2, e2, p2, m2⟩ := a3 h1 h2
    have hp : phoneFails d2 = false := by
      unfold phoneFails at h3 ⊢
      rw [p2]
      exact h3
    obtain ⟨d3, e3, m3⟩ := (checkPhone_cases d2).2 hp
    have hm : emailFails d3 = true := by
      unfold emailFails at h4 ⊢
      rw [m3, m2]
      exact h4
    rw [e2]
    simp only [e3, (checkEmail_cases d3).1 hm]
  · intro h1 h2 h3 h4
    obtain ⟨d2, e2, p2, m2⟩ := a3 h1 h2
    have hp : phoneFails d2 = false := by
      unfold phoneFails at h3 ⊢
      rw [p2]
      exact h3
    obtain ⟨d3, e3, m3⟩ := (checkPhone_cases d2).2 hp
    have hm : emailFails d3 = false := by
      unfold emailFails at h4 ⊢
      rw [m3, m2]
      exact h4
    rw [e2]
    simp only [e3, (checkEmail_cases d3).2 hm]
    exact ⟨d3, rfl⟩

theorem newEvents_showNotification {α : Type} (x : Except JSError α) (msg kind : String)
    (w : World) : newEvents w (x, showNotification msg kind w) = [.notified msg kind] := by
  simp [newEvents, showNotification, World.record]

theorem addCustomer_of_invalid (h : Host) (d : Doc) (w : World) (msg : String)
    (hmsg : msg ≠ "") (hname : truthy d.name = true)
    (hv : validateContact d = .error { message := msg }) :
    CRMService.addCustomer h d w =
      (.error { message := msg }, showNotification msg "error" w) := by
  simp [CRMService.addCustomer, catchNotify, hname, hv, notifyAndRethrow, hmsg]

theorem updateCustomer_of_invalid (customerId : String) (d : Doc) (w : World) (msg : String)
    (hmsg : msg ≠ "") (hv : validateContact d = .error { message := msg }) :
    CRMService.updateCustomer customerId d w =
      (.error { message := msg }, showNotification msg "error" w) := by
  simp [CRMService.updateCustomer, catchNotify, hv, notifyAndRethrow, hmsg]

/-- C5 (as stated, refuted): a customer named Ana with the document `123`, which is neither a
valid CPF nor a valid CNPJ, is written to the store by `addCustomer`. -/
theorem addCustomer_saves_unchecked_document :
    isValidCPF "123".toList = false ∧ isValidCNPJ "123".toList = false ∧
    newEvents emptyWorld (CRMService.addCustomer asciiHost
        { name := some "Ana".toList, document := some "123".toList } emptyWorld) =
      [.called "addDocument" "customers",
       .sent (.add "customers"
         { name := some "Ana".toList, document := some "123".toList,
           status := some "active".toList, type := some "person".toList,
           totalPurchases := some 0, totalSpent := some 0, createdBy := some none }),
       .notified "Cliente adicionado com sucesso!" "success"] ∧
    ¬ (∀ (h : Host) (d : Doc) (w : World), truthy d.name = true → truthy d.document = true →
        Event.called "addDocument" "customers" ∈ newEvents w (CRMService.addCustomer h d w) →
        isValidCPF (d.document.getD []) = true ∨ isValidCNPJ (d.document.getD []) = true) := by
  have e : newEvents emptyWorld (CRMService.addCustomer asciiHost
        { name := some "Ana".toList, document := some "123".toList } emptyWorld) =
      [.called "addDocument" "customers",
       .sent (.add "customers"
         { name := some "Ana".toList, document := some "123".toList,
           status := some "active".toList, type := some "person".toList,
           totalPurchases := some 0, totalSpent := some 0, createdBy := some none }),
       .notified "Cliente adicionado com sucesso!" "success"] := rfl
  refine ⟨by decide, by decide, e, ?_⟩
  intro H
  have h := H asciiHost { name := some "Ana".toList, document := some "123".toList } emptyWorld
    rfl rfl (by rw [e]; simp)
  revert h
  decide

/-- C5 (amended): for a record with a name and a non-empty document, `addCustomer` and
`updateCustomer` reach the database write only if the document is a valid CPF, a valid CNPJ,
or has a number of digits other than 11 and 14; a document with 11 digits that is not a valid
CPF, or with 14 digits that is not a valid CNPJ, is rejected with `CPF inválido` or
`CNPJ inválido` and the run leaves the state as it was but for the error toast. -/
theorem invalid_document_rejected (h : Host) (customerId : String) (d : Doc) (w : World)
    (hname : truthy d.name = true) (hdoc : truthy d.document = true) :
    ((cpfFails d = true ∨ cnpjFails d = true) →
      ∃ msg, (msg = "CPF inválido" ∨ msg = "CNPJ inválido") ∧
        CRMService.addCustomer h d w =
          (.error { message := msg }, showNotification msg "error" w) ∧
        CRMService.updateCustomer customerId d w =
          (.error { message := msg }, showNotification msg "error" w)) ∧
    ((Event.called "addDocument" "customers" ∈ newEvents w (CRMService.addCustomer h d w) ∨
      Event.called "updateDocument" "customers" ∈
        newEvents w (CRMService.updateCustomer customerId d w)) →
      isValidCPF (d.document.getD []) = true ∨ isValidCNPJ (d.document.getD []) = true ∨
        ((stripNonDigits (d.document.getD [])).length ≠ 11 ∧
          (stripNonDigits (d.document.getD [])).length ≠ 14)) := by
  have key : (cpfFails d = true ∨ cnpjFails d = true) →
      ∃ msg, (msg = "CPF inválido" ∨ msg = "CNPJ inválido") ∧
        CRMService.addCustomer h d w =
          (.error { message := msg }, showNotification msg "error" w) ∧
        CRMService.updateCustomer customerId d w =
          (.error { message := msg }, showNotification msg "error" w) := by
    obtain ⟨a1, a2, -⟩ := validateContact_error d
    rintro (hc | hc)
    · exact ⟨"CPF inválido", Or.inl rfl,
        addCustomer_of_invalid h d w _ (by decide) hname (a1 hc),
        updateCustomer_of_invalid customerId d w _ (by decide) (a1 hc)⟩
    · exact ⟨"CNPJ inválido", Or.inr rfl,
        addCustomer_of_invalid h d w _ (by decide) hname (a2 hc),
        updateCustomer_of_invalid customerId d w _ (by decide) (a2 hc)⟩
  refine ⟨key, ?_⟩
  intro hreach
  by_cases hf : cpfFails d = true ∨ cnpjFails d = true
  · obtain ⟨msg, -, e1, e2⟩ := key hf
    rw [e1, e2, newEvents_showNotification] at hreach
    simp at hreach
  · simp only [cpfFails, cnpjFails, hdoc, Bool.true_and, Bool.and_eq_true, beq_iff_eq,
      Bool.not_eq_true', not_or, not_and, Bool.not_eq_false] at hf
    by_cases h11 : (stripNonDigits (d.document.getD [])).length = 11
    · exact Or.inl (hf.1 h11)
    · by_cases h14 : (stripNonDigits (d.document.getD [])).length = 14
      · exact Or.inr (Or.inl (hf.2 h14))
      · exact Or.inr (Or.inr ⟨h11, h14⟩)

/-- Witness for C5 (amended): the document `123.456.789-00` has 11 digits and is not a valid
CPF, so both operations reject it. -/
theorem invalid_document_rejected_witness :
    ∃ msg, (msg = "CPF inválido" ∨ msg = "CNPJ inválido") ∧
      CRMService.addCustomer asciiHost
          { name := some "Ana".toList, document := some "123.456.789-00".toList } emptyWorld =
        (.error { message := msg }, showNotification msg "error" emptyWorld) ∧
      CRMService.updateCustomer "doc0"
          { name := some "Ana".toList, document := some "123.456.789-00".toList } emptyWorld =
        (.error { message := msg }, showNotification msg "error" emptyWorld) :=
  (invalid_document_rejected asciiHost "doc0"
    { name := some "Ana".toList, document := some "123.456.789-00".toList } emptyWorld
    rfl rfl).1 (Or.inl (by decide))

/-- C6: when `addCustomer` fails validation (no name; a given document of 11 digits failing
`isValidCPF` or of 14 digits failing `isValidCNPJ`; a given phone failing `isValidPhone`; a
given email failing `isValidEmail`) it throws the error of the first failing check, in that
order, with the corresponding message; no method of the database adapter is entered, no
request reaches the store, and the stored documents are unchanged. -/
theorem addCustomer_validation_failure (h : Host) (d : Doc) (w : World)
    (hfail : truthy d.name = false ∨ cpfFails d = true ∨ cnpjFails d = true ∨
      phoneFails d = true ∨ emailFails d = true) :
    ∃ msg,
      msg ∈ ["Nome do cliente é obrigatório", "CPF inválido", "CNPJ inválido",
        "Telefone inválido", "Email inválido"] ∧
      CRMService.addCustomer h d w =
        (.error { message := msg }, showNotification msg "error" w) ∧
      (CRMService.addCustomer h d w).2.store = w.store ∧
      (∀ m c, Event.called m c ∉ newEvents w (CRMService.addCustomer h d w)) ∧
      (∀ r, Event.sent r ∉ newEvents w (CRMService.addCustomer h d w)) ∧
      (truthy d.name = false → msg = "Nome do cliente é obrigatório") ∧
      (truthy d.name = true → cpfFails d = true → msg = "CPF inválido") ∧
      (truthy d.name = true → cnpjFails d = true → msg = "CNPJ inválido") ∧
      (truthy d.name = true → cpfFails d = false → cnpjFails d = false →
        phoneFails d = true → msg = "Telefone inválido") ∧
      (truthy d.name = true → cpfFails d = false → cnpjFails d = false →
        phoneFails d = false → emailFails d = true → msg = "Email inválido") := by
  have hex : cpfFails d = true → cnpjFails d = true → False := by
    unfold cpfFails cnpjFails
    simp only [Bool.and_eq_true, beq_iff_eq]
    rintro ⟨⟨-, h1⟩, -⟩ ⟨⟨-, h2⟩, -⟩
    omega
  have fin : ∀ msg : String,
      CRMService.addCustomer h d w =
        (.error { message := msg }, showNotification msg "error" w) →
      (CRMService.addCustomer h d w).2.store = w.store ∧
      (∀ m c, Event.called m c ∉ newEvents w (CRMService.addCustomer h d w)) ∧
      (∀ r, Event.sent r ∉ newEvents w (CRMService.addCustomer h d w)) := by
    intro msg e
    rw [e, newEvents_showNotification]
    refine ⟨rfl, ?_, ?_⟩ <;> simp
  obtain ⟨a1, a2, a3, a4, -⟩ := validateContact_error d
  cases hn : truthy d.name with
  | false =>
    have e : CRMService.addCustomer h d w =
        (.error { message := "Nome do cliente é obrigatório" },
          showNotification "Nome do cliente é obrigatório" "error" w) := by
      simp [CRMService.addCustomer, catchNotify, hn, notifyAndRethrow]
    obtain ⟨f1, f2, f3⟩ := fin _ e
    exact ⟨_, by simp, e, f1, f2, f3, fun _ => rfl, by simp, by simp, by simp, by simp⟩
  | true =>
    simp only [hn, Bool.true_eq_false, false_or] at hfail
    cases hc : cpfFails d with
    | true =>
      have e := addCustomer_of_invalid h d w _ (by decide) hn (a1 hc)
      obtain ⟨f1, f2, f3⟩ := fin _ e
      exact ⟨_, by simp, e, f1, f2, f3, by simp, fun _ _ => rfl,
        fun _ h2 => (hex hc h2).elim, by simp, by simp⟩
    | false =>
      cases hj : cnpjFails d with
      | true =>
        have e := addCustomer_of_invalid h d w _ (by decide) hn (a2 hj)
        obtain ⟨f1, f2, f3⟩ := fin _ e
        exact ⟨_, by simp, e, f1, f2, f3, by simp, by simp, fun _ _ => rfl, by simp, by simp⟩
      | false =>
        cases hp : phoneFails d with
        | true =>
          have e := addCustomer_of_invalid h d w _ (by decide) hn (a3 hc hj hp)
          obtain ⟨f1, f2, f3⟩ := fin _ e
          exact ⟨_, by simp, e, f1, f2, f3, by simp, by simp, by simp,
            fun _ _ _ _ => rfl, by simp⟩
        | false =>
          have hm : emailFails d = true := by simpa [hc, hj, hp] using hfail
          have e := addCustomer_of_invalid h d w _ (by decide) hn (a4 hc hj hp hm)
          obtain ⟨f1, f2, f3⟩ := fin _ e
          exact ⟨_, by simp, e, f1, f2, f3, by simp, by simp, by simp, by simp,
            fun _ _ _ _ _ => rfl⟩

/-- Witness for C6: a customer named Ana whose phone `1111-1111` repeats one digit. -/
theorem addCustomer_validation_failure_witness :
    ∃ msg,
      msg ∈ ["Nome do cliente é obrigatório", "CPF inválido", "CNPJ inválido",
        "Telefone inválido", "Email inválido"] ∧
      CRMService.addCustomer asciiHost
          { name := some "Ana".toList, phone := some "1111-1111".toList } emptyWorld =
        (.error { message := msg }, showNotification msg "error" emptyWorld) ∧
      msg = "Telefone inválido" := by
  obtain ⟨msg, h1, h2, -, -, -, -, -, -, h3, -⟩ :=
    addCustomer_validation_failure asciiHost
      { name := some "Ana".toList, phone := some "1111-1111".toList } emptyWorld
      (Or.inr (Or.inr (Or.inr (Or.inl (by decide)))))
  exact ⟨msg, h1, h2, h3 rfl (by decide) (by decide) (by decide)⟩

/-! ## Rejections of the remote store -/

theorem rethrows_refl {α : Type} (x : Except JSError α) (w : World) : Rethrows w (x, w) :=
  ⟨[], by simp, by simp⟩

theorem rethrows_newEvents {α : Type} {w : World} {r : Result α} (hr : Rethrows w r)
    (e : JSError) (he : Event.rejected e ∈ newEvents w r) : r.1 = .error e := by
  obtain ⟨evs, h1, h2⟩ := hr
  unfold newEvents at he
  rw [h1, List.drop_left] at he
  exact h2 e he

theorem rethrows_notify {α : Type} {w : World} {x : Except JSError α} {w1 : World}
    (msg kind : String) (hr : Rethrows w (x, w1)) :
    Rethrows w (x, showNotification msg kind w1) := by
  obtain ⟨evs, h1, h2⟩ := hr
  refine ⟨evs ++ [.notified msg kind], ?_, ?_⟩
  · simp only [showNotification, World.record] at h1 ⊢
    rw [h1, List.append_assoc]
  · intro e he
    simp only [List.mem_append, List.mem_singleton] at he
    rcases he with he | he
    · exact h2 e he
    · exact Event.noConfusion he

theorem rethrows_andThen {α β : Type} {w : World} {r : Result α} {f : α → World → Result β}
    (hr : Rethrows w r) (hf : ∀ v w1, Rethrows w1 (f v w1)) : Rethrows w (andThen r f) := by
  obtain ⟨x, w1⟩ := r
  obtain ⟨evs, h1, h2⟩ := hr
  cases x with
  | error e0 =>
    refine ⟨evs, h1, fun e he => ?_⟩
    have h3 := h2 e he
    simp only [Except.error.injEq] at h3
    simp [andThen, h3]
  | ok v =>
    obtain ⟨evs2, g1, g2⟩ := hf v w1
    refine ⟨evs ++ evs2, ?_, ?_⟩
    · simp only [andThen] at g1 ⊢
      simp only at h1
      rw [g1, h1, List.append_assoc]
    · intro e he
      rcases List.mem_append.1 he with he | he
      · exact absurd (h2 e he) (by simp)
      · exact g2 e he

theorem rethrows_catchNotify {α : Type} {w : World} {r : Result α} (fallback : String)
    (hr : Rethrows w r) : Rethrows w (catchNotify fallback r) := by
  obtain ⟨x, w1⟩ := r
  cases x with
  | error e0 => exact rethrows_notify _ _ hr
  | ok v => exact hr

theorem rethrows_catchRethrow {α : Type} {w : World} {r : Result α}
    (hr : Rethrows w r) : Rethrows w (catchRethrow r) := by
  obtain ⟨x, w1⟩ := r
  cases x with
  | error e0 => exact hr
  | ok v => exact hr

/-- What `send` does to the log: the request, then the rejection when there is one. -/
theorem send_log (w : World) (r : Request) :
    (∀ e, (w.send r).1 = some e →
      (w.send r).2.log = w.log ++ [.sent r, .rejected e]) ∧
    ((w.send r).1 = none → (w.send r).2.log = w.log ++ [.sent r]) := by
  unfold World.send World.record
  rcases ho : w.outcomes with _ | ⟨_ | e0, rest⟩ <;> simp [ho]

theorem rethrows_catchToast {α : Type} {w : World} {r : Result α} (message : String)
    (hr : Rethrows w r) : Rethrows w (catchToast message r) := by
  obtain ⟨x, w1⟩ := r
  cases x with
  | error e0 => exact rethrows_notify _ _ hr
  | ok v => exact hr

theorem rethrows_record {α : Type} {w : World} {r : Result α} (m c : String)
    (hr : Rethrows (w.record (.called m c)) r) : Rethrows w r := by
  obtain ⟨evs, h1, h2⟩ := hr
  refine ⟨.called m c :: evs, ?_, ?_⟩
  · rw [h1]
    simp [World.record]
  · intro e he
    rcases List.mem_cons.1 he with he | he
    · exact Event.noConfusion he
    · exact h2 e he

theorem send_cases (w : World) (r : Request) :
    (∃ e w2, w.send r = (some e, w2) ∧ w2.log = w.log ++ [.sent r, .rejected e]) ∨
    (∃ w2, w.send r = (none, w2) ∧ w2.log = w.log ++ [.sent r] ∧ w2.store = w.store) := by
  unfold World.send World.record
  rcases ho : w.outcomes with _ | ⟨_ | e0, rest⟩
  · simp [ho]
  · simp [ho]
  · refine Or.inl ⟨e0, { w with outcomes := rest, log := w.log ++ [.sent r, .rejected e0] },
      ?_, rfl⟩
    simp [ho]

theorem rethrows_rejected {α : Type} {w w2 : World} (r : Request) (e : JSError)
    (hl : w2.log = w.log ++ [.sent r, .rejected e]) :
    Rethrows w ((.error e : Except JSError α), w2) := by
  refine ⟨_, hl, ?_⟩
  intro e2 he
  simp at he
  simp [he]

theorem rethrows_served {α : Type} {w w2 : World} (r : Request) (x : Except JSError α)
    (hl : w2.log = w.log ++ [.sent r]) : Rethrows w (x, w2) :=
  ⟨_, hl, by simp⟩

theorem rethrows_get (c i : String) (w : World) : Rethrows w (Firestore.get c i w) := by
  unfold Firestore.get
  rcases send_cases w (.get c i) with ⟨e, w2, hs, hl⟩ | ⟨w2, hs, hl, -⟩
  · rw [hs]
    exact rethrows_rejected _ e hl
  · rw [hs]
    exact rethrows_served _ _ hl

theorem rethrows_query (h : Host) (c : String) (q : Query) (w : World) :
    Rethrows w (Firestore.query h c q w) := by
  unfold Firestore.query
  rcases send_cases w (.query c q) with ⟨e, w2, hs, hl⟩ | ⟨w2, hs, hl, -⟩
  · rw [hs]
    exact rethrows_rejected _ e hl
  · rw [hs]
    exact rethrows_served _ _ hl

theorem rethrows_add (h : Host) (c : String) (d : Doc) (w : World) :
    Rethrows w (Firestore.add h c d w) := by
  unfold Firestore.add
  rcases send_cases w (.add c d) with ⟨e, w2, hs, hl⟩ | ⟨w2, hs, hl, -⟩
  · rw [hs]
    exact rethrows_rejected _ e hl
  · rw [hs]
    exact rethrows_served (.add c d) _ hl

theorem rethrows_update (c i : String) (d : Doc) (w : World) :
    Rethrows w (Firestore.update c i d w) := by
  unfold Firestore.update
  rcases send_cases w (.update c i d) with ⟨e, w2, hs, hl⟩ | ⟨w2, hs, hl, -⟩
  · rw [hs]
    exact rethrows_rejected _ e hl
  · rw [hs]
    simp only
    split
    · exact rethrows_served (.update c i d) _ hl
    · exact rethrows_rejected (.update c i d) Firestore.notFound (by simp [World.record, hl])

theorem rethrows_commit (deletes : List (String × String)) (w : World) :
    Rethrows w (Firestore.commit deletes w) := by
  unfold Firestore.commit
  rcases send_cases w (.commit deletes) with ⟨e, w2, hs, hl⟩ | ⟨w2, hs, hl, -⟩
  · rw [hs]
    exact rethrows_rejected _ e hl
  · rw [hs]
    exact rethrows_served (.commit deletes) _ hl

theorem rethrows_getDocument (c i : String) (w : World) :
    Rethrows w (DatabaseService.getDocument c i w) := by
  unfold DatabaseService.getDocument
  split
  · exact rethrows_refl _ _
  · exact rethrows_catchRethrow (rethrows_record _ _
      (rethrows_andThen (rethrows_get _ _ _) (fun v w1 => rethrows_refl _ _)))

theorem rethrows_getDocuments (h : Host) (c : String) (o : QueryOptions) (w : World) :
    Rethrows w (DatabaseService.getDocuments h c o w) := by
  unfold DatabaseService.getDocuments
  split
  · exact rethrows_refl _ _
  · exact rethrows_catchRethrow (rethrows_record _ _
      (rethrows_andThen (rethrows_query _ _ _ _) (fun v w1 => rethrows_refl _ _)))

theorem rethrows_addDocument (h : Host) (c : String) (d : Doc) (w : World) :
    Rethrows w (DatabaseService.addDocument h c d w) := by
  unfold DatabaseService.addDocument
  split
  · exact rethrows_refl _ _
  · exact rethrows_catchToast _ (rethrows_record _ _
      (rethrows_andThen (rethrows_add _ _ _ _) (fun v w1 => rethrows_refl _ _)))

theorem rethrows_updateDocument (c i : String) (d : Doc) (w : World) :
    Rethrows w (DatabaseService.updateDocument c i d w) := by
  unfold DatabaseService.updateDocument
  split
  · exact rethrows_refl _ _
  · refine rethrows_catchToast _ (rethrows_record _ _
      (rethrows_andThen (rethrows_update _ _ _ _) (fun v w1 => ?_)))
    refine rethrows_andThen (rethrows_get _ _ _) (fun v w2 => ?_)
    split <;> exact rethrows_refl _ _

theorem rethrows_runBatch (deletes : List (String × String)) (w : World) :
    Rethrows w (DatabaseService.runBatch deletes w) := by
  unfold DatabaseService.runBatch
  split
  · exact rethrows_refl _ _
  · exact rethrows_catchToast _ (rethrows_record _ _ (rethrows_commit _ _))

/-! ## Theorems on the propagation of remote failures -/

/-- C7 (as stated, refuted): when the store rejects the query of `SearchService.search` with an
error, `search` does not throw it: it resolves with `Nenhum resultado encontrado.`. -/
theorem search_swallows_rejection :
    (SearchService.search asciiHost "caneta".toList failingWorld).1 =
      .ok "Nenhum resultado encontrado.".toList ∧
    Event.rejected offlineError ∈
      newEvents failingWorld (SearchService.search asciiHost "caneta".toList failingWorld) ∧
    ¬ (∀ (h : Host) (query : Str) (w : World) (e : JSError),
        Event.rejected e ∈ newEvents w (SearchService.search h query w) →
        (SearchService.search h query w).1 = .error e) := by
  have e1 : (SearchService.search asciiHost "caneta".toList failingWorld).1 =
      .ok "Nenhum resultado encontrado.".toList := rfl
  have e2 : newEvents failingWorld
      (SearchService.search asciiHost "caneta".toList failingWorld) =
      [.called "getDocuments" "products",
       .sent (.query "products" { limit := some 50 }),
       .rejected offlineError] := rfl
  refine ⟨e1, by rw [e2]; simp, ?_⟩
  intro H
  have h := H asciiHost "caneta".toList failingWorld offlineError (by rw [e2]; simp)
  rw [e1] at h
  exact Except.noConfusion h

/-- C7 (amended): in each of the ten asynchronous operations of the CRM service, if the store
rejects a request of the run with an error, the operation throws that error; `search`, for a
query that is not empty, instead resolves with `Nenhum resultado encontrado.` whenever its
call of the adapter throws. -/
theorem crm_operations_rethrow (h : Host) (w : World) (e : JSError) :
    (∀ d, Event.rejected e ∈ newEvents w (CRMService.addCustomer h d w) →
      (CRMService.addCustomer h d w).1 = .error e) ∧
    (∀ i d, Event.rejected e ∈ newEvents w (CRMService.updateCustomer i d w) →
      (CRMService.updateCustomer i d w).1 = .error e) ∧
    (∀ i, Event.rejected e ∈ newEvents w (CRMService.getCustomer i w) →
      (CRMService.getCustomer i w).1 = .error e) ∧
    (∀ o, Event.rejected e ∈ newEvents w (CRMService.getCustomers h o w) →
      (CRMService.getCustomers h o w).1 = .error e) ∧
    (∀ i, Event.rejected e ∈ newEvents w (CRMService.deleteCustomer h i w) →
      (CRMService.deleteCustomer h i w).1 = .error e) ∧
    (∀ i d, Event.rejected e ∈ newEvents w (CRMService.addInteraction h i d w) →
      (CRMService.addInteraction h i d w).1 = .error e) ∧
    (∀ i o, Event.rejected e ∈ newEvents w (CRMService.getInteractions h i o w) →
      (CRMService.getInteractions h i o w).1 = .error e) ∧
    (∀ i a, Event.rejected e ∈ newEvents w (CRMService.updateCustomerPurchaseData i a w) →
      (CRMService.updateCustomerPurchaseData i a w).1 = .error e) ∧
    (∀ t l, Event.rejected e ∈ newEvents w (CRMService.searchCustomers h t l w) →
      (CRMService.searchCustomers h t l w).1 = .error e) ∧
    (Event.rejected e ∈ newEvents w (CRMService.getCustomerStats h w) →
      (CRMService.getCustomerStats h w).1 = .error e) ∧
    (∀ (query : Str) (error : JSError) (w1 : World), query ≠ [] →
      DatabaseService.getDocuments h "products" (SearchService.searchOptions w) w =
        (.error error, w1) →
      SearchService.search h query w = (.ok "Nenhum resultado encontrado.".toList, w1)) := by
  refine ⟨fun d => rethrows_newEvents ?_ e, fun i d => rethrows_newEvents ?_ e,
    fun i => rethrows_newEvents ?_ e, fun o => rethrows_newEvents ?_ e,
    fun i => rethrows_newEvents ?_ e, fun i d => rethrows_newEvents ?_ e,
    fun i o => rethrows_newEvents ?_ e, fun i a => rethrows_newEvents ?_ e,
    fun t l => rethrows_newEvents ?_ e, rethrows_newEvents ?_ e, ?_⟩
  · unfold CRMService.addCustomer
    apply rethrows_catchNotify
    split
    · exact rethrows_refl _ _
    · split
      · exact rethrows_refl _ _
      · exact rethrows_andThen (rethrows_addDocument _ _ _ _)
          (fun v w1 => rethrows_notify _ _ (rethrows_refl _ _))
  · unfold CRMService.updateCustomer
    apply rethrows_catchNotify
    split
    · exact rethrows_refl _ _
    · exact rethrows_andThen (rethrows_updateDocument _ _ _ _)
        (fun v w1 => rethrows_notify _ _ (rethrows_refl _ _))
  · exact rethrows_catchRethrow (rethrows_getDocument _ _ _)
  · exact rethrows_catchRethrow (rethrows_getDocuments _ _ _ _)
  · unfold CRMService.deleteCustomer
    apply rethrows_catchNotify
    refine rethrows_andThen (rethrows_getDocuments _ _ _ _) (fun sales w1 => ?_)
    split
    · exact rethrows_refl _ _
    · refine rethrows_andThen (rethrows_getDocuments _ _ _ _) (fun interactions w2 => ?_)
      exact rethrows_andThen (rethrows_runBatch _ _)
        (fun v w3 => rethrows_notify _ _ (rethrows_refl _ _))
  · unfold CRMService.addInteraction
    apply rethrows_catchNotify
    split
    · exact rethrows_refl _ _
    · split
      · exact rethrows_refl _ _
      · exact rethrows_andThen (rethrows_addDocument _ _ _ _)
          (fun v w1 => rethrows_notify _ _ (rethrows_refl _ _))
  · exact rethrows_catchRethrow (rethrows_getDocuments _ _ _ _)
  · unfold CRMService.updateCustomerPurchaseData
    apply rethrows_catchRethrow
    refine rethrows_andThen (rethrows_catchRethrow (rethrows_getDocument _ _ _))
      (fun customer w1 => ?_)
    split
    · exact rethrows_refl _ _
    · exact rethrows_updateDocument _ _ _ _
  · unfold CRMService.searchCustomers
    apply rethrows_catchRethrow
    exact rethrows_andThen (rethrows_getDocuments _ _ _ _) (fun v w1 => rethrows_refl _ _)
  · unfold CRMService.getCustomerStats
    apply rethrows_catchRethrow
    exact rethrows_andThen (rethrows_getDocuments _ _ _ _) (fun v w1 => rethrows_refl _ _)
  · intro query error w1 hq hg
    have hne : query.isEmpty = false := by
      cases query with
      | nil => exact absurd rfl hq
      | cons c rest => rfl
    simp only [SearchService.search, hne, Bool.false_eq_true, if_false, hg]

/-- Witness for C7 (amended): with the store offline, `getCustomer` throws the store's
error. -/
theorem crm_operations_rethrow_witness :
    (CRMService.getCustomer "doc0" failingWorld).1 = .error offlineError :=
  (crm_operations_rethrow asciiHost failingWorld offlineError).2.2.1 "doc0" (by
    have e : newEvents failingWorld (CRMService.getCustomer "doc0" failingWorld) =
        [.called "getDocument" "customers", .sent (.get "customers" "doc0"),
         .rejected offlineError] := rfl
    rw [e]
    simp)

/-! ## Theorems on the login error messages -/

/-- C8 (as stated, refuted): for a vendor code that `handleLogin` does not list, the text
shown is the message of the error object, so two errors with the same code are shown
differently. -/
theorem handleLogin_shows_error_text :
    handleLoginCatch { message := "Firebase: Error (auth/internal-error).",
                       code := some "auth/internal-error" } =
      "Firebase: Error (auth/internal-error)." ∧
    ¬ (∀ e1 e2 : JSError, e1.code = e2.code → handleLoginCatch e1 = handleLoginCatch e2) := by
  refine ⟨by decide, ?_⟩
  intro H
  have h := H { message := "A", code := some "auth/internal-error" }
    { message := "B", code := some "auth/internal-error" } rfl
  revert h
  decide

/-- C8 (amended): when sign-in fails, `loginWithEmailAndPassword` shows one of six fixed
strings chosen by the vendor code alone, the generic one for a code it does not list;
`handleLogin` shows one of five fixed strings chosen by the code alone when it lists the
code, and otherwise the message of the error object, or `Erro no sistema de autenticação`
when that message is empty. -/
theorem login_error_messages (error : JSError) (w : World) :
    AuthService.loginWithEmailAndPassword true (.error error) w =
      (.error error, showNotification (AuthService.loginErrorMessage error) "error" w) ∧
    AuthService.loginErrorMessage error ∈
      ["Email inválido.", "Usuário desativado.", "Usuário não encontrado.", "Senha incorreta.",
       "Muitas tentativas de login. Tente novamente mais tarde.",
       "Erro ao fazer login. Tente novamente."] ∧
    (∀ other : JSError, other.code = error.code →
      AuthService.loginErrorMessage other = AuthService.loginErrorMessage error) ∧
    (error.code ∉ [some "auth/invalid-email", some "auth/user-disabled",
        some "auth/user-not-found", some "auth/wrong-password",
        some "auth/too-many-requests"] →
      AuthService.loginErrorMessage error = "Erro ao fazer login. Tente novamente.") ∧
    (error.code ∈ [some "auth/user-not-found", some "auth/invalid-credential",
        some "auth/wrong-password", some "auth/invalid-email",
        some "auth/network-request-failed", some "auth/too-many-requests"] →
      handleLoginCatch error ∈
        ["Usuário não encontrado ou credenciais incorretas", "Senha incorreta",
         "Formato de email inválido", "Erro de rede. Verifique sua conexão",
         "Muitas tentativas. Tente novamente mais tarde"] ∧
      ∀ other : JSError, other.code = error.code →
        handleLoginCatch other = handleLoginCatch error) ∧
    (error.code ∉ [some "auth/user-not-found", some "auth/invalid-credential",
        some "auth/wrong-password", some "auth/invalid-email",
        some "auth/network-request-failed", some "auth/too-many-requests"] →
      handleLoginCatch error =
        if error.message = "" then "Erro no sistema de autenticação" else error.message) := by
  obtain ⟨message, code⟩ := error
  refine ⟨rfl, ?_, ?_, ?_, ?_, ?_⟩
  · simp only [AuthService.loginErrorMessage]
    split <;> simp
  · intro other ho
    obtain ⟨m2, c2⟩ := other
    simp only at ho
    subst ho
    rfl
  · intro hc
    simp only [List.mem_cons, List.mem_singleton, List.not_mem_nil, or_false, not_or] at hc
    simp only [AuthService.loginErrorMessage]
    split <;> simp_all
  · intro hc
    simp only [List.mem_cons, List.mem_singleton, List.not_mem_nil, or_false] at hc
    constructor
    · rcases hc with rfl | rfl | rfl | rfl | rfl | rfl <;> simp [handleLoginCatch]
    · intro other ho
      obtain ⟨m2, c2⟩ := other
      simp only at ho
      subst ho
      rcases hc with rfl | rfl | rfl | rfl | rfl | rfl <;> rfl
  · intro hc
    simp only [List.mem_cons, List.mem_singleton, List.not_mem_nil, or_false, not_or] at hc
    simp only [handleLoginCatch]
    split <;> simp_all

/-! ## Theorems on `SearchService.search` -/

theorem getDocuments_length_le (h : Host) (c : String) (o : QueryOptions) (n : Nat)
    (hn : n ≠ 0) (ho : o.limit = some n) (w w1 : World) (docs : List Doc)
    (hd : DatabaseService.getDocuments h c o w = (.ok docs, w1)) : docs.length ≤ n := by
  unfold DatabaseService.getDocuments at hd
  split at hd
  · simp at hd
  · unfold catchRethrow andThen Firestore.query at hd
    split at hd
    · simp at hd
    · rename_i v w2 heq
      split at heq
      · simp at heq
      · rename_i v2 w3 heq2
        split at heq2
        · simp at heq2
        · simp only [Prod.mk.injEq, Except.ok.injEq] at heq heq2 hd
          obtain ⟨rfl, -⟩ := heq2
          obtain ⟨rfl, -⟩ := heq
          obtain ⟨rfl, -⟩ := hd
          simp [runQuery, buildQuery, ho, hn, List.length_take]

/-- C9: an empty query is answered `Consulta vazia.`; for a non-empty query, `search` requests
50 products (within the 100 the specification allows), and for the list the database returns
it answers with the price sentence of the first product, in list order, whose lower-cased
name (empty when missing) contains the lower-cased, trimmed query, and with
`Nenhum resultado encontrado.` when no product name contains it. -/
theorem search_answer (h : Host) (query : Str) (w w1 : World) (products : List Doc)
    (hq : query ≠ [])
    (hdb : DatabaseService.getDocuments h "products" (SearchService.searchOptions w) w =
      (.ok products, w1)) :
    (SearchService.search h [] w).1 = .ok "Consulta vazia.".toList ∧
    (SearchService.searchOptions w).limit = some 50 ∧ products.length ≤ 100 ∧
    (∀ pre p post, products = pre ++ p :: post →
      (∀ q ∈ pre, includes (h.toLowerCase (q.name.getD [])) (trim (h.toLowerCase query)) = false) →
      includes (h.toLowerCase (p.name.getD [])) (trim (h.toLowerCase query)) = true →
      (SearchService.search h query w).1 =
        .ok ("O preço de ".toList ++ SearchService.interpolate p.name ++ " é ".toList ++
          h.formatCurrency (p.price.getD 0) ++ ".".toList)) ∧
    ((∀ q ∈ products,
        includes (h.toLowerCase (q.name.getD [])) (trim (h.toLowerCase query)) = false) →
      (SearchService.search h query w).1 = .ok "Nenhum resultado encontrado.".toList) := by
  have hlen := getDocuments_length_le h "products" (SearchService.searchOptions w) 50
    (by decide) rfl w w1 products hdb
  have hne : query.isEmpty = false := by
    cases query with
    | nil => exact absurd rfl hq
    | cons _ _ => rfl
  refine ⟨rfl, rfl, by omega, ?_, ?_⟩
  · intro pre p post hp hpre hmatch
    have hfind : products.find?
        (fun p => includes (h.toLowerCase (p.name.getD [])) (trim (h.toLowerCase query))) =
        some p := by
      rw [hp, List.find?_append, List.find?_eq_none.2 (by simpa using hpre)]
      simp [hmatch]
    simp only [SearchService.search, hne, Bool.false_eq_true, if_false, hdb, hfind]
    rfl
  · intro hall
    have hfind : products.find?
        (fun p => includes (h.toLowerCase (p.name.getD [])) (trim (h.toLowerCase query))) =
        none := List.find?_eq_none.2 (by simpa using hall)
    simp only [SearchService.search, hne, Bool.false_eq_true, if_false, hdb, hfind]

/-- Witness for C9: over three products, the query ` CANETA ` is answered with the price of
the first product whose name contains `caneta`, the second of the list. -/
theorem search_answer_witness :
    (SearchService.search asciiHost " CANETA ".toList shopWorld).1 =
      .ok "O preço de Caneta Azul é R$ 250.".toList :=
  (search_answer asciiHost " CANETA ".toList shopWorld
    (DatabaseService.getDocuments asciiHost "products"
      (SearchService.searchOptions shopWorld) shopWorld).2
    [{ id := some "p1", name := some "Caderno".toList, price := some 1200 },
     { id := some "p2", name := some "Caneta Azul".toList, price := some 250 },
     { id := some "p3", name := some "caneta vermelha".toList, price := some 300 }]
    (by decide) rfl).2.2.2.1
    [{ id := some "p1", name := some "Caderno".toList, price := some 1200 }]
    { id := some "p2", name := some "Caneta Azul".toList, price := some 250 }
    [{ id := some "p3", name := some "caneta vermelha".toList, price := some 300 }]
    rfl (by decide) (by decide)

/-! ## Theorems on `CRMService.searchCustomers` -/

/-- C10 (as stated, refuted): with the limit `-1`, `slice(0, -1)` drops only the last match:
of the two customers matching `an`, one is returned, which is more than the limit. -/
theorem searchCustomers_negative_limit :
    (CRMService.searchCustomers asciiHost "an".toList (some (-1)) shopWorld).1 =
      .ok [{ id := some "c1", name := some "Ana Lima".toList,
             phone := some "(11) 98765-4321".toList }] ∧
    ¬ (∀ (h : Host) (term : Str) (limit : Int) (w : World) (docs : List Doc),
        (CRMService.searchCustomers h term (some limit) w).1 = .ok docs →
        (docs.length : Int) ≤ limit) := by
  have e : (CRMService.searchCustomers asciiHost "an".toList (some (-1)) shopWorld).1 =
      .ok [{ id := some "c1", name := some "Ana Lima".toList,
             phone := some "(11) 98765-4321".toList }] := rfl
  refine ⟨e, ?_⟩
  intro H
  have h := H asciiHost "an".toList (-1) shopWorld _ e
  revert h
  decide

/-- C10 (amended): for every search term and every non-negative integer limit (10 when none
is given), `searchCustomers` fetches at most 100 customers and returns exactly the first
`limit` of those fetched customers, in fetched order, whose lower-cased name, digits-only
document, lower-cased email or digits-only phone contains the lower-cased trimmed term; so it
returns at most `limit` customers, and none that matches none of the four fields. -/
theorem searchCustomers_result (h : Host) (term : Str) (limit : Option Int) (w w1 : World)
    (fetched : List Doc) (hlim : 0 ≤ limit.getD 10)
    (hdb : DatabaseService.getDocuments h "customers" { limit := some 100 } w =
      (.ok fetched, w1)) :
    fetched.length ≤ 100 ∧
    (∀ c, CRMService.matchesTerm h (trim (h.toLowerCase term)) c = true ↔
      (includes (h.toLowerCase (c.name.getD [])) (trim (h.toLowerCase term)) = true ∨
       includes (stripNonDigits (c.document.getD [])) (trim (h.toLowerCase term)) = true ∨
       includes (h.toLowerCase (c.email.getD [])) (trim (h.toLowerCase term)) = true ∨
       includes (stripNonDigits (c.phone.getD [])) (trim (h.toLowerCase term)) = true)) ∧
    (CRMService.searchCustomers h term limit w).1 =
      .ok ((fetched.filter (CRMService.matchesTerm h (trim (h.toLowerCase term)))).take
        (limit.getD 10).toNat) ∧
    ∀ docs, (CRMService.searchCustomers h term limit w).1 = .ok docs →
      (docs.length : Int) ≤ limit.getD 10 ∧ docs.Sublist fetched ∧
      ∀ c ∈ docs, CRMService.matchesTerm h (trim (h.toLowerCase term)) c = true := by
  have hlen := getDocuments_length_le h "customers" { limit := some 100 } 100
    (by decide) rfl w w1 fetched hdb
  have hres : (CRMService.searchCustomers h term limit w).1 =
      .ok ((fetched.filter (CRMService.matchesTerm h (trim (h.toLowerCase term)))).take
        (limit.getD 10).toNat) := by
    have hneg : ¬ (limit.getD 10 < 0) := by omega
    simp only [CRMService.searchCustomers, CRMService.customersCollection, hdb, andThen,
      catchRethrow, slice, hneg, if_false]
  refine ⟨hlen, ?_, hres, ?_⟩
  · intro c
    simp only [CRMService.matchesTerm, Bool.or_eq_true, or_assoc]
  · intro docs hdocs
    rw [hres] at hdocs
    simp only [Except.ok.injEq] at hdocs
    subst hdocs
    refine ⟨?_, ?_, ?_⟩
    · have h1 := List.length_take_le (limit.getD 10).toNat
        (fetched.filter (CRMService.matchesTerm h (trim (h.toLowerCase term))))
      omega
    · exact (List.take_sublist _ _).trans (List.filter_sublist _)
    · intro c hc
      exact (List.mem_filter.1 (List.mem_of_mem_take hc)).2

/-- Witness for C10 (amended): over three customers, the term `AN ` with limit 1 returns the
first of the two customers that match it. -/
theorem searchCustomers_result_witness :
    (CRMService.searchCustomers asciiHost "AN ".toList (some 1) shopWorld).1 =
      .ok [{ id := some "c1", name := some "Ana Lima".toList,
             phone := some "(11) 98765-4321".toList }] :=
  (searchCustomers_result asciiHost "AN ".toList (some 1) shopWorld
    (DatabaseService.getDocuments asciiHost "customers" { limit := some 100 } shopWorld).2
    [{ id := some "c1", name := some "Ana Lima".toList, phone := some "(11) 98765-4321".toList },
     { id := some "c2", name := some "Bruno".toList, email := some "bruno@ANALISE.com".toList },
     { id := some "c3", name := some "Carla".toList, document := some "529.982.247-25".toList }]
    (by decide) rfl).2.2.1

/-! ## Runs over a store that serves every request -/

theorem send_of_serves (w : World) (r : Request) (hs : Serves w) :
    ∃ w2, w.send r = (none, w2) ∧ w2.log = w.log ++ [.sent r] ∧ w2.store = w.store ∧
      w2.db = w.db ∧ w2.added = w.added ∧ w2.uid = w.uid ∧ Serves w2 := by
  unfold World.send World.record
  rcases ho : w.outcomes with _ | ⟨_ | e0, rest⟩
  · refine ⟨_, rfl, rfl, rfl, rfl, rfl, rfl, ?_⟩
    intro o ho2
    simp [ho] at ho2
  · refine ⟨_, rfl, rfl, rfl, rfl, rfl, rfl, ?_⟩
    intro o ho2
    exact hs o (by rw [ho]; exact List.mem_cons_of_mem _ ho2)
  · have := hs (some e0) (by rw [ho]; simp)
    simp at this

theorem getDocuments_of_serves (h : Host) (c : String) (o : QueryOptions) (w : World)
    (hdb : w.db = true) (hs : Serves w) :
    ∃ w2, DatabaseService.getDocuments h c o w =
        (.ok ((runQuery h (w.store c) (buildQuery o)).map withId), w2) ∧
      w2.log = w.log ++ [.called "getDocuments" c, .sent (.query c (buildQuery o))] ∧
      w2.store = w.store ∧ w2.db = true ∧ w2.added = w.added ∧ w2.uid = w.uid ∧ Serves w2 := by
  have hs1 : Serves (w.record (.called "getDocuments" c)) := hs
  obtain ⟨w2, e, hl, hst, hd, ha, hu, hs2⟩ :=
    send_of_serves (w.record (.called "getDocuments" c)) (.query c (buildQuery o)) hs1
  refine ⟨w2, ?_, ?_, hst, by rw [hd]; exact hdb, ha, hu, hs2⟩
  · simp only [DatabaseService.getDocuments, hdb, Bool.not_true, Bool.false_eq_true, if_false,
      Firestore.query, e, andThen, catchRethrow, hst]
    rfl
  · rw [hl]
    simp [World.record]

theorem getDocument_of_serves (c i : String) (w : World) (hdb : w.db = true) (hs : Serves w) :
    ∃ w2, DatabaseService.getDocument c i w =
        (.ok (((w.store c).find? (fun d => d.1 == i)).map withId), w2) ∧
      w2.log = w.log ++ [.called "getDocument" c, .sent (.get c i)] ∧
      w2.store = w.store ∧ w2.db = true ∧ w2.added = w.added ∧ w2.uid = w.uid ∧ Serves w2 := by
  have hs1 : Serves (w.record (.called "getDocument" c)) := hs
  obtain ⟨w2, e, hl, hst, hd, ha, hu, hs2⟩ :=
    send_of_serves (w.record (.called "getDocument" c)) (.get c i) hs1
  refine ⟨w2, ?_, ?_, hst, by rw [hd]; exact hdb, ha, hu, hs2⟩
  · simp only [DatabaseService.getDocument, hdb, Bool.not_true, Bool.false_eq_true, if_false,
      Firestore.get, e, andThen, catchRethrow, hst]
    rfl
  · rw [hl]
    simp [World.record]

theorem runBatch_of_serves (deletes : List (String × String)) (w : World)
    (hdb : w.db = true) (hs : Serves w) :
    ∃ w2, DatabaseService.runBatch deletes w = (.ok (), w2) ∧
      w2.log = w.log ++ [.called "runBatch" "", .sent (.commit deletes)] ∧
      w2.store = (fun coll =>
        (w.store coll).filter (fun (d : String × Doc) => !deletes.contains (coll, d.1))) ∧
      w2.db = true ∧ Serves w2 := by
  have hs1 : Serves (w.record (.called "runBatch" "")) := hs
  obtain ⟨w2, e, hl, hst, hd, ha, hu, hs2⟩ :=
    send_of_serves (w.record (.called "runBatch" "")) (.commit deletes) hs1
  refine ⟨{ w2 with store := fun coll =>
      (w2.store coll).filter (fun (d : String × Doc) => !deletes.contains (coll, d.1)) },
    ?_, ?_, ?_, ?_, ?_⟩
  · simp only [DatabaseService.runBatch, hdb, Bool.not_true, Bool.false_eq_true, if_false,
      Firestore.commit, e, catchToast]
  · simp [hl, World.record]
  · simp only [hst]
    rfl
  · simp only [hd]
    exact hdb
  · exact hs2

theorem newEvents_of_log {α : Type} (w : World) (r : Result α) (evs : List Event)
    (hl : r.2.log = w.log ++ evs) : newEvents w r = evs := by
  unfold newEvents
  rw [hl, List.drop_left]

/-! ## Theorems on `CRMService.deleteCustomer` -/

/-- C11: `deleteCustomer` sets out to delete the interactions it fetched for the customer
(`// Excluir interações`), by `interaction.id`. The adapter builds what it reads as
`{ id: doc.id, ...doc.data() }`, so an `id` field stored in the data replaces the document
identifier. After `addInteraction("c1", { id: "i2", ... })` on a store where `i2` is an
interaction of customer `c2`, no sale references `c1`, and `deleteCustomer("c1")` succeeds,
deletes `i2` of the other customer and leaves the new interaction of `c1` stored. -/
theorem deleteCustomer_follows_stored_id :
    (∀ s ∈ (CRMService.addInteraction asciiHost "c1"
        { id := some "i2", type := some "call".toList, description := some "retorno".toList }
        crmWorld).2.store "sales", s.2.customerId ≠ some "c1") ∧
    (CRMService.addInteraction asciiHost "c1"
        { id := some "i2", type := some "call".toList, description := some "retorno".toList }
        crmWorld).2.store "customer_interactions" =
      [("i1", { customerId := some "c1", type := some "call".toList }),
       ("i2", { customerId := some "c2", type := some "visit".toList }),
       ("i3", { customerId := some "c1", type := some "email".toList }),
       ("doc0", { id := some "i2", customerId := some "c1", type := some "call".toList,
                  description := some "retorno".toList, createdBy := some none })] ∧
    (CRMService.deleteCustomer asciiHost "c1"
      (CRMService.addInteraction asciiHost "c1"
        { id := some "i2", type := some "call".toList, description := some "retorno".toList }
        crmWorld).2).1 = .ok () ∧
    (CRMService.deleteCustomer asciiHost "c1"
      (CRMService.addInteraction asciiHost "c1"
        { id := some "i2", type := some "call".toList, description := some "retorno".toList }
        crmWorld).2).2.store "customer_interactions" =
      [("doc0", { id := some "i2", customerId := some "c1", type := some "call".toList,
                  description := some "retorno".toList, createdBy := some none })] :=
  ⟨by decide, rfl, rfl, rfl⟩

/-- What `deleteCustomer` does over an initialised adapter and a store that serves its
requests: if a sale references the customer it fails with
`Não é possível excluir um cliente com vendas associadas`, leaves the store as it was and
sends no write; if no sale references it, and no interaction document of that customer
stores an `id` field of its own other than its document identifier (identifiers being
distinct within the collection), the run succeeds, the customer document and every interaction
document of that customer are removed, every other document of every collection stays, and
the only write sent is one batch commit. -/
theorem deleteCustomer_effect (h : Host) (customerId : String) (w : World)
    (hdb : w.db = true) (hs : Serves w) :
    ((∃ s ∈ w.store "sales", s.2.customerId = some customerId) →
      (CRMService.deleteCustomer h customerId w).1 =
        .error { message := "Não é possível excluir um cliente com vendas associadas" } ∧
      (CRMService.deleteCustomer h customerId w).2.store = w.store ∧
      ∀ e ∈ newEvents w (CRMService.deleteCustomer h customerId w), e.isWrite = false) ∧
    ((∀ s ∈ w.store "sales", s.2.customerId ≠ some customerId) →
      (∀ e ∈ w.store "customer_interactions", e.2.customerId = some customerId →
        (e.2.id = none ∨ e.2.id = some e.1)) →
      ((w.store "customer_interactions").map Prod.fst).Nodup →
      (CRMService.deleteCustomer h customerId w).1 = .ok () ∧
      (CRMService.deleteCustomer h customerId w).2.store "customers" =
        (w.store "customers").filter (fun d => d.1 ≠ customerId) ∧
      (CRMService.deleteCustomer h customerId w).2.store "customer_interactions" =
        (w.store "customer_interactions").filter (fun d => d.2.customerId ≠ some customerId) ∧
      (∀ coll, coll ≠ "customers" → coll ≠ "customer_interactions" →
        (CRMService.deleteCustomer h customerId w).2.store coll = w.store coll) ∧
      ∃ deletes, (newEvents w (CRMService.deleteCustomer h customerId w)).filter Event.isWrite =
        [.sent (.commit deletes)]) := by
  obtain ⟨w2, e1, l1, st1, db1, -, -, hs1⟩ := getDocuments_of_serves h "sales"
    { whereConds := some [.customerId customerId], limit := some 1 } w hdb hs
  have hq1 : runQuery h (w.store "sales")
      (buildQuery { whereConds := some [.customerId customerId], limit := some 1 }) =
      ((w.store "sales").filter (fun d => d.2.customerId == some customerId)).take 1 := by
    simp [runQuery, buildQuery, Cond.holds]
  rw [hq1] at e1
  constructor
  · rintro ⟨s, hsm, hsc⟩
    have hpos : 0 < (((w.store "sales").filter
        (fun d => d.2.customerId == some customerId)).take 1).length := by
      have hmem : s ∈ (w.store "sales").filter (fun d => d.2.customerId == some customerId) :=
        List.mem_filter.2 ⟨hsm, by simp [hsc]⟩
      have := List.length_pos_of_mem hmem
      rw [List.length_take]
      omega
    have e : CRMService.deleteCustomer h customerId w =
        (.error { message := "Não é possível excluir um cliente com vendas associadas" },
          showNotification "Não é possível excluir um cliente com vendas associadas" "error"
            w2) := by
      simp only [CRMService.deleteCustomer, CRMService.salesCollection, e1, andThen,
        List.length_map, gt_iff_lt, hpos, if_true, catchNotify, notifyAndRethrow]
      rfl
    have hl : (CRMService.deleteCustomer h customerId w).2.log = w.log ++
        [.called "getDocuments" "sales",
         .sent (.query "sales"
           (buildQuery { whereConds := some [.customerId customerId], limit := some 1 })),
         .notified "Não é possível excluir um cliente com vendas associadas" "error"] := by
      rw [e]
      simp [showNotification, World.record, l1]
    refine ⟨by rw [e], by rw [e]; exact st1, ?_⟩
    rw [newEvents_of_log _ _ _ hl]
    intro ev hev
    simp only [List.mem_cons, List.mem_singleton, List.not_mem_nil, or_false] at hev
    rcases hev with rfl | rfl | rfl <;> rfl
  · intro hno hid hnodup
    have hempty : ((w.store "sales").filter
        (fun d => d.2.customerId == some customerId)).take 1 = [] := by
      rw [List.filter_eq_nil_iff.2 (by
        intro s hsm
        simpa using hno s hsm)]
      rfl
    rw [hempty] at e1
    obtain ⟨w3, e2, l2, st2, db2, -, -, hs2⟩ := getDocuments_of_serves h "customer_interactions"
      { whereConds := some [.customerId customerId] } w2 db1 hs1
    have hq2 : runQuery h (w2.store "customer_interactions")
        (buildQuery { whereConds := some [.customerId customerId] }) =
        (w.store "customer_interactions").filter
          (fun d => d.2.customerId == some customerId) := by
      simp [runQuery, buildQuery, Cond.holds, st1]
    rw [hq2] at e2
    obtain ⟨w4, e3, l3, st3, -, -⟩ := runBatch_of_serves
      ((((w.store "customer_interactions").filter
          (fun d => d.2.customerId == some customerId)).map withId).map
        (fun i => ("customer_interactions", i.id.getD "")) ++
        [("customers", customerId)]) w3 db2 hs2
    have e : CRMService.deleteCustomer h customerId w =
        (.ok (), showNotification "Cliente excluído com sucesso!" "success" w4) := by
      simp only [CRMService.deleteCustomer, CRMService.salesCollection, e1, andThen,
        List.map_nil, List.length_nil, gt_iff_lt, Nat.lt_irrefl, if_false,
        CRMService.interactionsCollection, CRMService.customersCollection, e2, e3, catchNotify]
    have hst : (CRMService.deleteCustomer h customerId w).2.store = fun coll =>
        (w.store coll).filter (fun (d : String × Doc) =>
          !((((w.store "customer_interactions").filter
              (fun d => d.2.customerId == some customerId)).map withId).map
            (fun i => ("customer_interactions", i.id.getD "")) ++
            [("customers", customerId)]).contains (coll, d.1)) := by
      rw [e]
      simp only [showNotification, World.record, st3, st2, st1]
    have hmem : ∀ coll i,
        ((((w.store "customer_interactions").filter
              (fun d => d.2.customerId == some customerId)).map withId).map
            (fun i => ("customer_interactions", i.id.getD "")) ++
            [("customers", customerId)]).contains (coll, i) = true ↔
        (coll = "customer_interactions" ∧ ∃ e ∈ w.store "customer_interactions",
          e.2.customerId = some customerId ∧ (withId e).id.getD "" = i) ∨
        (coll = "customers" ∧ i = customerId) := by
      intro coll i
      rw [List.contains_iff_exists_mem_beq]
      simp only [List.mem_append, List.mem_map, List.mem_filter,
        beq_iff_eq, List.mem_singleton]
      constructor
      · rintro ⟨p, (⟨d, ⟨e0, ⟨he0, hc0⟩, rfl⟩, rfl⟩ | rfl), hp⟩
        · simp only [Prod.mk.injEq] at hp
          exact Or.inl ⟨hp.1, e0, he0, hc0, hp.2.symm⟩
        · simp only [Prod.mk.injEq] at hp
          exact Or.inr ⟨hp.1, hp.2⟩
      · rintro (⟨rfl, e0, he0, hc0, rfl⟩ | ⟨rfl, rfl⟩)
        · exact ⟨_, Or.inl ⟨_, ⟨e0, ⟨he0, hc0⟩, rfl⟩, rfl⟩, rfl⟩
        · exact ⟨_, Or.inr rfl, rfl⟩
    have hwid : ∀ e0 ∈ w.store "customer_interactions", e0.2.customerId = some customerId →
        (withId e0).id.getD "" = e0.1 := by
      intro e0 he0 hc0
      rcases hid e0 he0 hc0 with h0 | h0 <;> simp [withId, h0]
    generalize ((((w.store "customer_interactions").filter
              (fun d => d.2.customerId == some customerId)).map withId).map
            (fun i => ("customer_interactions", i.id.getD "")) ++
            [("customers", customerId)]) = D at hst hmem
    refine ⟨by rw [e], ?_, ?_, ?_, ?_⟩
    · rw [hst]
      apply List.filter_congr
      intro d _
      rw [Bool.eq_iff_iff]
      have hm := hmem "customers" d.1
      constructor
      · intro hn
        simp only [decide_eq_true_eq]
        intro hd
        have hc : D.contains ("customers", d.1) = true := hm.2 (Or.inr ⟨rfl, hd⟩)
        rw [hc] at hn
        exact Bool.noConfusion hn
      · intro hn
        simp only [decide_eq_true_eq] at hn
        cases hc : D.contains ("customers", d.1)
        · rfl
        · rcases hm.1 hc with ⟨h1, -⟩ | ⟨-, h2⟩
          · exact absurd h1 (by decide)
          · exact absurd h2 hn
    · rw [hst]
      apply List.filter_congr
      intro d hd
      rw [Bool.eq_iff_iff]
      have hm := hmem "customer_interactions" d.1
      constructor
      · intro hn
        simp only [decide_eq_true_eq]
        intro hcu
        have hc : D.contains ("customer_interactions", d.1) = true :=
          hm.2 (Or.inl ⟨rfl, d, hd, hcu, hwid d hd hcu⟩)
        rw [hc] at hn
        exact Bool.noConfusion hn
      · intro hn
        simp only [decide_eq_true_eq] at hn
        cases hc : D.contains ("customer_interactions", d.1)
        · rfl
        · rcases hm.1 hc with ⟨-, e0, he0, hc0, hi0⟩ | ⟨h1, -⟩
          · rw [hwid e0 he0 hc0] at hi0
            have heq : e0 = d := List.inj_on_of_nodup_map hnodup he0 hd hi0
            exact absurd (heq ▸ hc0) hn
          · exact absurd h1 (by decide)
    · intro coll hc1 hc2
      rw [hst]
      simp only
      rw [List.filter_eq_self]
      intro d _
      cases hc : D.contains (coll, d.1)
      · rfl
      · rcases (hmem coll d.1).1 hc with ⟨h1, -⟩ | ⟨h1, -⟩
        · exact absurd h1 hc2
        · exact absurd h1 hc1
    · have hl : (CRMService.deleteCustomer h customerId w).2.log = w.log ++
          [.called "getDocuments" "sales",
           .sent (.query "sales"
             (buildQuery { whereConds := some [.customerId customerId], limit := some 1 })),
           .called "getDocuments" "customer_interactions",
           .sent (.query "customer_interactions"
             (buildQuery { whereConds := some [.customerId customerId] })),
           .called "runBatch" "",
           .sent (.commit ((((w.store "customer_interactions").filter
              (fun d => d.2.customerId == some customerId)).map withId).map
            (fun i => ("customer_interactions", i.id.getD "")) ++
            [("customers", customerId)])),
           .notified "Cliente excluído com sucesso!" "success"] := by
        rw [e]
        simp [showNotification, World.record, l1, l2, l3]
      rw [newEvents_of_log _ _ _ hl]
      exact ⟨_, rfl⟩

/-- An instance of `deleteCustomer_effect`: in a store where only the second customer has a
sale, deleting the second customer fails, and deleting the first leaves only the interaction
of the second. -/
theorem deleteCustomer_effect_witness :
    (CRMService.deleteCustomer asciiHost "c2" crmWorld).1 =
      .error { message := "Não é possível excluir um cliente com vendas associadas" } ∧
    (CRMService.deleteCustomer asciiHost "c1" crmWorld).2.store "customer_interactions" =
      [("i2", { customerId := some "c2", type := some "visit".toList })] :=
  ⟨((deleteCustomer_effect asciiHost "c2" crmWorld rfl (fun o ho => nomatch ho)).1
      ⟨("s1", { customerId := some "c2" }), by decide, rfl⟩).1,
   (((deleteCustomer_effect asciiHost "c1" crmWorld rfl (fun o ho => nomatch ho)).2
      (by decide) (by decide) (by decide)).2.2.1).trans rfl⟩

/-! ## Lemmas on numbers -/

theorem Number.lift_ge (n : Nat) : ∀ k s, 1 <<< 52 ≤ n >>> s →
    1 <<< 52 ≤ n >>> Number.lift n k s := by
  intro k
  induction k with
  | zero => intro s hs; exact hs
  | succ k ih =>
    intro s hs
    unfold Number.lift
    split
    · next hc => exact ih _ hc
    · exact ih _ hs

theorem Number.lift_lt (n : Nat) : ∀ k s, ¬ (1 <<< 52 ≤ n >>> (s + 1 <<< k)) →
    ¬ (1 <<< 52 ≤ n >>> (Number.lift n k s + 1)) := by
  intro k
  induction k with
  | zero => intro s hs; exact hs
  | succ k ih =>
    intro s hs
    unfold Number.lift
    split
    · apply ih
      have e : s + 1 <<< k + 1 <<< k = s + 1 <<< (k + 1) := by
        rw [Nat.one_shiftLeft, Nat.one_shiftLeft, pow_succ]
        omega
      rw [e]
      exact hs
    · next hc => exact ih _ hc

theorem Number.shifted_ge_iff (n s : Nat) : 1 <<< 52 ≤ n >>> s ↔ 2 ^ (52 + s) ≤ n := by
  rw [Nat.one_shiftLeft, Nat.shiftRight_eq_div_pow,
    Nat.le_div_iff_mul_le (Nat.pos_pow_of_pos _ (by decide)), ← pow_add]

theorem Number.excessBits_le (n : Nat) (h : 2 ^ 53 ≤ n) :
    2 ^ (52 + Number.excessBits n) ≤ n := by
  rw [← Number.shifted_ge_iff]
  apply Number.lift_ge
  rw [Number.shifted_ge_iff]
  exact le_trans (Nat.pow_le_pow_right (by decide) (by decide)) h

/-- The shift `excessBits n` leaves exactly 53 bits: `2^(52+s) ≤ n < 2^(53+s)`, for every
magnitude `n` below `2^2100` (that is, with `n >>> 2048` below `2^52`), which the sum of two
finite numbers is. -/
theorem Number.excessBits_spec (n : Nat) (h1 : 2 ^ 53 ≤ n) (h2 : n >>> 2048 < 1 <<< 52) :
    2 ^ (52 + Number.excessBits n) ≤ n ∧ n < 2 ^ (53 + Number.excessBits n) := by
  refine ⟨Number.excessBits_le n h1, ?_⟩
  have hlt := Number.lift_lt n 11 0 (by
    rw [(by decide : 0 + 1 <<< 11 = 2048)]
    exact Nat.not_le.2 h2)
  rw [Number.shifted_ge_iff, Nat.not_le] at hlt
  have e : 53 + Number.excessBits n = 52 + (Number.lift n 11 0 + 1) := by
    unfold Number.excessBits; omega
  rw [e]
  exact hlt

theorem Number.roundMagnitude_of_dvd (n : Nat) (hd : 2 ^ Number.excessBits n ∣ n) :
    Number.roundMagnitude n = n := by
  unfold Number.roundMagnitude
  split
  · rfl
  · have hq : n >>> Number.excessBits n <<< Number.excessBits n = n := by
      rw [Nat.shiftLeft_eq, Nat.shiftRight_eq_div_pow, Nat.div_mul_cancel hd]
    have hhalf : 0 < 1 <<< (Number.excessBits n - 1) := by
      rw [Nat.one_shiftLeft]
      exact Nat.pos_pow_of_pos _ (by decide)
    simp only [hq, Nat.sub_self]
    rw [if_pos (Or.inl hhalf)]

theorem Number.roundMagnitude_pos (n : Nat) (h : 0 < n) : 0 < Number.roundMagnitude n := by
  unfold Number.roundMagnitude
  split
  · exact h
  · next h53 =>
    rw [Nat.one_shiftLeft, Nat.not_lt] at h53
    have hle := Number.excessBits_le n h53
    have hq : 0 < n >>> Number.excessBits n := by
      rw [Nat.shiftRight_eq_div_pow]
      apply Nat.div_pos _ (Nat.pos_pow_of_pos _ (by decide))
      exact le_trans (Nat.pow_le_pow_right (by decide) (by omega)) hle
    simp only
    split
    · rw [Nat.shiftLeft_eq]
      exact Nat.mul_pos hq (Nat.pos_pow_of_pos _ (by decide))
    · rw [Nat.shiftLeft_eq]
      exact Nat.mul_pos (by omega) (Nat.pos_pow_of_pos _ (by decide))

/-- A magnitude `m * 2^t` with `m ≤ 2^53` has a significand of 53 bits: rounding keeps it. -/
theorem Number.roundMagnitude_exact (m t : Nat) (hm : m ≤ 2 ^ 53) :
    Number.roundMagnitude (m * 2 ^ t) = m * 2 ^ t := by
  by_cases h53 : m * 2 ^ t < 2 ^ 53
  · unfold Number.roundMagnitude
    rw [Nat.one_shiftLeft, if_pos h53]
  · apply Number.roundMagnitude_of_dvd
    have hle := Number.excessBits_le _ (Nat.not_lt.1 h53)
    have hup : m * 2 ^ t ≤ 2 ^ (53 + t) := by
      rw [pow_add]
      exact Nat.mul_le_mul_right _ hm
    have he : 52 + Number.excessBits (m * 2 ^ t) ≤ 53 + t :=
      (Nat.pow_le_pow_iff_right (by decide)).1 (le_trans hle hup)
    by_cases het : Number.excessBits (m * 2 ^ t) ≤ t
    · exact Dvd.dvd.mul_left (Nat.pow_dvd_pow 2 het) m
    · have e : Number.excessBits (m * 2 ^ t) = t + 1 := by omega
      rw [e] at hle ⊢
      have hm2 : m = 2 ^ 53 := by
        apply le_antisymm hm
        have : 2 ^ 53 * 2 ^ t ≤ m * 2 ^ t := by
          rw [← pow_add]
          rw [(by omega : 52 + (t + 1) = 53 + t)] at hle
          exact hle
        exact Nat.le_of_mul_le_mul_right this (Nat.pos_pow_of_pos _ (by decide))
      rw [hm2, ← pow_add]
      exact Nat.pow_dvd_pow 2 (by omega)

theorem Number.unit_eq : Number.unit = 2 ^ Number.places := Nat.one_shiftLeft _

theorem Number.zero_eq : (0 : Number) = .fin 0 := rfl

theorem Number.exact_le_max (m : Nat) (hm : m ≤ 2 ^ 53) :
    m * Number.unit ≤ Number.maxMagnitude :=
  le_trans (Nat.mul_le_mul_right _ (Nat.one_shiftLeft 53 ▸ hm))
    (by decide : 1 <<< 53 * Number.unit ≤ Number.maxMagnitude)

/-- An operation whose exact result is an integer of magnitude at most `2^53` returns that
integer. -/
theorem Number.round_ofInt (z : Int) (hz : z.natAbs ≤ 2 ^ 53) :
    Number.round (z * Number.unit) = Number.ofInt z := by
  have habs : (z * (Number.unit : Int)).natAbs = z.natAbs * Number.unit := by
    rw [Int.natAbs_mul, Int.natAbs_ofNat]
  have hr : Number.roundMagnitude (z * (Number.unit : Int)).natAbs = z.natAbs * Number.unit := by
    rw [habs, Number.unit_eq]
    exact Number.roundMagnitude_exact _ _ hz
  unfold Number.round Number.ofInt
  rw [hr, if_neg (Nat.not_lt.2 (Number.exact_le_max _ hz)), ← habs]
  split
  · next hneg => rw [Int.ofNat_natAbs_of_nonpos (le_of_lt hneg), neg_neg]
  · next hpos => rw [Int.natAbs_of_nonneg (not_lt.1 hpos)]

theorem Number.add_ofInt (a b : Int) (h : (a + b).natAbs ≤ 2 ^ 53) :
    (Number.ofInt a).add (Number.ofInt b) = Number.ofInt (a + b) := by
  have e : (Number.ofInt a).add (Number.ofInt b) =
      Number.round (a * Number.unit + b * Number.unit) := rfl
  rw [e, ← add_mul]
  exact Number.round_ofInt _ h

/-- Rounding keeps the sign of the exact result. -/
theorem Number.positive_round (k : Int) : (Number.round k).positive = decide (0 < k) := by
  unfold Number.round
  split
  · next hbig =>
    have hk : k ≠ 0 := by
      rintro rfl
      exact absurd hbig (by decide)
    simp only [Number.positive]
    by_cases hneg : k < 0
    · simp [hneg, not_lt.2 (le_of_lt hneg)]
    · simp [hneg, lt_of_le_of_ne (not_lt.1 hneg) (Ne.symm hk)]
  · split
    · next hneg =>
      simp only [Number.positive]
      have : ¬ (0 < k) := not_lt.2 (le_of_lt hneg)
      have h0 : (0 : Int) ≤ (Number.roundMagnitude k.natAbs : Int) := Int.ofNat_nonneg _
      simp [this]
    · next hnn =>
      simp only [Number.positive]
      by_cases h0 : k = 0
      · subst h0
        decide
      · have hpos : 0 < k := lt_of_le_of_ne (not_lt.1 hnn) (Ne.symm h0)
        have := Number.roundMagnitude_pos k.natAbs (Int.natAbs_pos.2 h0)
        simp [hpos, this]

/-- Sums and differences the model gives, as a JavaScript engine does: `0.1 + 0.2` is
`0.30000000000000004` and not `0.3`; `1 - 0.9` is `0.09999999999999998`; `2^53 + 1` is `2^53`
and `2^53 + 3` is `2^53 + 4` (ties go to the even significand); `Number.MAX_VALUE + 2^970`
is `Infinity` and `Number.MAX_VALUE + 2^969` is `Number.MAX_VALUE`; `Infinity - Infinity` is
`NaN`; `-0 + -0` is `-0` and `1 - 1` is `+0`; twice the smallest positive number is exact. -/
theorem Number.arithmetic_examples :
    Number.add (.fin (3602879701896397 <<< 1019 : Nat)) (.fin (3602879701896397 <<< 1020 : Nat)) =
      .fin (1351079888211149 <<< 1022 : Nat) ∧
    Number.add (.fin (3602879701896397 <<< 1019 : Nat)) (.fin (3602879701896397 <<< 1020 : Nat)) ≠
      .fin (5404319552844595 <<< 1020 : Nat) ∧
    Number.sub 1 (.fin (8106479329266893 <<< 1021 : Nat)) =
      .fin (900719925474099 <<< 1021 : Nat) ∧
    Number.add (Number.ofInt 9007199254740992) 1 = Number.ofInt 9007199254740992 ∧
    Number.add (Number.ofInt 9007199254740992) 3 = Number.ofInt 9007199254740996 ∧
    Number.add (.fin Number.maxMagnitude) (.fin (1 <<< 2044 : Nat)) = .inf false ∧
    Number.add (.fin Number.maxMagnitude) (.fin (1 <<< 2043 : Nat)) =
      .fin Number.maxMagnitude ∧
    Number.sub (.inf false) (.inf false) = .nan ∧
    Number.add .negZero .negZero = .negZero ∧
    Number.sub 1 1 = .fin 0 ∧
    Number.add (.fin 1) (.fin 1) = .fin 2 := by
  decide

theorem orZero_ordered (o : Option Number) : (orZero o).Ordered := by
  unfold orZero
  split
  · next x =>
    split
    · next ht =>
      cases x <;> simp_all [Number.Ordered, Number.truthy]
    · exact ⟨by rw [Number.zero_eq]; exact Number.noConfusion,
        by rw [Number.zero_eq]; exact Number.noConfusion⟩
  · exact ⟨by rw [Number.zero_eq]; exact Number.noConfusion,
      by rw [Number.zero_eq]; exact Number.noConfusion⟩

/-- The comparator `y - x` is positive exactly when `y <= x` fails. -/
theorem Number.positive_sub (x y : Number) (hx : x.Ordered) (hy : y.Ordered) :
    ((y.sub x).positive = false ↔ y.le x = true) := by
  obtain ⟨hx1, hx2⟩ := hx
  obtain ⟨hy1, hy2⟩ := hy
  cases x with
  | nan => exact absurd rfl hx1
  | negZero => exact absurd rfl hx2
  | fin a =>
    cases y with
    | nan => exact absurd rfl hy1
    | negZero => exact absurd rfl hy2
    | fin b =>
      by_cases ha : a = 0
      · subst ha
        simp [Number.sub, Number.neg, Number.add, Number.positive, Number.le]
      · have e : (Number.fin b).sub (Number.fin a) = Number.round (b + -a) := by
          simp [Number.sub, Number.neg, ha, Number.add]
        rw [e, Number.positive_round]
        simp only [Number.le, decide_eq_false_iff_not, decide_eq_true_eq]
        omega
    | inf t =>
      by_cases ha : a = 0
      · subst ha
        cases t <;> simp [Number.sub, Number.neg, Number.add, Number.positive, Number.le]
      · cases t <;> simp [Number.sub, Number.neg, ha, Number.add, Number.positive, Number.le]
  | inf s =>
    cases y with
    | nan => exact absurd rfl hy1
    | negZero => exact absurd rfl hy2
    | fin b => cases s <;> simp [Number.sub, Number.neg, Number.add, Number.positive, Number.le]
    | inf t =>
      cases s <;> cases t <;>
        simp [Number.sub, Number.neg, Number.add, Number.positive, Number.le]

theorem Number.le_total (x y : Number) (hx : x.Ordered) (hy : y.Ordered) :
    x.le y = true ∨ y.le x = true := by
  obtain ⟨hx1, hx2⟩ := hx
  obtain ⟨hy1, hy2⟩ := hy
  cases x with
  | nan => exact absurd rfl hx1
  | negZero => exact absurd rfl hx2
  | fin a =>
    cases y with
    | nan => exact absurd rfl hy1
    | negZero => exact absurd rfl hy2
    | fin b =>
      simp only [Number.le, decide_eq_true_eq]
      exact Int.le_total a b
    | inf t => cases t <;> simp [Number.le]
  | inf s =>
    cases y with
    | nan => exact absurd rfl hy1
    | negZero => exact absurd rfl hy2
    | fin b => cases s <;> simp [Number.le]
    | inf t => cases s <;> cases t <;> simp [Number.le]

theorem Number.le_trans (x y z : Number) (hx : x.Ordered) (hy : y.Ordered) (hz : z.Ordered)
    (hxy : x.le y = true) (hyz : y.le z = true) : x.le z = true := by
  obtain ⟨hx1, hx2⟩ := hx
  obtain ⟨hy1, hy2⟩ := hy
  obtain ⟨hz1, hz2⟩ := hz
  cases x with
  | nan => exact absurd rfl hx1
  | negZero => exact absurd rfl hx2
  | fin a =>
    cases y with
    | nan => exact absurd rfl hy1
    | negZero => exact absurd rfl hy2
    | fin b =>
      cases z with
      | nan => exact absurd rfl hz1
      | negZero => exact absurd rfl hz2
      | fin c =>
        simp only [Number.le, decide_eq_true_eq] at hxy hyz ⊢
        exact Int.le_trans hxy hyz
      | inf u => cases u <;> simp_all [Number.le]
    | inf t =>
      cases z with
      | nan => exact absurd rfl hz1
      | negZero => exact absurd rfl hz2
      | fin c => cases t <;> simp_all [Number.le]
      | inf u => cases t <;> cases u <;> simp_all [Number.le]
  | inf s =>
    cases y with
    | nan => exact absurd rfl hy1
    | negZero => exact absurd rfl hy2
    | fin b =>
      cases z with
      | nan => exact absurd rfl hz1
      | negZero => exact absurd rfl hz2
      | fin c => cases s <;> simp_all [Number.le]
      | inf u => cases s <;> cases u <;> simp_all [Number.le]
    | inf t =>
      cases z with
      | nan => exact absurd rfl hz1
      | negZero => exact absurd rfl hz2
      | fin c => cases s <;> cases t <;> simp_all [Number.le]
      | inf u => cases s <;> cases t <;> cases u <;> simp_all [Number.le]

/-- The order in which `getCustomerStats` sorts: `a` stays before `b` exactly when
`(b.totalSpent || 0) <= (a.totalSpent || 0)`. -/
theorem bySpent_not_positive (a b : Doc) :
    ((CRMService.bySpent a b).positive = false ↔
      (orZero b.totalSpent).le (orZero a.totalSpent) = true) :=
  Number.positive_sub _ _ (orZero_ordered _) (orZero_ordered _)

/-! ## Theorems on `CRMService.updateCustomerPurchaseData` -/

theorem addDocument_of_serves (h : Host) (c : String) (data : Doc) (w : World)
    (hdb : w.db = true) (hs : Serves w) :
    ∃ w2, DatabaseService.addDocument h c data w =
        (.ok (withId (h.freshId w.added, { data with createdBy := some (currentUid w) })), w2) ∧
      w2.store = Function.update w.store c
        (w.store c ++ [(h.freshId w.added, { data with createdBy := some (currentUid w) })]) ∧
      w2.db = true ∧ Serves w2 := by
  have hs1 : Serves (w.record (.called "addDocument" c)) := hs
  obtain ⟨w2, e, hl, hst, hd, ha, hu, hs2⟩ :=
    send_of_serves (w.record (.called "addDocument" c))
      (.add c { data with createdBy := some (currentUid w) }) hs1
  refine ⟨{ w2 with
      store := Function.update w2.store c
        (w2.store c ++ [(h.freshId w2.added, { data with createdBy := some (currentUid w) })])
      added := w2.added + 1 }, ?_, ?_, ?_, ?_⟩
  · simp only [DatabaseService.addDocument, hdb, Bool.not_true, Bool.false_eq_true, if_false,
      Firestore.add, e, andThen, catchToast, ha]
    rfl
  · simp only [hst, ha]
    rfl
  · simp only [hd]
    exact hdb
  · exact hs2

theorem updateDocument_of_serves (c i : String) (data old : Doc) (w : World)
    (hdb : w.db = true) (hs : Serves w)
    (hfind : (w.store c).find? (fun d => d.1 == i) = some (i, old)) :
    ∃ w2, DatabaseService.updateDocument c i data w =
        (.ok (withId (i, old.merge { data with updatedBy := some (currentUid w) })), w2) ∧
      w2.store = Function.update w.store c
        ((w.store c).map (fun (d : String × Doc) =>
          if d.1 == i then (d.1, d.2.merge { data with updatedBy := some (currentUid w) }) else d)) ∧
      w2.db = true ∧ Serves w2 ∧
      w2.log = w.log ++ [.called "updateDocument" c,
        .sent (.update c i { data with updatedBy := some (currentUid w) }), .sent (.get c i)] ∧
      (w2.store c).find? (fun d => d.1 == i) =
        some (i, old.merge { data with updatedBy := some (currentUid w) }) := by
  have hs1 : Serves (w.record (.called "updateDocument" c)) := hs
  obtain ⟨w2, e, hl, hst, hd, ha, hu, hs2⟩ :=
    send_of_serves (w.record (.called "updateDocument" c))
      (.update c i { data with updatedBy := some (currentUid w) }) hs1
  have hst2 : w2.store = w.store := hst
  have hany : (w2.store c).any (fun d => d.1 == i) = true := by
    rw [hst2, List.any_eq_true]
    exact ⟨(i, old), List.mem_of_find?_eq_some hfind, by simp⟩
  have hs3 : Serves { w2 with
      store := (Function.update w2.store c
        ((w2.store c).map (fun (d : String × Doc) =>
          if d.1 == i then (d.1, d.2.merge { data with updatedBy := some (currentUid w) })
          else d))) } :=
    hs2
  obtain ⟨w3, e3, hl3, hst3, hd3, -, -, hs4⟩ := send_of_serves _ (.get c i) hs3
  have hfind2 : (w3.store c).find? (fun d => d.1 == i) =
      some (i, old.merge { data with updatedBy := some (currentUid w) }) := by
    rw [hst3]
    simp only [Function.update_same, hst2, List.find?_map]
    have hcomp : ((fun (d : String × Doc) => d.1 == i) ∘ fun (d : String × Doc) =>
        if d.1 == i then (d.1, d.2.merge { data with updatedBy := some (currentUid w) }) else d) =
        fun d => d.1 == i := by
      funext d
      simp only [Function.comp]
      split <;> simp_all
    rw [hcomp, hfind]
    simp
  refine ⟨w3, ?_, ?_, ?_, hs4, ?_, hfind2⟩
  · simp only [DatabaseService.updateDocument, hdb, Bool.not_true, Bool.false_eq_true, if_false,
      Firestore.update, e, andThen, catchToast, hany, if_true, Firestore.get, e3, hfind2]
  · rw [hst3, hst2]
  · rw [hd3, hd]
    exact hdb
  · rw [hl3]
    simp [hl, World.record]

/-- With nobody signed in, `updateDocument` writes `updatedBy: null` over the identifier the
document held. -/
theorem updateDocument_writes_null :
    (DatabaseService.updateDocument "customers" "c1" { name := some "Ana".toList }
      { emptyWorld with
        store := fun _ => [("c1", { phone := some "1".toList, updatedBy := some (some "u0") })]
      }).2.store "customers" =
      [("c1", { name := some "Ana".toList, phone := some "1".toList, updatedBy := some none })] :=
  rfl

theorem catchRethrow_eq {α : Type} (r : Result α) : catchRethrow r = r := by
  obtain ⟨x, w⟩ := r
  cases x <;> rfl

theorem updateCustomerPurchaseData_of_serves (id : String) (amount : Number) (old : Doc)
    (w : World) (hdb : w.db = true) (hs : Serves w)
    (hfind : (w.store "customers").find? (fun d => d.1 == id) = some (id, old)) :
    ∃ w2 result stored, CRMService.updateCustomerPurchaseData id amount w = (.ok result, w2) ∧
      w2.db = true ∧ Serves w2 ∧
      (w2.store "customers").find? (fun d => d.1 == id) = some (id, stored) ∧
      stored.totalPurchases = some ((orZero old.totalPurchases).add 1) ∧
      stored.totalSpent = some ((orZero old.totalSpent).add amount) := by
  obtain ⟨w2, e1, -, st1, db1, -, -, hs1⟩ := getDocument_of_serves "customers" id w hdb hs
  rw [hfind] at e1
  have hfind2 : (w2.store "customers").find? (fun d => d.1 == id) = some (id, old) := by
    rw [st1]
    exact hfind
  obtain ⟨w3, e2, -, db2, hs2, -, hf3⟩ := updateDocument_of_serves "customers" id
    { totalPurchases := some ((orZero (withId (id, old)).totalPurchases).add 1)
      totalSpent := some ((orZero (withId (id, old)).totalSpent).add amount) }
    old w2 db1 hs1 hfind2
  have e : CRMService.updateCustomerPurchaseData id amount w =
      DatabaseService.updateDocument "customers" id
        { totalPurchases := some ((orZero (withId (id, old)).totalPurchases).add 1)
          totalSpent := some ((orZero (withId (id, old)).totalSpent).add amount) } w2 := by
    simp only [CRMService.updateCustomerPurchaseData, CRMService.getCustomer,
      CRMService.customersCollection, catchRethrow_eq, e1, Option.map_some', andThen]
  rw [e2] at e
  exact ⟨w3, _, _, e, db2, hs2, hf3, rfl, rfl⟩

theorem updateCustomerPurchaseData_missing (id : String) (amount : Number) (w : World)
    (hdb : w.db = true) (hs : Serves w) (hmiss : ∀ e ∈ w.store "customers", e.1 ≠ id) :
    (CRMService.updateCustomerPurchaseData id amount w).1 =
      .error { message := "Cliente não encontrado" } ∧
    (CRMService.updateCustomerPurchaseData id amount w).2.store = w.store ∧
    newEvents w (CRMService.updateCustomerPurchaseData id amount w) =
      [.called "getDocument" "customers", .sent (.get "customers" id)] := by
  obtain ⟨w2, e1, l1, st1, -, -, -, -⟩ := getDocument_of_serves "customers" id w hdb hs
  have hnone : (w.store "customers").find? (fun d => d.1 == id) = none := by
    rw [List.find?_eq_none]
    intro e he
    simpa using hmiss e he
  rw [hnone] at e1
  have e : CRMService.updateCustomerPurchaseData id amount w =
      (.error { message := "Cliente não encontrado" }, w2) := by
    simp only [CRMService.updateCustomerPurchaseData, CRMService.getCustomer,
      CRMService.customersCollection, catchRethrow_eq, e1, Option.map_none', andThen]
  refine ⟨by rw [e], by rw [e]; exact st1, ?_⟩
  exact newEvents_of_log _ _ _ (by rw [e]; exact l1)

/-- Successive purchases on a store that serves its requests all succeed, and the stored
totals are those of the additions made one call after the other. -/
theorem purchases_of_serves (id : String) (amounts : List Number) :
    ∀ (w : World) (old : Doc) (k t : Number), w.db = true → Serves w →
      (w.store "customers").find? (fun d => d.1 == id) = some (id, old) →
      old.totalPurchases = some k → old.totalSpent = some t →
      ∃ w2 stored, CRMService.purchases id amounts w = (.ok (), w2) ∧
        (w2.store "customers").find? (fun d => d.1 == id) = some (id, stored) ∧
        stored.totalPurchases =
          some (amounts.foldl (fun count _ => (orZero (some count)).add 1) k) ∧
        stored.totalSpent =
          some (amounts.foldl (fun total amount => (orZero (some total)).add amount) t) := by
  induction amounts with
  | nil =>
    intro w old k t _ _ hfind hk ht
    exact ⟨w, old, rfl, hfind, hk, ht⟩
  | cons a rest ih =>
    intro w old k t hdb hs hfind hk ht
    obtain ⟨w2, result, stored, e, db2, hs2, hf2, hp, hsp⟩ :=
      updateCustomerPurchaseData_of_serves id a old w hdb hs hfind
    rw [hk] at hp
    rw [ht] at hsp
    obtain ⟨w3, stored3, e3, hf3, hp3, hsp3⟩ := ih w2 stored _ _ db2 hs2 hf2 hp hsp
    refine ⟨w3, stored3, ?_, hf3, hp3, hsp3⟩
    simp only [CRMService.purchases, e, andThen, e3]

theorem orZero_ofInt (z : Int) : orZero (some (Number.ofInt z)) = Number.ofInt z := by
  unfold orZero
  split
  · next x hx =>
    simp only [Option.some.injEq] at hx
    subst hx
    split
    · rfl
    · next hf =>
      have hz : z * (Number.unit : Int) = 0 := by
        by_contra hne
        exact hf (decide_eq_true hne)
      rw [Number.zero_eq, Number.ofInt, hz]
  · next hx => exact absurd hx (by simp)

/-- Counting in numbers: adding 1 to a count below `2^53` gives the next integer, and adding
1 to `2^53` gives `2^53` again. -/
theorem count_step (k : Nat) (hk : k ≤ 2 ^ 53) :
    (orZero (some (Number.ofInt k))).add 1 = Number.ofInt (min (k + 1) (2 ^ 53) : Nat) := by
  rw [orZero_ofInt]
  by_cases hlt : k < 2 ^ 53
  · rw [Nat.min_eq_left hlt]
    have e := Number.add_ofInt k 1 (by omega)
    exact e
  · have hk2 : k = 2 ^ 53 := by omega
    subst hk2
    decide

theorem count_fold (amounts : List Number) :
    ∀ k : Nat, k ≤ 2 ^ 53 →
      amounts.foldl (fun count _ => (orZero (some count)).add 1) (Number.ofInt k) =
        Number.ofInt (min (k + amounts.length) (2 ^ 53) : Nat) := by
  induction amounts with
  | nil =>
    intro k hk
    simp only [List.foldl_nil, List.length_nil, Nat.add_zero, Nat.min_eq_left hk]
  | cons a rest ih =>
    intro k hk
    rw [List.foldl_cons, count_step k hk, ih _ (Nat.min_le_right _ _)]
    congr 2
    simp only [List.length_cons]
    omega

/-- Adding integers whose running totals stay within `2^53` in magnitude is exact. -/
theorem sum_fold (zs : List Int) :
    ∀ s : Int, (∀ j, j ≤ zs.length → (s + (zs.take j).sum).natAbs ≤ 2 ^ 53) →
      (zs.map Number.ofInt).foldl (fun total amount => (orZero (some total)).add amount)
        (Number.ofInt s) = Number.ofInt (s + zs.sum) := by
  induction zs with
  | nil =>
    intro s _
    simp only [List.map_nil, List.foldl_nil, List.sum_nil, add_zero]
  | cons z rest ih =>
    intro s hrun
    have h1 := hrun 1 (by simp)
    simp only [List.take_succ_cons, List.take_zero, List.sum_cons, List.sum_nil,
      add_zero] at h1
    rw [List.map_cons, List.foldl_cons, orZero_ofInt, Number.add_ofInt s z h1,
      ih (s + z) (by
        intro j hj
        have := hrun (j + 1) (by simpa using hj)
        simpa [List.take_succ_cons, List.sum_cons, add_assoc] using this),
      List.sum_cons, add_assoc]

theorem addCustomer_ok (h : Host) (customerData created : Doc) (w w1 : World)
    (hs : Serves w) (hfresh : ∀ e ∈ w.store "customers", e.1 ≠ h.freshId w.added)
    (hadd : CRMService.addCustomer h customerData w = (.ok created, w1)) :
    w1.db = true ∧ Serves w1 ∧
    ∃ stored, (w1.store "customers").find? (fun d => d.1 == h.freshId w.added) =
        some (h.freshId w.added, stored) ∧
      stored.totalPurchases = some 0 ∧ stored.totalSpent = some 0 := by
  unfold CRMService.addCustomer at hadd
  cases hn : truthy customerData.name with
  | false => simp [hn, catchNotify, notifyAndRethrow] at hadd
  | true =>
    simp only [hn, Bool.not_true, Bool.false_eq_true, if_false] at hadd
    cases hv : validateContact customerData with
    | error e0 => simp [hv, catchNotify, notifyAndRethrow] at hadd
    | ok d2 =>
      simp only [hv] at hadd
      cases hdb : w.db with
      | false =>
        simp [DatabaseService.addDocument, hdb, andThen, catchNotify, notifyAndRethrow] at hadd
      | true =>
        obtain ⟨w2, e, st, db2, hs2⟩ := addDocument_of_serves h "customers"
          { d2 with
            status := if truthy d2.status then d2.status else some "active".toList
            type := if truthy d2.type then d2.type else some "person".toList
            totalPurchases := some 0
            totalSpent := some 0 } w hdb hs
        simp only [CRMService.customersCollection, e, andThen, catchNotify, Prod.mk.injEq,
          Except.ok.injEq] at hadd
        obtain ⟨-, rfl⟩ := hadd
        refine ⟨db2, hs2,
          { d2 with
            status := if truthy d2.status then d2.status else some "active".toList
            type := if truthy d2.type then d2.type else some "person".toList
            totalPurchases := some 0
            totalSpent := some 0
            createdBy := some (currentUid w) }, ?_, rfl, rfl⟩
        have hnone : (w.store "customers").find? (fun d => d.1 == h.freshId w.added) = none := by
          rw [List.find?_eq_none]
          intro e0 he0
          simpa using hfresh e0 he0
        simp only [showNotification, World.record, st, Function.update_same, List.find?_append,
          hnone, Option.none_or, List.find?_cons, beq_self_eq_true]

/-- C12 (as stated, refuted): amounts are JavaScript numbers and their sums are rounded. After
the purchases `9007199254740992` and `1` on a new customer the stored `totalSpent` is
`9007199254740992`, not the sum `9007199254740993` of the two amounts. -/
theorem purchase_total_is_rounded :
    ∃ w2 stored,
      CRMService.purchases "doc0" [Number.ofInt 9007199254740992, Number.ofInt 1]
        (CRMService.addCustomer asciiHost { name := some "Ana".toList } emptyWorld).2 =
          (.ok (), w2) ∧
      (w2.store "customers").find? (fun d => d.1 == "doc0") = some ("doc0", stored) ∧
      stored.totalSpent = some (Number.ofInt 9007199254740992) ∧
      stored.totalSpent ≠ some (Number.ofInt ([9007199254740992, 1].sum)) := by
  obtain ⟨w2, stored, e, hf, -, ht⟩ := purchases_of_serves "doc0"
    [Number.ofInt 9007199254740992, Number.ofInt 1]
    (CRMService.addCustomer asciiHost { name := some "Ana".toList } emptyWorld).2
    { name := some "Ana".toList, status := some "active".toList, type := some "person".toList,
      totalPurchases := some 0, totalSpent := some 0, createdBy := some none }
    0 0 rfl (fun o ho => nomatch ho) rfl rfl rfl
  have hv : [Number.ofInt 9007199254740992, Number.ofInt 1].foldl
      (fun total amount => (orZero (some total)).add amount) 0 =
      Number.ofInt 9007199254740992 := by decide
  rw [hv] at ht
  refine ⟨w2, stored, e, hf, ht, ?_⟩
  rw [ht]
  decide

/-- C12 (amended): a customer created by `addCustomer` is stored with `totalPurchases = 0` and
`totalSpent = 0` whatever the input holds in these fields. After the calls
`updateCustomerPurchaseData(id, a_1)`, ..., `updateCustomerPurchaseData(id, a_n)` on a store
that serves its requests, all of which succeed, the stored `totalPurchases` is `n` (as long
as `n` is at most `2^53`, where the count stays) and the stored `totalSpent` is the result of
adding the amounts to `0` one call after the other in JavaScript numbers, a total of `NaN`
counting as `0` in the next call; this is `a_1 + ... + a_n` when the amounts are integers of
magnitude at most `2^53` and so is every running total. A call for an identifier under which
no customer is stored fails with `Cliente não encontrado`, leaves the store as it was and
sends no write. Here `id` is the identifier the store gave the new document, which no older
customer has. -/
theorem purchase_totals (h : Host) (customerData created : Doc) (w w1 : World)
    (amounts : List Number) (hs : Serves w)
    (hfresh : ∀ e ∈ w.store "customers", e.1 ≠ h.freshId w.added)
    (hadd : CRMService.addCustomer h customerData w = (.ok created, w1)) :
    (∃ stored, (w1.store "customers").find? (fun d => d.1 == h.freshId w.added) =
        some (h.freshId w.added, stored) ∧
      stored.totalPurchases = some 0 ∧ stored.totalSpent = some 0) ∧
    (∃ w2 stored, CRMService.purchases (h.freshId w.added) amounts w1 = (.ok (), w2) ∧
      (w2.store "customers").find? (fun d => d.1 == h.freshId w.added) =
        some (h.freshId w.added, stored) ∧
      stored.totalPurchases = some (Number.ofInt (min amounts.length (2 ^ 53) : Nat)) ∧
      stored.totalSpent =
        some (amounts.foldl (fun total amount => (orZero (some total)).add amount) 0) ∧
      ∀ zs : List Int, amounts = zs.map Number.ofInt →
        (∀ z ∈ zs, z.natAbs ≤ 2 ^ 53) →
        (∀ j, j ≤ zs.length → ((zs.take j).sum).natAbs ≤ 2 ^ 53) →
        stored.totalSpent = some (Number.ofInt zs.sum)) ∧
    (∀ (missing : String) (amount : Number) (w0 : World), w0.db = true → Serves w0 →
      (∀ e ∈ w0.store "customers", e.1 ≠ missing) →
      (CRMService.updateCustomerPurchaseData missing amount w0).1 =
        .error { message := "Cliente não encontrado" } ∧
      (CRMService.updateCustomerPurchaseData missing amount w0).2.store = w0.store ∧
      ∀ e ∈ newEvents w0 (CRMService.updateCustomerPurchaseData missing amount w0),
        e.isWrite = false) := by
  obtain ⟨db1, hs1, stored, hf, hp, ht⟩ := addCustomer_ok h customerData created w w1 hs hfresh hadd
  refine ⟨⟨stored, hf, hp, ht⟩, ?_, ?_⟩
  · obtain ⟨w2, stored2, e, hf2, hp2, ht2⟩ :=
      purchases_of_serves (h.freshId w.added) amounts w1 stored 0 0 db1 hs1 hf hp ht
    refine ⟨w2, stored2, e, hf2, ?_, ht2, ?_⟩
    · rw [hp2]
      have hc := count_fold amounts 0 (Nat.zero_le _)
      rw [Nat.zero_add] at hc
      exact congrArg some hc
    · intro zs hzs _ hrun
      rw [ht2, hzs]
      have hsum := sum_fold zs 0 (by
        intro j hj
        rw [zero_add]
        exact hrun j hj)
      rw [zero_add] at hsum
      exact congrArg some hsum
  · intro missing amount w0 hdb0 hs0 hmiss
    obtain ⟨r1, r2, r3⟩ := updateCustomerPurchaseData_missing missing amount w0 hdb0 hs0 hmiss
    refine ⟨r1, r2, ?_⟩
    rw [r3]
    intro ev hev
    simp only [List.mem_cons, List.mem_singleton, List.not_mem_nil, or_false] at hev
    rcases hev with rfl | rfl <;> rfl

/-- Witness for C12 (amended): a customer created with `totalPurchases: 7` and
`totalSpent: 999` in the input, then three purchases of 100, 250 and 50. -/
theorem purchase_totals_witness :
    ∃ w2 stored,
      CRMService.purchases "doc0" [100, 250, 50]
        (CRMService.addCustomer asciiHost
          { name := some "Ana".toList, totalPurchases := some 7, totalSpent := some 999 }
          emptyWorld).2 = (.ok (), w2) ∧
      (w2.store "customers").find? (fun d => d.1 == "doc0") = some ("doc0", stored) ∧
      stored.totalPurchases = some 3 ∧ stored.totalSpent = some 400 := by
  obtain ⟨w2, stored, e, hf, hp, -, hz⟩ := (purchase_totals asciiHost
    { name := some "Ana".toList, totalPurchases := some 7, totalSpent := some 999 }
    { id := some "doc0", name := some "Ana".toList, status := some "active".toList,
      type := some "person".toList, totalPurchases := some 0, totalSpent := some 0,
      createdBy := some none }
    emptyWorld
    (CRMService.addCustomer asciiHost
      { name := some "Ana".toList, totalPurchases := some 7, totalSpent := some 999 }
      emptyWorld).2
    [100, 250, 50] (fun o ho => nomatch ho) (by decide) rfl).2.1
  exact ⟨w2, stored, e, hf, hp, hz [100, 250, 50] rfl (by decide) (by decide)⟩

/-! ## Theorems on `CRMService.getCustomerStats` -/

/-- C13: for the list of customers the adapter returns, `topCustomers` has
`min(5, number of customers)` entries, is ordered by non-increasing `totalSpent || 0` (so a
missing `totalSpent` counts as 0, as does one that is `NaN`), and the customers left out of it
(the rest of the list, as a multiset) each have a `totalSpent || 0` at most that of every
customer in it. -/
theorem topCustomers_sorted (h : Host) (w w1 : World) (customers : List Doc)
    (hdb : DatabaseService.getDocuments h "customers" {} w = (.ok customers, w1)) :
    ∃ stats, (CRMService.getCustomerStats h w).1 = .ok stats ∧
      stats.topCustomers.length = min 5 customers.length ∧
      stats.topCustomers.Pairwise
        (fun a b => (orZero b.totalSpent).le (orZero a.totalSpent) = true) ∧
      ∃ rest, (stats.topCustomers ++ rest).Perm customers ∧
        ∀ a ∈ stats.topCustomers, ∀ b ∈ rest,
          (orZero b.totalSpent).le (orZero a.totalSpent) = true := by
  haveI htot : IsTotal Doc (fun a b => (CRMService.bySpent a b).positive = false) :=
    ⟨fun a b => by
      rw [bySpent_not_positive, bySpent_not_positive]
      exact Number.le_total _ _ (orZero_ordered _) (orZero_ordered _)⟩
  haveI htrans : IsTrans Doc (fun a b => (CRMService.bySpent a b).positive = false) :=
    ⟨fun a b c hab hbc => by
      rw [bySpent_not_positive] at hab hbc ⊢
      exact Number.le_trans _ _ _ (orZero_ordered _) (orZero_ordered _) (orZero_ordered _)
        hbc hab⟩
  have hsorted : (customers.insertionSort
      (fun a b => (CRMService.bySpent a b).positive = false)).Pairwise
      (fun a b => (orZero b.totalSpent).le (orZero a.totalSpent) = true) :=
    List.Pairwise.imp (fun hab => (bySpent_not_positive _ _).1 hab)
      (List.sorted_insertionSort
        (fun (a b : Doc) => (CRMService.bySpent a b).positive = false) customers)
  have hperm := List.perm_insertionSort
    (fun (a b : Doc) => (CRMService.bySpent a b).positive = false) customers
  refine ⟨
    { total := customers.length
      active := (customers.filter (fun c => c.status == some "active".toList)).length
      inactive := customers.length -
        (customers.filter (fun c => c.status == some "active".toList)).length
      totalSpent := customers.foldl (fun total c => total.add (orZero c.totalSpent)) 0
      topCustomers := (customers.insertionSort
        (fun a b => (CRMService.bySpent a b).positive = false)).take 5 }, ?_, ?_, ?_, ?_⟩
  · simp only [CRMService.getCustomerStats, CRMService.customersCollection, hdb, andThen,
      catchRethrow_eq]
  · simp only [List.length_take, List.length_insertionSort]
  · exact List.Pairwise.sublist (List.take_sublist _ _) hsorted
  · refine ⟨(customers.insertionSort
      (fun a b => (CRMService.bySpent a b).positive = false)).drop 5, ?_, ?_⟩
    · simp only [List.take_append_drop]
      exact hperm
    · have hsplit := hsorted
      rw [← List.take_append_drop 5 (customers.insertionSort
        (fun a b => (CRMService.bySpent a b).positive = false)),
        List.pairwise_append] at hsplit
      exact hsplit.2.2

/-- Witness for C13: seven customers, of which the five with the highest `totalSpent` are
kept. -/
theorem topCustomers_sorted_witness :
    ∃ stats, (CRMService.getCustomerStats asciiHost statsWorld).1 = .ok stats ∧
      stats.topCustomers.length = min 5 7 ∧
      stats.topCustomers.Pairwise
        (fun a b => (orZero b.totalSpent).le (orZero a.totalSpent) = true) ∧
      stats.topCustomers.map (fun c => c.totalSpent.getD 0) = [70, 50, 50, 30, 20] := by
  obtain ⟨stats, h1, h2, h3, -⟩ := topCustomers_sorted asciiHost statsWorld
    (DatabaseService.getDocuments asciiHost "customers" {} statsWorld).2
    ((statsWorld.store "customers").map withId) rfl
  refine ⟨stats, h1, h2, h3, ?_⟩
  have h4 : (CRMService.getCustomerStats asciiHost statsWorld).1 = .ok
      { total := 7, active := 1, inactive := 6, totalSpent := 230,
        topCustomers :=
          [{ id := some "c6", totalSpent := some 70 }, { id := some "c2", totalSpent := some 50 },
           { id := some "c5", totalSpent := some 50 }, { id := some "c4", totalSpent := some 30 },
           { id := some "c7", totalSpent := some 20 }] } := rfl
  rw [h4] at h1
  simp only [Except.ok.injEq] at h1
  subst h1
  rfl

/-! ## Theorems on the uninitialised database adapter -/

theorem init_without_firestore (storage auth : Bool) (uid : Option String) (w : World) :
    DatabaseService.init false storage auth uid w = w := rfl

theorem inits_without_firestore (calls : List (Bool × Bool × Option String)) (w : World) :
    calls.foldl (fun w c => DatabaseService.init false c.1 c.2.1 c.2.2 w) w = w := by
  induction calls with
  | nil => rfl
  | cons c rest ih =>
    simp only [List.foldl_cons, init_without_firestore]
    exact ih

/-- C14: starting from the adapter as constructed, after any number of calls of `init` without
a Firestore instance (each of which leaves the adapter as it was), `collection`,
`getDocument`, `getDocuments`, `addDocument`, `updateDocument`, `deleteDocument`,
`runTransaction`, `runBatch`, `onDocumentChange` and `onCollectionChange` each throw
`Serviço de banco de dados não inicializado` and leave the state, log included, as it was: no
request is sent. -/
theorem uninitialised_adapter_fails (h : Host) (store : String → List (String × Doc))
    (calls : List (Bool × Bool × Option String)) :
    calls.foldl (fun w c => DatabaseService.init false c.1 c.2.1 c.2.2 w)
      (DatabaseService.new store) = DatabaseService.new store ∧
    notInitialised.message = "Serviço de banco de dados não inicializado" ∧
    (∀ c, DatabaseService.collection c (DatabaseService.new store) =
      (.error notInitialised, DatabaseService.new store)) ∧
    (∀ c i, DatabaseService.getDocument c i (DatabaseService.new store) =
      (.error notInitialised, DatabaseService.new store)) ∧
    (∀ c o, DatabaseService.getDocuments h c o (DatabaseService.new store) =
      (.error notInitialised, DatabaseService.new store)) ∧
    (∀ c d, DatabaseService.addDocument h c d (DatabaseService.new store) =
      (.error notInitialised, DatabaseService.new store)) ∧
    (∀ c i d, DatabaseService.updateDocument c i d (DatabaseService.new store) =
      (.error notInitialised, DatabaseService.new store)) ∧
    (∀ c i, DatabaseService.deleteDocument c i (DatabaseService.new store) =
      (.error notInitialised, DatabaseService.new store)) ∧
    (∀ (α : Type) (f : World → Result α),
      DatabaseService.runTransaction f (DatabaseService.new store) =
        (.error notInitialised, DatabaseService.new store)) ∧
    (∀ ds, DatabaseService.runBatch ds (DatabaseService.new store) =
      (.error notInitialised, DatabaseService.new store)) ∧
    (∀ c i, DatabaseService.onDocumentChange c i (DatabaseService.new store) =
      (.error notInitialised, DatabaseService.new store)) ∧
    (∀ c o, DatabaseService.onCollectionChange c o (DatabaseService.new store) =
      (.error notInitialised, DatabaseService.new store)) := by
  refine ⟨inits_without_firestore calls _, rfl, ?_, ?_, ?_, ?_, ?_, ?_, ?_, ?_, ?_, ?_⟩ <;>
    intros <;> rfl

/-! ## Theorems on `AuthService.onAuthStateChanged` -/

/-- C15 (as stated, refuted): when the callback is already registered, calling the function
returned removes the earlier registration too: from the list `[7]`, registering 7 again and
unsubscribing leaves no callback. -/
theorem unsubscribe_removes_earlier_registration :
    AuthService.afterUnsubscribe 7 { authStateChangedCallbacks := [7] } = [] ∧
    ¬ (∀ (s : AuthService.Registry) (cb : Nat),
        AuthService.afterUnsubscribe cb s = s.authStateChangedCallbacks) := by
  refine ⟨by decide, ?_⟩
  intro H
  have h := H { authStateChangedCallbacks := [7] } 7
  revert h
  decide

/-- C15 (amended): calling the function returned by `onAuthStateChanged(cb)` leaves the list
of callbacks that were registered before, without any occurrence of `cb`, the others in their
original order; so when `cb` was not registered before, the list is restored to what it
was. -/
theorem unsubscribe_restores (s : AuthService.Registry) (cb : Nat) :
    AuthService.afterUnsubscribe cb s =
      s.authStateChangedCallbacks.filter (fun other => other != cb) ∧
    (∀ other, other ≠ cb →
      (AuthService.afterUnsubscribe cb s).filter (fun x => x == other) =
        s.authStateChangedCallbacks.filter (fun x => x == other)) ∧
    (AuthService.afterUnsubscribe cb s).Sublist s.authStateChangedCallbacks ∧
    (cb ∉ s.authStateChangedCallbacks →
      AuthService.afterUnsubscribe cb s = s.authStateChangedCallbacks) := by
  have e : AuthService.afterUnsubscribe cb s =
      s.authStateChangedCallbacks.filter (fun other => other != cb) := by
    simp [AuthService.afterUnsubscribe, AuthService.onAuthStateChanged, List.filter_append]
  refine ⟨e, ?_, ?_, ?_⟩
  · intro other ho
    rw [e, List.filter_filter]
    apply List.filter_congr
    intro x _
    by_cases hx : x = other
    · subst hx
      simp [ho]
    · simp [hx]
  · rw [e]
    exact List.filter_sublist _
  · intro hcb
    rw [e, List.filter_eq_self]
    intro x hx
    have : x ≠ cb := fun h => hcb (h ▸ hx)
    simp [this]

/-- Witness for C15 (amended): with the callbacks 3, 5 and 3 registered, registering 9 and
unsubscribing it gives back 3, 5, 3. -/
theorem unsubscribe_restores_witness :
    AuthService.afterUnsubscribe 9 { authStateChangedCallbacks := [3, 5, 3] } = [3, 5, 3] :=
  (unsubscribe_restores { authStateChangedCallbacks := [3, 5, 3] } 9).2.2.2 (by decide)

/-! ## Theorems on `isValidPassword` -/

theorem jsLength_eq_length (p : Str) (hb : ∀ c ∈ p, c.toNat < 0x10000) :
    jsLength p = p.length := by
  unfold jsLength
  induction p with
  | nil => rfl
  | cons c rest ih =>
    have hc : ¬ (0x10000 ≤ c.toNat) := by
      have := hb c (by simp)
      omega
    simp only [List.map_cons, List.sum_cons, hc, if_false, List.length_cons]
    rw [ih (fun x hx => hb x (List.mem_cons_of_mem _ hx))]
    omega

theorem requirement_step (r b x : Bool) :
    ((if (r && !b) = true then false else x) = true) ↔ ((r = true → b = true) ∧ x = true) := by
  cases r <;> cases b <;> simp

theorem getD_false_eq_true (x : Option Bool) : x.getD false = true ↔ x = some true := by
  rcases x with _ | _ | _ <;> simp

/-- C16: `isValidPassword(p, options)` holds exactly when `p` is not empty, its length (in
UTF-16 code units, as JavaScript counts it) is at least `minLength` (6 when not given), and,
for each requirement switched on, some character of `p` is in the class of that requirement;
with the default options this is `p.length >= 6`, and the length is the number of characters
for a password within the Basic Multilingual Plane. -/
theorem isValidPassword_iff (p : Str) (o : PasswordOptions) :
    (isValidPassword p o = true ↔
      p ≠ [] ∧ o.minLength.getD 6 ≤ (jsLength p : Int) ∧
      (o.requireUppercase = some true → ∃ c ∈ p, isUppercase c = true) ∧
      (o.requireLowercase = some true → ∃ c ∈ p, isLowercase c = true) ∧
      (o.requireNumbers = some true → ∃ c ∈ p, c.isDigit = true) ∧
      (o.requireSpecialChars = some true → ∃ c ∈ p, isSpecialChar c = true)) ∧
    (isValidPassword p {} = true ↔ 6 ≤ jsLength p) ∧
    ((∀ c ∈ p, c.toNat < 0x10000) → jsLength p = p.length) := by
  have main : ∀ o : PasswordOptions, isValidPassword p o = true ↔
      p ≠ [] ∧ o.minLength.getD 6 ≤ (jsLength p : Int) ∧
      (o.requireUppercase = some true → ∃ c ∈ p, isUppercase c = true) ∧
      (o.requireLowercase = some true → ∃ c ∈ p, isLowercase c = true) ∧
      (o.requireNumbers = some true → ∃ c ∈ p, c.isDigit = true) ∧
      (o.requireSpecialChars = some true → ∃ c ∈ p, isSpecialChar c = true) := by
    intro o
    obtain ⟨m, u, l, n, sp⟩ := o
    cases p with
    | nil => simp [isValidPassword]
    | cons c rest =>
      simp only [isValidPassword, List.isEmpty_cons, Bool.false_eq_true, if_false, ne_eq,
        reduceCtorEq, not_false_eq_true, true_and]
      by_cases hlen : (jsLength (c :: rest) : Int) < m.getD 6
      · simp only [hlen, if_true, Bool.false_eq_true, false_iff]
        intro hcon
        omega
      · have hle : m.getD 6 ≤ (jsLength (c :: rest) : Int) := by omega
        simp only [hlen, if_false, hle, true_and, requirement_step, getD_false_eq_true,
          List.any_eq_true, and_true]
  refine ⟨main o, ?_, jsLength_eq_length p⟩
  rw [main]
  simp only [Option.getD_none, reduceCtorEq, false_implies, and_true]
  constructor
  · rintro ⟨-, h⟩
    exact_mod_cast h
  · intro h
    refine ⟨?_, by exact_mod_cast h⟩
    rintro rfl
    simp [jsLength] at h

/-! ## Theorems on `isValidCreditCard` -/

theorem charAt_append_last (u : Str) (c : Char) : charAt (u ++ [c]) u.length = [c] := by
  simp [charAt]

theorem charAt_append_lt (u : Str) (c : Char) (i : Nat) (hi : i < u.length) :
    charAt (u ++ [c]) i = charAt u i := by
  unfold charAt
  rw [List.drop_append_of_le_length (Nat.le_of_lt hi)]
  have hne : 0 < (u.drop i).length := by
    rw [List.length_drop]
    omega
  match hd : u.drop i, hne with
  | x :: rest, _ => simp

/-- The Luhn loop over the indices of a digit string is a fold over its characters from the
right. -/
theorem luhn_fold (t : Str) :
    ∀ (s : Str), (∀ c ∈ t, c.isDigit = true) →
      (∀ i, i < t.length → charAt s i = charAt t i) →
      ∀ init : Nat × Bool,
        (List.range t.length).reverse.foldlM
          (fun (st : Nat × Bool) i =>
            (parseInt (charAt s i)).map (fun digit =>
              (st.1 + (if st.2 then luhnDouble digit else digit), !st.2))) init =
        some (t.reverse.foldl
          (fun (st : Nat × Bool) (c : Char) =>
            (st.1 + (if st.2 then luhnDouble (digitVal c) else digitVal c), !st.2)) init) := by
  induction t using List.reverseRecOn with
  | nil =>
    intro s _ _ init
    rfl
  | append_singleton u c ih =>
    intro s hd hs init
    have hc : c.isDigit = true := hd c (by simp)
    have hlast : charAt s u.length = [c] := by
      rw [hs u.length (by simp), charAt_append_last]
    have hrest : ∀ i, i < u.length → charAt s i = charAt u i := by
      intro i hi
      rw [hs i (by simp; omega), charAt_append_lt u c i hi]
    simp only [List.length_append, List.length_singleton, List.range_succ, List.reverse_append,
      List.reverse_singleton, List.singleton_append, List.foldlM_cons, hlast,
      parseInt_single hc, Option.map_some', Option.bind_eq_bind, Option.some_bind,
      List.foldl_cons]
    exact ih s (fun x hx => hd x (by simp [hx])) hrest _

theorem luhn_sum (l : List Nat) :
    ∀ (sum k : Nat),
      (l.foldl (fun (st : Nat × Bool) (d : Nat) =>
          (st.1 + (if st.2 then luhnDouble d else d), !st.2))
        (sum, decide (k % 2 = 1))).1 =
      sum + ((l.enumFrom k).map (fun p =>
        if p.1 % 2 = 1 then (if 2 * p.2 > 9 then 2 * p.2 - 9 else 2 * p.2) else p.2)).sum := by
  induction l with
  | nil =>
    intro sum k
    simp
  | cons d rest ih =>
    intro sum k
    have hflip : (!decide (k % 2 = 1)) = decide ((k + 1) % 2 = 1) := by
      rcases Nat.mod_two_eq_zero_or_one k with h | h <;> simp [h, Nat.add_mod]
    simp only [List.foldl_cons, hflip, ih, List.enumFrom_cons, List.map_cons, List.sum_cons]
    have hd : (if decide (k % 2 = 1) = true then luhnDouble d else d) =
        (if k % 2 = 1 then (if 2 * d > 9 then 2 * d - 9 else 2 * d) else d) := by
      unfold luhnDouble
      by_cases hk : k % 2 = 1
      · simp only [hk, decide_True, if_true, Nat.mul_comm d 2]
      · simp only [hk, decide_False, Bool.false_eq_true, if_false]
    rw [hd]
    omega

theorem luhnLoop_eq (ds : Str) (hd : ∀ c ∈ ds, c.isDigit = true) :
    luhnLoop ds = some (luhnChecksum (ds.map digitVal)) := by
  unfold luhnLoop luhnChecksum
  rw [luhn_fold ds ds hd (fun _ _ => rfl)]
  simp only [Option.map_some', Option.some.injEq]
  have h := luhn_sum (ds.map digitVal).reverse 0 0
  simp only [Nat.zero_mod, zero_ne_one, decide_False, Nat.zero_add] at h
  rw [List.enum, ← h, ← List.map_reverse, List.foldl_map]

/-- C17: `isValidCreditCard s` holds exactly when the ASCII digits of `s` number between 13
and 19 and their Luhn checksum is divisible by 10; `4111111111111111` is accepted. -/
theorem isValidCreditCard_iff_luhn :
    (∀ s : Str, isValidCreditCard s = true ↔ LuhnRule s) ∧
    isValidCreditCard "4111111111111111".toList = true := by
  refine ⟨?_, by decide⟩
  intro s
  have hd : ∀ x ∈ stripNonDigits s, x.isDigit = true := fun x hx => (List.mem_filter.1 hx).2
  have hv : digitValues s = (stripNonDigits s).map digitVal := rfl
  unfold LuhnRule
  rw [hv, List.length_map]
  cases s with
  | nil => simp [isValidCreditCard, stripNonDigits]
  | cons c rest =>
    simp only [isValidCreditCard, List.isEmpty_cons, Bool.false_eq_true, if_false,
      luhnLoop_eq _ hd]
    by_cases hlen : (stripNonDigits (c :: rest)).length < 13 ∨
        (stripNonDigits (c :: rest)).length > 19
    · simp only [hlen, if_true, Bool.false_eq_true, false_iff]
      intro hcon
      omega
    · simp only [hlen, if_false, beq_iff_eq]
      constructor
      · intro h
        exact ⟨by omega, by omega, h⟩
      · exact fun h => h.2.2

/-! ## Theorems on the formatters -/

/-- On a non-empty string of digits whose length is the sum of the group widths, the
expression matches the whole string. -/
theorem replaceDigitGroups_whole (widths : List Nat) (pattern : List Piece) (ds : Str)
    (hne : ds ≠ []) (hlen : ds.length = widths.sum) (hd : ∀ c ∈ ds, c.isDigit = true) :
    replaceDigitGroups widths pattern ds = fillPattern pattern (splitGroups widths ds) := by
  match ds, hne with
  | c :: s, _ =>
    have htake : (c :: s).take widths.sum = c :: s := by
      rw [← hlen]
      exact List.take_length _
    have hdrop : (c :: s).drop widths.sum = [] := by
      rw [← hlen]
      exact List.drop_length _
    have hall : (c :: s).all Char.isDigit = true := List.all_eq_true.2 hd
    simp only [replaceDigitGroups, htake, hdrop, hlen, hall, and_self, if_true,
      List.append_nil]

theorem stripNonDigits_digits (s : Str) : ∀ c ∈ stripNonDigits s, c.isDigit = true :=
  fun _ hc => (List.mem_filter.1 hc).2

/-- C18: `formatDocument` of the empty string is the empty string; a document with exactly 11
digits is returned as `ddd.ddd.ddd-dd` and one with exactly 14 digits as
`dd.ddd.ddd/dddd-dd`, built from its digits in order; a document with any other number of
digits is returned unchanged. -/
theorem formatDocument_shape (doc : Str) :
    formatDocument [] = [] ∧
    (∀ a b c d e f g h i j k, stripNonDigits doc = [a, b, c, d, e, f, g, h, i, j, k] →
      formatDocument doc = [a, b, c, '.', d, e, f, '.', g, h, i, '-', j, k]) ∧
    (∀ a b c d e f g h i j k m n o,
      stripNonDigits doc = [a, b, c, d, e, f, g, h, i, j, k, m, n, o] →
      formatDocument doc =
        [a, b, '.', c, d, e, '.', f, g, h, '/', i, j, k, m, '-', n, o]) ∧
    ((stripNonDigits doc).length ≠ 11 → (stripNonDigits doc).length ≠ 14 →
      formatDocument doc = doc) := by
  refine ⟨rfl, ?_, ?_, ?_⟩
  · intro a b c d e f g h i j k hs
    have hne : doc.isEmpty = false := by
      cases doc with
      | nil => simp [stripNonDigits] at hs
      | cons _ _ => rfl
    have hd := stripNonDigits_digits doc
    rw [hs] at hd
    have hidem := stripNonDigits_idem doc
    rw [hs] at hidem
    simp only [formatDocument, hne, Bool.false_eq_true, if_false, hs, List.length_cons,
      List.length_nil, Nat.reduceAdd, if_true, formatCPF, List.isEmpty_cons, hidem, ne_eq,
      not_true_eq_false]
    rw [replaceDigitGroups_whole [3, 3, 3, 2] _ [a, b, c, d, e, f, g, h, i, j, k]
      (by simp) rfl hd]
    rfl
  · intro a b c d e f g h i j k m n o hs
    have hne : doc.isEmpty = false := by
      cases doc with
      | nil => simp [stripNonDigits] at hs
      | cons _ _ => rfl
    have hd := stripNonDigits_digits doc
    rw [hs] at hd
    have hidem := stripNonDigits_idem doc
    rw [hs] at hidem
    simp only [formatDocument, hne, Bool.false_eq_true, if_false, hs, List.length_cons,
      List.length_nil, Nat.reduceAdd, Nat.reduceEqDiff, if_true, formatCNPJ, List.isEmpty_cons,
      hidem, ne_eq, not_true_eq_false]
    rw [replaceDigitGroups_whole [2, 3, 3, 4, 2] _ [a, b, c, d, e, f, g, h, i, j, k, m, n, o]
      (by simp) rfl hd]
    rfl
  · intro h11 h14
    cases doc with
    | nil => rfl
    | cons c rest =>
      simp only [formatDocument, List.isEmpty_cons, Bool.false_eq_true, if_false, h11, h14]

/-- Witness for C18: a CPF given as digits, a CNPJ given with other punctuation, and a
document of nine digits. -/
theorem formatDocument_shape_witness :
    formatDocument "52998224725".toList = "529.982.247-25".toList ∧
    formatDocument "11 222 333 0001 81".toList = "11.222.333/0001-81".toList ∧
    formatDocument "12.345.678-9".toList = "12.345.678-9".toList :=
  ⟨(formatDocument_shape "52998224725".toList).2.1 _ _ _ _ _ _ _ _ _ _ _ rfl,
   (formatDocument_shape "11 222 333 0001 81".toList).2.2.1 _ _ _ _ _ _ _ _ _ _ _ _ _ _ rfl,
   (formatDocument_shape "12.345.678-9".toList).2.2.2 (by decide) (by decide)⟩

/-- C19: `formatPhone` returns `(dd) ddddd-dddd` for 11 digits, `(dd) dddd-dddd` for 10,
`ddddd-dddd` for 9 and `dddd-dddd` for 8, built from the digits of the phone in order, and the
phone unchanged for any other number of digits; so the digits of the result are always the
digits of the phone. -/
theorem formatPhone_shape (phone : Str) :
    (∀ a b c d e f g h i j k, stripNonDigits phone = [a, b, c, d, e, f, g, h, i, j, k] →
      formatPhone phone = ['(', a, b, ')', ' ', c, d, e, f, g, '-', h, i, j, k]) ∧
    (∀ a b c d e f g h i j, stripNonDigits phone = [a, b, c, d, e, f, g, h, i, j] →
      formatPhone phone = ['(', a, b, ')', ' ', c, d, e, f, '-', g, h, i, j]) ∧
    (∀ a b c d e f g h i, stripNonDigits phone = [a, b, c, d, e, f, g, h, i] →
      formatPhone phone = [a, b, c, d, e, '-', f, g, h, i]) ∧
    (∀ a b c d e f g h, stripNonDigits phone = [a, b, c, d, e, f, g, h] →
      formatPhone phone = [a, b, c, d, '-', e, f, g, h]) ∧
    ((stripNonDigits phone).length ≠ 11 → (stripNonDigits phone).length ≠ 10 →
      (stripNonDigits phone).length ≠ 9 → (stripNonDigits phone).length ≠ 8 →
      formatPhone phone = phone) ∧
    stripNonDigits (formatPhone phone) = stripNonDigits phone := by
  have hne : ∀ x rest, stripNonDigits phone = x :: rest → phone.isEmpty = false := by
    intro x rest hs
    cases phone with
    | nil => simp [stripNonDigits] at hs
    | cons _ _ => rfl
  have hd := stripNonDigits_digits phone
  have p11 : ∀ a b c d e f g h i j k,
      stripNonDigits phone = [a, b, c, d, e, f, g, h, i, j, k] →
      formatPhone phone = ['(', a, b, ')', ' ', c, d, e, f, g, '-', h, i, j, k] := by
    intro a b c d e f g h i j k hs
    rw [hs] at hd
    simp only [formatPhone, hne _ _ hs, Bool.false_eq_true, if_false, hs, List.length_cons,
      List.length_nil, Nat.reduceAdd, if_true]
    rw [replaceDigitGroups_whole [2, 5, 4] _ [a, b, c, d, e, f, g, h, i, j, k]
      (by simp) rfl hd]
    rfl
  have p10 : ∀ a b c d e f g h i j,
      stripNonDigits phone = [a, b, c, d, e, f, g, h, i, j] →
      formatPhone phone = ['(', a, b, ')', ' ', c, d, e, f, '-', g, h, i, j] := by
    intro a b c d e f g h i j hs
    rw [hs] at hd
    simp only [formatPhone, hne _ _ hs, Bool.false_eq_true, if_false, hs, List.length_cons,
      List.length_nil, Nat.reduceAdd, Nat.reduceEqDiff, if_true]
    rw [replaceDigitGroups_whole [2, 4, 4] _ [a, b, c, d, e, f, g, h, i, j]
      (by simp) rfl hd]
    rfl
  have p9 : ∀ a b c d e f g h i,
      stripNonDigits phone = [a, b, c, d, e, f, g, h, i] →
      formatPhone phone = [a, b, c, d, e, '-', f, g, h, i] := by
    intro a b c d e f g h i hs
    rw [hs] at hd
    simp only [formatPhone, hne _ _ hs, Bool.false_eq_true, if_false, hs, List.length_cons,
      List.length_nil, Nat.reduceAdd, Nat.reduceEqDiff, if_true]
    rw [replaceDigitGroups_whole [5, 4] _ [a, b, c, d, e, f, g, h, i] (by simp) rfl hd]
    rfl
  have p8 : ∀ a b c d e f g h,
      stripNonDigits phone = [a, b, c, d, e, f, g, h] →
      formatPhone phone = [a, b, c, d, '-', e, f, g, h] := by
    intro a b c d e f g h hs
    rw [hs] at hd
    simp only [formatPhone, hne _ _ hs, Bool.false_eq_true, if_false, hs, List.length_cons,
      List.length_nil, Nat.reduceAdd, Nat.reduceEqDiff, if_true]
    rw [replaceDigitGroups_whole [4, 4] _ [a, b, c, d, e, f, g, h] (by simp) rfl hd]
    rfl
  have pother : (stripNonDigits phone).length ≠ 11 → (stripNonDigits phone).length ≠ 10 →
      (stripNonDigits phone).length ≠ 9 → (stripNonDigits phone).length ≠ 8 →
      formatPhone phone = phone := by
    intro h11 h10 h9 h8
    cases phone with
    | nil => rfl
    | cons c rest =>
      simp only [formatPhone, List.isEmpty_cons, Bool.false_eq_true, if_false, h11, h10, h9, h8]
  refine ⟨p11, p10, p9, p8, pother, ?_⟩
  have hp : ('(').isDigit = false := by decide
  have hq : (')').isDigit = false := by decide
  have hb : (' ').isDigit = false := by decide
  have hm : ('-').isDigit = false := by decide
  match hs : stripNonDigits phone with
  | [a, b, c, d, e, f, g, h, i, j, k] =>
    rw [hs] at hd
    rw [p11 _ _ _ _ _ _ _ _ _ _ _ hs]
    simp only [List.mem_cons, forall_eq_or_imp, List.not_mem_nil, false_implies,
      implies_true, and_true] at hd
    simp [stripNonDigits, List.filter, hd, hp, hq, hb, hm]
  | [a, b, c, d, e, f, g, h, i, j] =>
    rw [hs] at hd
    rw [p10 _ _ _ _ _ _ _ _ _ _ hs]
    simp only [List.mem_cons, forall_eq_or_imp, List.not_mem_nil, false_implies,
      implies_true, and_true] at hd
    simp [stripNonDigits, List.filter, hd, hp, hq, hb, hm]
  | [a, b, c, d, e, f, g, h, i] =>
    rw [hs] at hd
    rw [p9 _ _ _ _ _ _ _ _ _ hs]
    simp only [List.mem_cons, forall_eq_or_imp, List.not_mem_nil, false_implies,
      implies_true, and_true] at hd
    simp [stripNonDigits, List.filter, hd, hm]
  | [a, b, c, d, e, f, g, h] =>
    rw [hs] at hd
    rw [p8 _ _ _ _ _ _ _ _ hs]
    simp only [List.mem_cons, forall_eq_or_imp, List.not_mem_nil, false_implies,
      implies_true, and_true] at hd
    simp [stripNonDigits, List.filter, hd, hm]
  | [] => rw [pother (by simp [hs]) (by simp [hs]) (by simp [hs]) (by simp [hs]), hs]
  | [_] => rw [pother (by simp [hs]) (by simp [hs]) (by simp [hs]) (by simp [hs]), hs]
  | [_, _] => rw [pother (by simp [hs]) (by simp [hs]) (by simp [hs]) (by simp [hs]), hs]
  | [_, _, _] => rw [pother (by simp [hs]) (by simp [hs]) (by simp [hs]) (by simp [hs]), hs]
  | [_, _, _, _] => rw [pother (by simp [hs]) (by simp [hs]) (by simp [hs]) (by simp [hs]), hs]
  | [_, _, _, _, _] =>
    rw [pother (by simp [hs]) (by simp [hs]) (by simp [hs]) (by simp [hs]), hs]
  | [_, _, _, _, _, _] =>
    rw [pother (by simp [hs]) (by simp [hs]) (by simp [hs]) (by simp [hs]), hs]
  | [_, _, _, _, _, _, _] =>
    rw [pother (by simp [hs]) (by simp [hs]) (by simp [hs]) (by simp [hs]), hs]
  | _ :: _ :: _ :: _ :: _ :: _ :: _ :: _ :: _ :: _ :: _ :: _ :: _ =>
    rw [pother (by simp [hs]) (by simp [hs]) (by simp [hs]) (by simp [hs]), hs]

/-- Witness for C19: a mobile number with area code, a land line without, and a number too
short to format. -/
theorem formatPhone_shape_witness :
    formatPhone "11987654321".toList = "(11) 98765-4321".toList ∧
    formatPhone "3344 5566".toList = "3344-5566".toList ∧
    formatPhone "190".toList = "190".toList :=
  ⟨(formatPhone_shape "11987654321".toList).1 _ _ _ _ _ _ _ _ _ _ _ rfl,
   (formatPhone_shape "3344 5566".toList).2.2.2.1 _ _ _ _ _ _ _ _ rfl,
   (formatPhone_shape "190".toList).2.2.2.2.1 (by decide) (by decide) (by decide)
     (by decide)⟩

/-! ## Theorems on the service worker -/

/-- C20: for a request whose URL `shouldCache` accepts, the fetch handler answers with the
cached response when the cache holds one, and then neither the cache nor the list of fetched
URLs changes; otherwise it fetches from the network, answers with the network response when
there is one, and puts it in the cache exactly when its status is 200 and its type is `basic`;
whatever the network does, every entry the run leaves in the cache was there before or has
status 200 and type `basic`. -/
theorem fetch_cache_first (network : Str → Option ServiceWorker.FetchResponse)
    (request : ServiceWorker.FetchRequest) (s : ServiceWorker.CacheState)
    (hsc : ServiceWorker.shouldCache request.url = true) :
    (∀ cached, ServiceWorker.cacheMatch s request.url = some cached →
      ServiceWorker.onFetch network request s = (.response cached, s)) ∧
    (ServiceWorker.cacheMatch s request.url = none →
      (ServiceWorker.onFetch network request s).2.fetched = s.fetched ++ [request.url] ∧
      ∀ response, network request.url = some response →
        (ServiceWorker.onFetch network request s).1 = .response response ∧
        (ServiceWorker.onFetch network request s).2.cache =
          if response.status = 200 ∧ response.type = "basic" then
            (request.url, response) ::
              s.cache.filter (fun entry => !(entry.1 == request.url))
          else s.cache) ∧
    (∀ entry ∈ (ServiceWorker.onFetch network request s).2.cache,
      entry ∈ s.cache ∨ (entry.2.status = 200 ∧ entry.2.type = "basic")) := by
  have hn : (!ServiceWorker.shouldCache request.url) = false := by simp [hsc]
  refine ⟨?_, ?_, ?_⟩
  · intro cached hc
    simp only [ServiceWorker.onFetch, hn, Bool.false_eq_true, if_false, hc]
  · intro hc
    constructor
    · simp only [ServiceWorker.onFetch, hn, Bool.false_eq_true, if_false, hc]
      split
      · split <;> rfl
      · split
        · rfl
        · split
          · split <;> rfl
          · rfl
    · intro response hr
      simp only [ServiceWorker.onFetch, hn, Bool.false_eq_true, if_false, hc, hr]
      by_cases hok : response.status = 200 ∧ response.type = "basic"
      · have hnot : ¬ (response.status ≠ 200 ∨ response.type ≠ "basic") := by
          rintro (h1 | h2)
          · exact h1 hok.1
          · exact h2 hok.2
        rw [if_neg hnot, if_pos hok]
        exact ⟨rfl, rfl⟩
      · have hyes : response.status ≠ 200 ∨ response.type ≠ "basic" := by
          by_cases h1 : response.status = 200
          · exact Or.inr (fun h2 => hok ⟨h1, h2⟩)
          · exact Or.inl h1
        rw [if_pos hyes, if_neg hok]
        exact ⟨rfl, rfl⟩
  · intro entry he
    simp only [ServiceWorker.onFetch, hn, Bool.false_eq_true, if_false] at he
    split at he
    · exact Or.inl he
    · split at he
      · rename_i response _
        split at he
        · exact Or.inl he
        · rename_i hnot
          simp only [ServiceWorker.cachePut, List.mem_cons, List.mem_filter] at he
          rcases he with rfl | ⟨he, -⟩
          · right
            simp only
            constructor
            · by_contra h1
              exact hnot (Or.inl h1)
            · by_contra h2
              exact hnot (Or.inr h2)
          · exact Or.inl he
      · split at he
        · exact Or.inl he
        · split at he
          · split at he <;> exact Or.inl he
          · exact Or.inl he

/-- Witness for C20: with an empty cache, a page answered 200 `basic` by the network is
returned and cached, and a page answered 404 is returned and not cached. -/
theorem fetch_cache_first_witness :
    ServiceWorker.onFetch
        (fun url => if url = "/index.html".toList then some { status := 200, type := "basic" }
          else some { status := 404, type := "basic" })
        { url := "/index.html".toList } {} =
      (.response { status := 200, type := "basic" },
        { cache := [("/index.html".toList, { status := 200, type := "basic" })],
          fetched := ["/index.html".toList] }) ∧
    (ServiceWorker.onFetch
        (fun url => if url = "/index.html".toList then some { status := 200, type := "basic" }
          else some { status := 404, type := "basic" })
        { url := "/missing.css".toList } {}).2.cache = [] := by
  refine ⟨by decide, ?_⟩
  have h := ((fetch_cache_first
    (fun url => if url = "/index.html".toList then some { status := 200, type := "basic" }
      else some { status := 404, type := "basic" })
    { url := "/missing.css".toList } {} (by decide)).2.1 (by decide)).2
      { status := 404, type := "basic" } (by decide)
  exact h.2
end ManusNewC
